import Mathlib

/-!
# onion::DateTime

A shallow embedding of `onion/DateTime.cpp` and `onion/DateTime.hpp`.

The class stores one `std::chrono::sys_time<std::chrono::milliseconds>`; here that is the
integer count of milliseconds since 1970-01-01T00:00:00Z.  The `std::chrono` calendar
operations the class calls (`year_month_day`, `sys_days`, `floor`, `duration_cast`,
`hh_mm_ss`) are embedded from the reference algorithms of the library, with C++ integer
division written as `Int.tdiv` (truncation toward zero).
-/

set_option linter.dupNamespace false

namespace onion

/-- Equality of two results is decidable when it is on values and on failures. -/
instance instDecidableEqExcept {ε α : Type} [DecidableEq ε] [DecidableEq α] :
    DecidableEq (Except ε α)
  | .ok a, .ok b => if h : a = b then isTrue (by rw [h]) else isFalse (fun h2 => h (by cases h2; rfl))
  | .error a, .error b =>
    if h : a = b then isTrue (by rw [h]) else isFalse (fun h2 => h (by cases h2; rfl))
  | .ok _, .error _ => isFalse (fun h => by cases h)
  | .error _, .ok _ => isFalse (fun h => by cases h)

/-! ## The C++ type `double` -/

/-- A value of the C++ type `double`: `finite m e` is the number `m * 2 ^ e`; the other
three are the two infinities and a NaN. -/
inductive Double where
  | finite (mantissa : Int) (exponent : Int)
  | posInf
  | negInf
  | nan
  deriving DecidableEq, Repr

namespace Double

/-- Numerator of `m * 2 ^ e` over the common denominator `2 ^ (-e0)`, for `e0 ≤ e`. -/
def scaled (m e e0 : Int) : Int :=
  m * (((2 : Nat) ^ (e - e0).toNat : Nat) : Int)

/-- The comparison `x < y` of two doubles: false as soon as one side is a NaN. -/
def lt : Double → Double → Bool
  | finite m1 e1, finite m2 e2 => decide (scaled m1 e1 (min e1 e2) < scaled m2 e2 (min e1 e2))
  | finite _ _, posInf => true
  | finite _ _, negInf => false
  | finite _ _, nan => false
  | posInf, _ => false
  | negInf, finite _ _ => true
  | negInf, posInf => true
  | negInf, negInf => false
  | negInf, nan => false
  | nan, _ => false

/-- The comparison `x >= y` of two doubles: false as soon as one side is a NaN. -/
def ge : Double → Double → Bool
  | finite m1 e1, finite m2 e2 => decide (scaled m2 e2 (min e1 e2) ≤ scaled m1 e1 (min e1 e2))
  | finite _ _, posInf => false
  | finite _ _, negInf => true
  | finite _ _, nan => false
  | posInf, nan => false
  | posInf, _ => true
  | negInf, negInf => true
  | negInf, _ => false
  | nan, _ => false

/-- The conversion `static_cast<double>(n)` of an integer; exact for `|n| ≤ 2 ^ 53`. -/
def ofInt (n : Int) : Double :=
  finite n 0

/-- The integer part of a finite double, rounding toward zero. -/
def truncFinite (m e : Int) : Int :=
  if 0 ≤ e then m * (((2 : Nat) ^ e.toNat : Nat) : Int)
  else Int.tdiv m (((2 : Nat) ^ (-e).toNat : Nat) : Int)

/-- The conversion `static_cast<long long>(x)` where the C++ standard defines it: the integer
part, rounding toward zero, when that fits a signed 64-bit integer; every other case (a NaN,
an infinity, a value too large) is `none`. -/
def toLongLong : Double → Option Int
  | finite m e =>
    if -9223372036854775808 ≤ truncFinite m e ∧ truncFinite m e ≤ 9223372036854775807 then
      some (truncFinite m e)
    else none
  | _ => none

/-- The conversion `static_cast<long long>(x)` as the compiled constructor performs it: the
integer part where the standard defines the cast, and otherwise (a NaN, an infinity, a value
too large) the value the x86-64 instruction `cvttsd2si` delivers, `-2 ^ 63`. -/
def static_cast_long_long (x : Double) : Int :=
  match x.toLongLong with
  | some v => v
  | none => -9223372036854775808

end Double

/-! ## The parts of `std::chrono` the class uses -/

namespace chrono

/-- The constructor `std::chrono::year{int}`: the value is stored in a `short`. -/
def year (v : Int) : Int :=
  (v + 32768) % 65536 - 32768

/-- The conversion `static_cast<unsigned>(v)` of an `int`. -/
def toUnsigned (v : Int) : Int :=
  v % 4294967296

/-- The constructor `std::chrono::month{unsigned}`: the value is stored in an
`unsigned char`. -/
def month (v : Int) : Int :=
  v % 256

/-- The constructor `std::chrono::day{unsigned}`: the value is stored in an
`unsigned char`. -/
def day (v : Int) : Int :=
  v % 256

/-- The member `year::is_leap`. -/
def is_leap (y : Int) : Bool :=
  Int.tmod y 4 == 0 && (Int.tmod y 100 != 0 || Int.tmod y 400 == 0)

/-- The member `year::ok`: a year is valid from -32767 to 32767. -/
def year_ok (y : Int) : Bool :=
  decide (-32767 ≤ y) && decide (y ≤ 32767)

/-- The member `month::ok`. -/
def month_ok (m : Int) : Bool :=
  decide (1 ≤ m) && decide (m ≤ 12)

/-- The class `std::chrono::year_month_day`: three stored fields, not necessarily a date
that exists. -/
structure year_month_day where
  y : Int
  m : Int
  d : Int
  deriving DecidableEq, Repr

/-- The table of month lengths of a common year, indexed from January. -/
def month_lengths : List Int :=
  [31, 28, 31, 30, 31, 30, 31, 31, 30, 31, 30, 31]

/-- The member `year_month_day_last::day`: the last day of month `m` of year `y`. -/
def last_day (y m : Int) : Int :=
  if (m != 2 || !is_leap y) && month_ok m then month_lengths.getD (m - 1).toNat 29 else 29

/-- The member `year_month_day::ok`. -/
def year_month_day.ok (ymd : year_month_day) : Bool :=
  if !year_ok ymd.y || !month_ok ymd.m then false
  else decide (1 ≤ ymd.d) && decide (ymd.d ≤ last_day ymd.y ymd.m)

/-- The conversion `sys_days{ymd}`: the number of days from 1970-01-01 to the date. -/
def year_month_day.to_days (ymd : year_month_day) : Int :=
  let yr := ymd.y - (if ymd.m ≤ 2 then 1 else 0)
  let mth := ymd.m
  let dy := ymd.d
  let era := Int.tdiv (if yr ≥ 0 then yr else yr - 399) 400
  let yoe := yr - era * 400
  let doy := Int.tdiv (153 * (mth + (if mth > 2 then -3 else 9)) + 2) 5 + dy - 1
  let doe := yoe * 365 + Int.tdiv yoe 4 - Int.tdiv yoe 100 + doy
  era * 146097 + doe - 719468

/-- The conversion `year_month_day{sys_days}`: the date that lies `d` days after
1970-01-01. -/
def year_month_day.from_days (d : Int) : year_month_day :=
  let z := d + 719468
  let era := Int.tdiv (if z ≥ 0 then z else z - 146096) 146097
  let doe := z - era * 146097
  let yoe := Int.tdiv (doe - Int.tdiv doe 1460 + Int.tdiv doe 36524 - Int.tdiv doe 146096) 365
  let yr := yoe + era * 400
  let doy := doe - (365 * yoe + Int.tdiv yoe 4 - Int.tdiv yoe 100)
  let mp := Int.tdiv (5 * doy + 2) 153
  let dy := doy - Int.tdiv (153 * mp + 2) 5 + 1
  let mth := mp + (if mp < 10 then 3 else -9)
  { y := year (yr + (if mth ≤ 2 then 1 else 0)), m := month mth, d := day dy }

/-- The value a sum of `std::chrono::milliseconds` holds: their representation is a signed
64-bit integer, so the sum `v` is kept modulo `2 ^ 64`, between `-2 ^ 63` and `2 ^ 63 - 1`. -/
def int64 (v : Int) : Int :=
  (v + 9223372036854775808) % 18446744073709551616 - 9223372036854775808

/-- The conversion `duration_cast` to a unit that is `ratio` times coarser: integer
division, truncating toward zero. -/
def duration_cast (ratio : Int) (count : Int) : Int :=
  Int.tdiv count ratio

/-- The function `floor` to a unit that is `ratio` times coarser: `duration_cast`, then one
less when that came out above the argument. -/
def floor (ratio : Int) (count : Int) : Int :=
  let t := duration_cast ratio count
  if t * ratio > count then t - 1 else t

/-- The class `hh_mm_ss<Duration>`: a duration split into hours, minutes, seconds and the
rest below a second, with its sign apart. -/
structure hh_mm_ss where
  is_neg : Bool
  hours : Int
  minutes : Int
  seconds : Int
  subseconds : Int
  deriving DecidableEq, Repr

/-- The constructor `hh_mm_ss<Duration>{d}` from a count `d` of a unit of which `ticks` make
a second (1000 for milliseconds, 1 for seconds). -/
def hh_mm_ss.ofDuration (ticks : Int) (d : Int) : hh_mm_ss :=
  let a := if d < 0 then -d else d
  let h := duration_cast (3600 * ticks) a
  let m := duration_cast (60 * ticks) (a - h * (3600 * ticks))
  let s := duration_cast ticks (a - h * (3600 * ticks) - m * (60 * ticks))
  { is_neg := decide (d < 0), hours := h, minutes := m, seconds := s,
    subseconds := a - h * (3600 * ticks) - m * (60 * ticks) - s * ticks }

/-- The weekday of a day count, 0 for Sunday to 6 for Saturday: the constructor
`weekday{sys_days}`. -/
def weekday_from_days (d : Int) : Int :=
  if d ≥ -4 then Int.tmod (d + 4) 7 else Int.tmod (d + 5) 7 + 6

end chrono

/-! ## The parts of `std::format` the class uses

`toString(format)` hands the caller's template to `std::vformat` inside the replacement field
`{:` template `}`, with the stored time point as the only argument.  What follows embeds the
format-string rules of the library for that call: the replacement field and the text after
it, the format-spec of a chrono type (fill and align, width, `L`, chrono-specs), and the
rendering of every conversion specifier of a `sys_time` in the "C" locale.  Widths count
characters. -/

namespace fmt

/-- The opening brace. -/
def lbrace : Char := Char.ofNat 123

/-- The closing brace. -/
def rbrace : Char := Char.ofNat 125

/-- The decimal digits of a natural number. -/
def decimal (n : Nat) : List Char :=
  Nat.toDigits 10 n

/-- A natural number in decimal, left-padded with `0` to `w` characters. -/
def zeroPad (w : Nat) (n : Nat) : List Char :=
  List.replicate (w - (decimal n).length) '0' ++ decimal n

/-- A natural number in decimal, left-padded with a blank to `w` characters. -/
def spacePad (w : Nat) (n : Nat) : List Char :=
  List.replicate (w - (decimal n).length) ' ' ++ decimal n

/-- An integer, zero-padded to `w` digits, with a minus sign in front when negative. -/
def zeroPadInt (w : Nat) (v : Int) : List Char :=
  if v < 0 then '-' :: zeroPad w v.natAbs else zeroPad w v.natAbs

/-- The replacement field `{:03}` on a `long long`: width 3 with the sign counted in it,
filled with zeros after the sign. -/
def formatInt03 (v : Int) : List Char :=
  if v < 0 then '-' :: zeroPad 2 v.natAbs else zeroPad 3 v.natAbs

/-- The two resolutions of a `sys_time` the class formats. -/
inductive Precision where
  | seconds
  | milliseconds
  deriving DecidableEq, Repr

/-- The number of ticks of a resolution in one second. -/
def Precision.ticks : Precision → Int
  | .seconds => 1
  | .milliseconds => 1000

/-- What the chrono formatter reads off a `sys_time`: the calendar date and the weekday of
`floor<days>`, the time of day beyond it, and the day count itself. -/
structure Fields where
  days : Int
  ymd : chrono.year_month_day
  wd : Int
  hms : chrono.hh_mm_ss
  fractional : Bool
  deriving DecidableEq, Repr

/-- The fields of a `sys_time` of resolution `p` holding `count`. -/
def fieldsOf (p : Precision) (count : Int) : Fields :=
  let days := chrono.floor (86400 * p.ticks) count
  { days := days
    ymd := chrono.year_month_day.from_days days
    wd := chrono.weekday_from_days days
    hms := chrono.hh_mm_ss.ofDuration p.ticks (count - days * (86400 * p.ticks))
    fractional := decide (p = .milliseconds) }

/-- The abbreviated weekday names of the "C" locale. -/
def weekdayAbbrev : List String :=
  ["Sun", "Mon", "Tue", "Wed", "Thu", "Fri", "Sat"]

/-- The full weekday names of the "C" locale. -/
def weekdayName : List String :=
  ["Sunday", "Monday", "Tuesday", "Wednesday", "Thursday", "Friday", "Saturday"]

/-- The abbreviated month names of the "C" locale. -/
def monthAbbrev : List String :=
  ["Jan", "Feb", "Mar", "Apr", "May", "Jun", "Jul", "Aug", "Sep", "Oct", "Nov", "Dec"]

/-- The full month names of the "C" locale. -/
def monthName : List String :=
  ["January", "February", "March", "April", "May", "June", "July", "August", "September",
   "October", "November", "December"]

/-- The conversion `%Y` on year `y`: at least four digits. -/
def renderYear (y : Int) : List Char :=
  zeroPadInt 4 y

/-- The conversion `%C` on year `y`: the year divided by 100, flooring. -/
def renderCentury (y : Int) : List Char :=
  zeroPadInt 2 (y / 100)

/-- The conversion `%y` on year `y`: the last two decimal digits. -/
def renderYear2 (y : Int) : List Char :=
  zeroPad 2 (y % 100).toNat

/-- The seconds of `%S` and `%T`: two digits, then for a resolution finer than a second the
decimal point and the three digits of the milliseconds. -/
def renderSeconds (f : Fields) : List Char :=
  zeroPad 2 f.hms.seconds.toNat ++
    (if f.fractional then '.' :: zeroPad 3 f.hms.subseconds.toNat else [])

/-- The hour of the 12-hour clock. -/
def hour12 (h : Int) : Int :=
  if h % 12 = 0 then 12 else h % 12

/-- The day of the year of the fields, from 0. -/
def yday (f : Fields) : Int :=
  f.days - chrono.year_month_day.to_days ⟨f.ymd.y, 1, 1⟩

/-- The day count of the Thursday of the ISO week of the fields. -/
def isoThursday (f : Fields) : Int :=
  f.days - (f.wd + 6) % 7 + 3

/-- The ISO week-based year of the fields. -/
def isoYear (f : Fields) : Int :=
  (chrono.year_month_day.from_days (isoThursday f)).y

/-- The ISO week number of the fields. -/
def isoWeek (f : Fields) : Int :=
  (isoThursday f - chrono.year_month_day.to_days ⟨isoYear f, 1, 1⟩) / 7 + 1

/-- The type characters of the conversion specifiers a `sys_time` accepts; `q` and `Q` are
for durations only. -/
def convTypes : List Char :=
  "aAbBcCdDeFgGhHIjmMnprRStTuUVwWxXyYzZ%".toList

/-- The type characters the modifier `E` may precede. -/
def modTypesE : List Char :=
  "cCxXyYz".toList

/-- The type characters the modifier `O` may precede. -/
def modTypesO : List Char :=
  "deHImMSuUVwWyz".toList

/-- One element of a chrono-specs: a literal character, or a conversion specifier with its
modifier (`E` or `O`, or none) and its type. -/
inductive Item where
  | lit (c : Char)
  | conv (modifier : Option Char) (type : Char)
  deriving DecidableEq, Repr

/-- The rendering of the conversion of type `t` (with a modifier when `modified`) on the
fields `f`, in the "C" locale. -/
def renderConv (f : Fields) (modified : Bool) (t : Char) : List Char :=
  if t = '%' then ['%']
  else if t = 'n' then ['\n']
  else if t = 't' then ['\t']
  else if t = 'a' then (weekdayAbbrev.getD f.wd.toNat "").toList
  else if t = 'A' then (weekdayName.getD f.wd.toNat "").toList
  else if t = 'b' ∨ t = 'h' then (monthAbbrev.getD (f.ymd.m - 1).toNat "").toList
  else if t = 'B' then (monthName.getD (f.ymd.m - 1).toNat "").toList
  else if t = 'c' then
    (weekdayAbbrev.getD f.wd.toNat "").toList ++ [' ']
      ++ (monthAbbrev.getD (f.ymd.m - 1).toNat "").toList ++ [' ']
      ++ spacePad 2 f.ymd.d.toNat ++ [' '] ++ zeroPad 2 f.hms.hours.toNat ++ [':']
      ++ zeroPad 2 f.hms.minutes.toNat ++ [':'] ++ zeroPad 2 f.hms.seconds.toNat ++ [' ']
      ++ renderYear f.ymd.y
  else if t = 'C' then renderCentury f.ymd.y
  else if t = 'd' then zeroPad 2 f.ymd.d.toNat
  else if t = 'D' ∨ t = 'x' then
    zeroPad 2 f.ymd.m.toNat ++ ['/'] ++ zeroPad 2 f.ymd.d.toNat ++ ['/']
      ++ renderYear2 f.ymd.y
  else if t = 'e' then spacePad 2 f.ymd.d.toNat
  else if t = 'F' then
    renderYear f.ymd.y ++ ['-'] ++ zeroPad 2 f.ymd.m.toNat ++ ['-'] ++ zeroPad 2 f.ymd.d.toNat
  else if t = 'g' then renderYear2 (isoYear f)
  else if t = 'G' then renderYear (isoYear f)
  else if t = 'H' then zeroPad 2 f.hms.hours.toNat
  else if t = 'I' then zeroPad 2 (hour12 f.hms.hours).toNat
  else if t = 'j' then zeroPad 3 (yday f + 1).toNat
  else if t = 'm' then zeroPad 2 f.ymd.m.toNat
  else if t = 'M' then zeroPad 2 f.hms.minutes.toNat
  else if t = 'p' then (if f.hms.hours < 12 then "AM" else "PM").toList
  else if t = 'r' then
    zeroPad 2 (hour12 f.hms.hours).toNat ++ [':'] ++ zeroPad 2 f.hms.minutes.toNat ++ [':']
      ++ zeroPad 2 f.hms.seconds.toNat ++ [' ']
      ++ (if f.hms.hours < 12 then "AM" else "PM").toList
  else if t = 'R' then zeroPad 2 f.hms.hours.toNat ++ [':'] ++ zeroPad 2 f.hms.minutes.toNat
  else if t = 'S' then renderSeconds f
  else if t = 'T' then
    zeroPad 2 f.hms.hours.toNat ++ [':'] ++ zeroPad 2 f.hms.minutes.toNat ++ [':']
      ++ renderSeconds f
  else if t = 'u' then decimal (if f.wd = 0 then 7 else f.wd).toNat
  else if t = 'U' then zeroPad 2 ((yday f + 7 - f.wd) / 7).toNat
  else if t = 'V' then zeroPad 2 (isoWeek f).toNat
  else if t = 'w' then decimal f.wd.toNat
  else if t = 'W' then zeroPad 2 ((yday f + 7 - (f.wd + 6) % 7) / 7).toNat
  else if t = 'X' then
    zeroPad 2 f.hms.hours.toNat ++ [':'] ++ zeroPad 2 f.hms.minutes.toNat ++ [':']
      ++ zeroPad 2 f.hms.seconds.toNat
  else if t = 'y' then renderYear2 f.ymd.y
  else if t = 'Y' then renderYear f.ymd.y
  else if t = 'z' then (if modified then "+00:00" else "+0000").toList
  else if t = 'Z' then "UTC".toList
  else []

/-- The rendering of one element of a chrono-specs. -/
def renderItem (f : Fields) : Item → List Char
  | .lit c => [c]
  | .conv modifier t => renderConv f modifier.isSome t

/-- The rendering of a chrono-specs: its elements one after the other. -/
def renderItems (f : Fields) : List Item → List Char
  | [] => []
  | i :: rest => renderItem f i ++ renderItems f rest

/-- Where the chrono-specs parser stands: in the text between conversion specifiers, behind
a `%`, or behind a `%` and a modifier. -/
inductive ParseState where
  | text
  | percent
  | modifier (m : Char)
  deriving DecidableEq, Repr

/-- The chrono-specs parser, one character at a time: it reads conversion specifiers and
literal characters up to the closing brace of the replacement field, which it leaves in
place, or up to the end of the text.  It is a `format_error` to meet an opening brace, a `%`
with no type after it, a type that is no conversion specifier of a `sys_time`, or a modifier
its type does not take. -/
def parseChronoSpecsFrom : ParseState → List Char → Except String (List Item × List Char)
  | .text, [] => .ok ([], [])
  | .percent, [] => .error "chrono format error: unescaped % in chrono-specs"
  | .modifier _, [] => .error "chrono format error: unescaped % in chrono-specs"
  | .text, c :: rest =>
    if c = rbrace then .ok ([], c :: rest)
    else if c = lbrace then .error "chrono format error: opening brace in chrono-specs"
    else if c = '%' then parseChronoSpecsFrom .percent rest
    else
      match parseChronoSpecsFrom .text rest with
      | .ok (items, tail) => .ok (.lit c :: items, tail)
      | .error e => .error e
  | .percent, t :: rest =>
    if t = 'E' ∨ t = 'O' then parseChronoSpecsFrom (.modifier t) rest
    else if t ∈ convTypes then
      match parseChronoSpecsFrom .text rest with
      | .ok (items, tail) => .ok (.conv none t :: items, tail)
      | .error e => .error e
    else .error "chrono format error: invalid specifier in chrono-specs"
  | .modifier m, u :: rest =>
    if (m = 'E' ∧ u ∈ modTypesE) ∨ (m = 'O' ∧ u ∈ modTypesO) then
      match parseChronoSpecsFrom .text rest with
      | .ok (items, tail) => .ok (.conv (some m) u :: items, tail)
      | .error e => .error e
    else .error "chrono format error: invalid modifier in chrono-specs"

/-- The chrono-specs parser, from the start of a chrono-specs. -/
def parseChronoSpecs (s : List Char) : Except String (List Item × List Char) :=
  parseChronoSpecsFrom .text s

/-- The three alignments of a format-spec. -/
inductive Align where
  | left
  | right
  | center
  deriving DecidableEq, Repr

/-- The alignment a character stands for, if any. -/
def alignOfChar (c : Char) : Option Align :=
  if c = '<' then some .left
  else if c = '>' then some .right
  else if c = '^' then some .center
  else none

/-- The format-spec of a chrono type, parsed. -/
structure ChronoSpec where
  fill : Char
  align : Align
  width : Nat
  items : List Item
  deriving DecidableEq, Repr

/-- The fill-and-align part of a format-spec: a fill character followed by an alignment, or
an alignment alone; the fill is never an opening brace. -/
def parseFillAlign : List Char → (Char × Align) × List Char
  | [] => ((' ', .left), [])
  | [c0] =>
    match alignOfChar c0 with
    | some a => ((' ', a), [])
    | none => ((' ', .left), [c0])
  | c0 :: c1 :: rest =>
    if c0 = lbrace then ((' ', .left), c0 :: c1 :: rest)
    else
      match alignOfChar c1 with
      | some a => ((c0, a), rest)
      | none =>
        match alignOfChar c0 with
        | some a => ((' ', a), c1 :: rest)
        | none => ((' ', .left), c0 :: c1 :: rest)

/-- The digits at the head of a text, as a number, and what follows them. -/
def parseDigits (acc : Nat) : List Char → Nat × List Char
  | [] => (acc, [])
  | c :: rest =>
    if c.isDigit then parseDigits (acc * 10 + (c.toNat - 48)) rest else (acc, c :: rest)

/-- The width part of a format-spec: a positive integer.  A width that starts with `0` is a
`format_error`, and so is a width taken from a further argument (an opening brace), of which
this call has none. -/
def parseWidth : List Char → Except String (Nat × List Char)
  | [] => .ok (0, [])
  | c :: rest =>
    if c = lbrace then .error "format error: no argument for the width"
    else if c = '0' then .error "format error: width must be non-zero"
    else if c.isDigit then .ok (parseDigits 0 (c :: rest))
    else .ok (0, c :: rest)

/-- Whether the format-spec is over: at the end of the text or at a closing brace. -/
def finished : List Char → Bool
  | [] => true
  | c :: _ => c = rbrace

/-- The chrono-specs of a format-spec: empty, or starting with a `%`. -/
def parseSpecsPart (s : List Char) : Except String (List Item × List Char) :=
  if finished s then .ok ([], s)
  else if s.head? = some '%' then parseChronoSpecs s
  else .error "chrono format error: no % at start of chrono-specs"

/-- The option `L` of a format-spec, skipped: the locale of the call is the "C" locale. -/
def parseLocale : List Char → List Char
  | [] => []
  | c :: rest => if c = 'L' then rest else c :: rest

/-- The format-spec parser of a `sys_time`: fill and align, width, `L`, chrono-specs; it
stops in front of the closing brace of the replacement field. -/
def parseChronoFormatSpec (s : List Char) : Except String (ChronoSpec × List Char) :=
  if finished s then .ok ({ fill := ' ', align := .left, width := 0, items := [] }, s)
  else
    let fa := parseFillAlign s
    if finished fa.2 then
      .ok ({ fill := fa.1.1, align := fa.1.2, width := 0, items := [] }, fa.2)
    else
      match parseWidth fa.2 with
      | .error e => .error e
      | .ok (w, s2) =>
        match parseSpecsPart (parseLocale s2) with
        | .error e => .error e
        | .ok (items, tail) =>
          .ok ({ fill := fa.1.1, align := fa.1.2, width := w, items := items }, tail)

/-- The text of a format string outside its replacement fields: `{{` and `}}` stand for one
brace, a single closing brace is a `format_error`, and so is a further replacement field,
for which this call has no argument. -/
def scanText : List Char → Except String (List Char)
  | [] => .ok []
  | [c] =>
    if c = lbrace ∨ c = rbrace then .error "format error: unmatched brace in format string"
    else .ok [c]
  | c :: d :: rest =>
    if c = lbrace ∨ c = rbrace then
      if d = c then
        match scanText rest with
        | .ok out => .ok (c :: out)
        | .error e => .error e
      else if c = lbrace then .error "format error: no argument for the replacement field"
      else .error "format error: unmatched brace in format string"
    else
      match scanText (d :: rest) with
      | .ok out => .ok (c :: out)
      | .error e => .error e

/-- The output of a chrono-specs, or of the default `%F %T` when it is empty. -/
def renderSpec (f : Fields) (items : List Item) : List Char :=
  if items.isEmpty then
    renderItems f [.conv none 'F', .lit ' ', .conv none 'T']
  else renderItems f items

/-- The output padded to the width of the format-spec. -/
def pad (spec : ChronoSpec) (out : List Char) : List Char :=
  let n := spec.width - out.length
  match spec.align with
  | .left => out ++ List.replicate n spec.fill
  | .right => List.replicate n spec.fill ++ out
  | .center => List.replicate (n / 2) spec.fill ++ out ++ List.replicate (n - n / 2) spec.fill

/-- The call `std::vformat("{:" + format + "}", make_format_args(tp))` for a `sys_time` of
resolution `p` holding `count`: the format-spec is parsed out of `format` followed by the
closing brace, the closing brace has to come next, and what is left is text. -/
def vformat (p : Precision) (count : Int) (format : List Char) : Except String (List Char) :=
  match parseChronoFormatSpec (format ++ [rbrace]) with
  | .error e => .error e
  | .ok (spec, tail) =>
    match tail with
    | [] => .error "format error: unmatched brace in format string"
    | c :: text =>
      if c = rbrace then
        match scanText text with
        | .error e => .error e
        | .ok out => .ok (pad spec (renderSpec (fieldsOf p count) spec.items) ++ out)
      else .error "format error: unmatched brace in format string"

/-- The chrono-specs `%Y-%m-%dT%H:%M:%S` of the first replacement field of `toString()`. -/
def isoItems : List Item :=
  [.conv none 'Y', .lit '-', .conv none 'm', .lit '-', .conv none 'd', .lit 'T',
   .conv none 'H', .lit ':', .conv none 'M', .lit ':', .conv none 'S']

end fmt

/-! ## The class `DateTime` -/

/-- The exceptions the class throws, with their message. -/
inductive Failure where
  | out_of_range (what : String)
  | invalid_argument (what : String)
  deriving DecidableEq, Repr

/-- The class `DateTime`: its one data member, the count of milliseconds since
1970-01-01T00:00:00Z. -/
structure DateTime where
  m_timePoint : Int
  deriving DecidableEq, Repr

namespace DateTime

/-- The accessor `getYear`. -/
def getYear (dt : DateTime) : Int :=
  (chrono.year_month_day.from_days (chrono.floor 86400000 dt.m_timePoint)).y

/-- The accessor `getMonth`. -/
def getMonth (dt : DateTime) : Int :=
  (chrono.year_month_day.from_days (chrono.floor 86400000 dt.m_timePoint)).m

/-- The accessor `getDay`. -/
def getDay (dt : DateTime) : Int :=
  (chrono.year_month_day.from_days (chrono.floor 86400000 dt.m_timePoint)).d

/-- The time of day every time accessor starts from: `m_timePoint - floor<days>(m_timePoint)`
as an `hh_mm_ss<milliseconds>`. -/
def tod (dt : DateTime) : chrono.hh_mm_ss :=
  chrono.hh_mm_ss.ofDuration 1000
    (dt.m_timePoint - chrono.floor 86400000 dt.m_timePoint * 86400000)

/-- The accessor `getHours`. -/
def getHours (dt : DateTime) : Int :=
  dt.tod.hours

/-- The accessor `getMinutes`. -/
def getMinutes (dt : DateTime) : Int :=
  dt.tod.minutes

/-- The accessor `getSeconds`. -/
def getSeconds (dt : DateTime) : Int :=
  dt.tod.seconds

/-- The accessor `getMilliseconds`. -/
def getMilliseconds (dt : DateTime) : Double :=
  Double.ofInt dt.tod.subseconds

/-- The operator `==`. -/
def operator_eq (a b : DateTime) : Bool :=
  decide (a.m_timePoint = b.m_timePoint)

/-- The operator `!=`. -/
def operator_ne (a b : DateTime) : Bool :=
  decide (a.m_timePoint ≠ b.m_timePoint)

/-- The operator `<`. -/
def operator_lt (a b : DateTime) : Bool :=
  decide (a.m_timePoint < b.m_timePoint)

/-- The operator `<=`. -/
def operator_le (a b : DateTime) : Bool :=
  decide (a.m_timePoint ≤ b.m_timePoint)

/-- The operator `>`. -/
def operator_gt (a b : DateTime) : Bool :=
  decide (a.m_timePoint > b.m_timePoint)

/-- The operator `>=`. -/
def operator_ge (a b : DateTime) : Bool :=
  decide (a.m_timePoint ≥ b.m_timePoint)

/-- The member `toString()`:
`std::format("{:%Y-%m-%dT%H:%M:%S}.{:03}Z", secondsPart, msPart)`. -/
def toString (dt : DateTime) : String :=
  let secondsPart := chrono.floor 1000 dt.m_timePoint
  let msPart := dt.m_timePoint - secondsPart * 1000
  String.mk (fmt.renderItems (fmt.fieldsOf .seconds secondsPart) fmt.isoItems
    ++ ['.'] ++ fmt.formatInt03 msPart ++ ['Z'])

/-- The member `toString(format)`: the output of `std::vformat`, and for a `format_error` an
`std::invalid_argument` that quotes the template. -/
def toString_format (dt : DateTime) (format : String) : Except Failure String :=
  match fmt.vformat .milliseconds dt.m_timePoint format.data with
  | .ok out => .ok (String.mk out)
  | .error _ => .error (.invalid_argument ("Invalid DateTime format string: " ++ format))

/-- The member `toUnixTimestamp`: `duration_cast<seconds>` of the time since the epoch. -/
def toUnixTimestamp (dt : DateTime) : Int :=
  chrono.duration_cast 1000 (dt.m_timePoint - 0)

end DateTime

/-- The constructor `DateTime(year, month, day, hours, minutes, seconds, milliseconds)`. -/
def DateTime.DateTime (year month day hours minutes seconds : Int) (milliseconds : Double) :
    Except Failure DateTime :=
  if year < 1 ∨ year > 9999 then .error (.out_of_range "year out of range")
  else if month < 1 ∨ month > 12 then .error (.out_of_range "month out of range")
  else if day < 1 ∨ day > 31 then .error (.out_of_range "day out of range")
  else if hours < 0 ∨ hours > 23 then .error (.out_of_range "hour out of range")
  else if minutes < 0 ∨ minutes > 59 then .error (.out_of_range "minute out of range")
  else if seconds < 0 ∨ seconds > 59 then .error (.out_of_range "second out of range")
  else if milliseconds.lt (Double.ofInt 0) || milliseconds.ge (Double.ofInt 1000) then
    .error (.out_of_range "millisecond out of range")
  else
    let ymd : chrono.year_month_day :=
      { y := chrono.year year,
        m := chrono.month (chrono.toUnsigned month),
        d := chrono.day (chrono.toUnsigned day) }
    if !ymd.ok then .error (.invalid_argument "invalid calendar date")
    else
      let dayPoint := ymd.to_days
      let ms := milliseconds.static_cast_long_long
      .ok { m_timePoint := chrono.int64 (dayPoint * 86400000 + hours * 3600000
              + minutes * 60000 + seconds * 1000 + ms) }

/-! ## The specialisation `std::formatter<onion::DateTime>` -/

/-- The specialisation `std::formatter<onion::DateTime>`: its one data member, the chrono
format the value is rendered with. -/
structure formatter where
  chronoFormat : List Char
  deriving DecidableEq, Repr

namespace formatter

/-- A formatter as it is constructed: `chronoFormat = "%d-%m-%Y %H:%M:%S"`. -/
def initial : formatter :=
  { chronoFormat := "%d-%m-%Y %H:%M:%S".data }

/-- The member `parse`: when the format-spec is not empty, `chronoFormat` becomes everything
in front of the first closing brace; the result is the formatter and the text from that
closing brace on. -/
def parse (self : formatter) (ctx : List Char) : formatter × List Char :=
  match ctx with
  | [] => (self, [])
  | c :: rest =>
    if c ≠ fmt.rbrace then
      ({ chronoFormat := (c :: rest).takeWhile (fun x => x ≠ fmt.rbrace) },
        (c :: rest).dropWhile (fun x => x ≠ fmt.rbrace))
    else (self, c :: rest)

/-- The member `format`: `std::vformat_to` with `"{:" + chronoFormat + "}"` and the time
point of the value. -/
def format (self : formatter) (dt : DateTime) : Except String (List Char) :=
  fmt.vformat .milliseconds dt.m_timePoint self.chronoFormat

end formatter

/-- The host call that formats one `DateTime` with a format-spec: `std::format("{}", dt)`
for the empty spec and `std::vformat("{:" + spec + "}", std::make_format_args(dt))`
otherwise.  The formatter parses the spec, the closing brace of the replacement field has to
come next, and what is left is text. -/
def format_DateTime (spec : List Char) (dt : DateTime) : Except String (List Char) :=
  let parsed := formatter.initial.parse (spec ++ [fmt.rbrace])
  match parsed.2 with
  | [] => .error "format error: unmatched brace in format string"
  | c :: text =>
    if c = fmt.rbrace then
      match parsed.1.format dt with
      | .error e => .error e
      | .ok out =>
        match fmt.scanText text with
        | .error e => .error e
        | .ok rest => .ok (out ++ rest)
    else .error "format error: unmatched brace in format string"

/-! ## The calendar in the words of the specification

These definitions follow the specification, not the code; the theorems compare the two. -/

namespace Spec

/-- A year is a leap year if divisible by 4 and (not divisible by 100, or divisible by
400). -/
def isLeapYear (y : Int) : Bool :=
  decide (y % 4 = 0) && (decide (y % 100 ≠ 0) || decide (y % 400 = 0))

/-- The length of month `m` of year `y`. -/
def daysInMonth (y m : Int) : Int :=
  if m = 2 then (if isLeapYear y then 29 else 28)
  else if m = 4 ∨ m = 6 ∨ m = 9 ∨ m = 11 then 30
  else 31

/-- The length of year `y`. -/
def daysInYear (y : Int) : Int :=
  if isLeapYear y then 366 else 365

/-- The number of days in the years `1` to `n` together. -/
def daysInYears : Nat → Int
  | 0 => 0
  | n + 1 => daysInYears n + daysInYear (n + 1)

/-- The number of days in the months `1` to `k` of year `y` together. -/
def daysInMonths (y : Int) : Nat → Int
  | 0 => 0
  | k + 1 => daysInMonths y k + daysInMonth y (k + 1)

/-- The number of days from 0001-01-01 to the date `y`-`m`-`d`, for `y ≥ 1`, counted one
year and one month at a time in the proleptic Gregorian calendar. -/
def dayNumber (y m d : Int) : Int :=
  daysInYears (y - 1).toNat + daysInMonths y (m - 1).toNat + (d - 1)

/-- The number of days from 1970-01-01 to the date `y`-`m`-`d`, negative before 1970. -/
def daysFromEpoch (y m d : Int) : Int :=
  dayNumber y m d - dayNumber 1970 1 1

/-- The template text of one element of a format template: a literal character as it is, a
placeholder as `%`, its modifier if any, and its type. -/
def itemText : fmt.Item → List Char
  | .lit c => [c]
  | .conv none t => ['%', t]
  | .conv (some m) t => ['%', m, t]

/-- The template text of a sequence of placeholders and literal characters. -/
def templateText : List fmt.Item → List Char
  | [] => []
  | i :: rest => itemText i ++ templateText rest

/-- A literal character is any character other than `%` and the two braces; a recognised
placeholder is a conversion specifier the chrono formatter accepts for a time point, with
the modifier `E` or `O` only in front of a type that takes it. -/
def recognised : fmt.Item → Bool
  | .lit c => c ≠ '%' && c ≠ fmt.lbrace && c ≠ fmt.rbrace
  | .conv none t => decide (t ∈ fmt.convTypes)
  | .conv (some m) t =>
    (m = 'E' && decide (t ∈ fmt.modTypesE)) || (m = 'O' && decide (t ∈ fmt.modTypesO))

/-- Whether a text, read from the left in the given state, has a malformed placeholder: a
`%` (or a `%` and a modifier) at its end, or followed by something that is no recognised
conversion. -/
def malformedFrom : fmt.ParseState → List Char → Bool
  | .text, [] => false
  | .percent, [] => true
  | .modifier _, [] => true
  | .text, c :: rest => if c = '%' then malformedFrom .percent rest else malformedFrom .text rest
  | .percent, t :: rest =>
    if t = 'E' ∨ t = 'O' then malformedFrom (.modifier t) rest
    else if t ∈ fmt.convTypes then malformedFrom .text rest
    else true
  | .modifier m, u :: rest =>
    if (m = 'E' ∧ u ∈ fmt.modTypesE) ∨ (m = 'O' ∧ u ∈ fmt.modTypesO) then
      malformedFrom .text rest
    else true

/-- Whether a text, read from the left, has a malformed placeholder. -/
def hasMalformedPlaceholder (s : List Char) : Bool :=
  malformedFrom .text s

/-- The part of a text in front of its first closing brace. -/
def beforeClosingBrace (s : List Char) : List Char :=
  s.takeWhile (fun c => c ≠ fmt.rbrace)

/-- Whether a text begins with `%` followed by one of `<`, `>`, `^`. -/
def beginsWithPercentAlign : List Char → Bool
  | c :: d :: _ => c = '%' && (d = '<' || d = '>' || d = '^')
  | _ => false

/-- The template with each placeholder replaced by its rendering and every literal
character copied unchanged in place. -/
def substituted (render : Option Char → Char → List Char) : List fmt.Item → List Char
  | [] => []
  | .lit c :: rest => c :: substituted render rest
  | .conv m t :: rest => render m t ++ substituted render rest

/-- The lexicographic order on tuples of integers of the same length. -/
def lexLt : List Int → List Int → Bool
  | a :: as, b :: bs => decide (a < b) || (decide (a = b) && lexLt as bs)
  | _, _ => false

end Spec

/-! # Theorems -/

/-! ## Integer division -/

theorem tdiv_of_nonneg {a b : Int} (ha : 0 ≤ a) (hb : 0 ≤ b) : Int.tdiv a b = a / b :=
  Int.tdiv_eq_ediv ha hb

theorem tdiv_of_nonpos {a b : Int} (ha : a ≤ 0) (hb : 0 ≤ b) : Int.tdiv a b = -((-a) / b) := by
  rw [← Int.tdiv_eq_ediv (by omega) hb, Int.neg_tdiv, neg_neg]

theorem tmod_eq_zero_iff (a b : Int) : Int.tmod a b = 0 ↔ a % b = 0 := by
  rw [← Int.dvd_iff_tmod_eq_zero, Int.dvd_iff_emod_eq_zero]

/-- The era of a year: the guarded truncating quotient is the floor quotient. -/
theorem era_year (yr : Int) : Int.tdiv (if yr ≥ 0 then yr else yr - 399) 400 = yr / 400 := by
  split
  · exact tdiv_of_nonneg (by omega) (by omega)
  · rw [tdiv_of_nonpos (by omega) (by omega)]
    omega

/-- The era of a day count: the guarded truncating quotient is the floor quotient. -/
theorem era_day (z : Int) :
    Int.tdiv (if z ≥ 0 then z else z - 146096) 146097 = z / 146097 := by
  split
  · exact tdiv_of_nonneg (by omega) (by omega)
  · rw [tdiv_of_nonpos (by omega) (by omega)]
    omega

/-- The function `floor` of the library is the floor quotient, for a positive ratio. -/
theorem floor_eq_ediv (ratio count : Int) (hr : 0 < ratio) :
    chrono.floor ratio count = count / ratio := by
  unfold chrono.floor chrono.duration_cast
  rcases le_total 0 count with hc | hc
  · rw [tdiv_of_nonneg hc hr.le]
    have := Int.ediv_mul_le count (ne_of_gt hr)
    simp only [gt_iff_lt]
    rw [if_neg (by omega)]
  · rw [tdiv_of_nonpos hc hr.le]
    simp only [gt_iff_lt]
    have h1 := Int.ediv_mul_le (-count) (ne_of_gt hr)
    have h2 := Int.lt_ediv_add_one_mul_self (-count) hr
    have h3 := Int.ediv_mul_le count (ne_of_gt hr)
    have h4 := Int.lt_ediv_add_one_mul_self count hr
    by_cases hz : -(-count / ratio) * ratio > count
    · rw [if_pos hz]
      have h5 : (count / ratio - (-(-count / ratio) - 1)) * ratio < ratio := by nlinarith
      have h6 : (-(-count / ratio) - 1 - count / ratio) * ratio < ratio := by nlinarith
      have h7 : count / ratio - (-(-count / ratio) - 1) < 1 := by
        by_contra hcon
        have : ratio ≤ (count / ratio - (-(-count / ratio) - 1)) * ratio := by nlinarith
        omega
      have h8 : (-(-count / ratio) - 1 - count / ratio) < 1 := by
        by_contra hcon
        have : ratio ≤ (-(-count / ratio) - 1 - count / ratio) * ratio := by nlinarith
        omega
      omega
    · rw [if_neg hz]
      have h5 : (count / ratio - (-(-count / ratio))) * ratio < ratio := by nlinarith
      have h6 : (-(-count / ratio) - count / ratio) * ratio < ratio := by nlinarith
      have h7 : count / ratio - (-(-count / ratio)) < 1 := by
        by_contra hcon
        have : ratio ≤ (count / ratio - (-(-count / ratio))) * ratio := by nlinarith
        omega
      have h8 : (-(-count / ratio) - count / ratio) < 1 := by
        by_contra hcon
        have : ratio ≤ (-(-count / ratio) - count / ratio) * ratio := by nlinarith
        omega
      omega

/-! ## The civil-date algorithms -/

/-- Recovering the year of era from the day of era. -/
theorem yoe_of_doe (yoe doy doe : Int) (h0 : 0 ≤ yoe) (h1 : yoe < 400) (hd0 : 0 ≤ doy)
    (hd1 : doy ≤ 364 ∨
      (doy = 365 ∧ (yoe + 1) % 4 = 0 ∧ ((yoe + 1) % 100 ≠ 0 ∨ (yoe + 1) % 400 = 0)))
    (hdoe : doe = 365 * yoe + yoe / 4 - yoe / 100 + doy) :
    (doe - doe / 1460 + doe / 36524 - doe / 146096) / 365 = yoe ∧ 0 ≤ doe ∧ doe ≤ 146096 := by
  have hc : yoe / 100 = 0 ∨ yoe / 100 = 1 ∨ yoe / 100 = 2 ∨ yoe / 100 = 3 := by omega
  have hr : doe - 36524 * (yoe / 100) ≤ 36523 ∨ (yoe = 399 ∧ doy = 365) := by
    rcases hd1 with hd1 | ⟨hd1, hd2, hd3⟩
    · omega
    · rcases hc with hc | hc | hc | hc <;> omega
  have hr0 : 0 ≤ doe - 36524 * (yoe / 100) := by omega
  have hg : doe / 36524 - doe / 146096 = yoe / 100 := by
    rcases hc with hc | hc | hc | hc <;> omega
  have hf : doe / 1460 = yoe / 4 + (yoe / 4 - yoe / 100 + 365 * (yoe % 4) + doy) / 1460 := by
    omega
  omega

/-- Recovering the shifted month and the day of month from the day of year. -/
theorem mp_of_doy (mp dd doy : Int) (hmp : 0 ≤ mp ∧ mp ≤ 11) (hdd : 1 ≤ dd ∧ dd ≤ 31)
    (hlen : (mp = 1 ∨ mp = 3 ∨ mp = 6 ∨ mp = 8) → dd ≤ 30) (hfeb : mp = 11 → dd ≤ 29)
    (hdoy : doy = (153 * mp + 2) / 5 + dd - 1) :
    (5 * doy + 2) / 153 = mp ∧ doy - (153 * mp + 2) / 5 + 1 = dd ∧ 0 ≤ doy ∧ doy ≤ 365 := by
  have h : mp = 0 ∨ mp = 1 ∨ mp = 2 ∨ mp = 3 ∨ mp = 4 ∨ mp = 5 ∨ mp = 6 ∨ mp = 7 ∨ mp = 8 ∨
      mp = 9 ∨ mp = 10 ∨ mp = 11 := by omega
  rcases h with h | h | h | h | h | h | h | h | h | h | h | h <;> subst h <;> omega

/-- The day count of a date in floor-division form. -/
theorem to_days_eq (y m d : Int) (hm : 1 ≤ m ∧ m ≤ 12) :
    chrono.year_month_day.to_days ⟨y, m, d⟩ =
      ((y - (if m ≤ 2 then 1 else 0)) / 400) * 146097
        + (365 * ((y - (if m ≤ 2 then 1 else 0)) % 400)
            + ((y - (if m ≤ 2 then 1 else 0)) % 400) / 4
            - ((y - (if m ≤ 2 then 1 else 0)) % 400) / 100
            + ((153 * (if m > 2 then m - 3 else m + 9) + 2) / 5 + d - 1)) - 719468 := by
  simp only [chrono.year_month_day.to_days]
  rw [era_year]
  generalize hyr : y - (if m ≤ 2 then 1 else 0) = yr
  have hyoe : yr - yr / 400 * 400 = yr % 400 := by omega
  rw [hyoe]
  have h0 : 0 ≤ yr % 400 := by omega
  rw [tdiv_of_nonneg h0 (by omega), tdiv_of_nonneg h0 (by omega)]
  have hmp : m + (if m > 2 then -3 else 9) = if m > 2 then m - 3 else m + 9 := by
    split <;> omega
  rw [hmp]
  rw [tdiv_of_nonneg (by split <;> omega) (by omega)]
  ring

/-- The date of a day count whose era, year of era, shifted month and day of month are
known. -/
theorem from_days_of_parts (z era yoe mp dd : Int) (h0 : 0 ≤ yoe) (h1 : yoe < 400)
    (hmp : 0 ≤ mp ∧ mp ≤ 11) (hdd : 1 ≤ dd ∧ dd ≤ 31)
    (hlen : (mp = 1 ∨ mp = 3 ∨ mp = 6 ∨ mp = 8) → dd ≤ 30)
    (hfeb : mp = 11 → (dd ≤ 28 ∨
      (dd = 29 ∧ (yoe + 1) % 4 = 0 ∧ ((yoe + 1) % 100 ≠ 0 ∨ (yoe + 1) % 400 = 0))))
    (hz : z + 719468 = era * 146097
      + (365 * yoe + yoe / 4 - yoe / 100 + ((153 * mp + 2) / 5 + dd - 1))) :
    chrono.year_month_day.from_days z =
      ⟨chrono.year (yoe + era * 400 + (if mp < 10 then 0 else 1)),
       chrono.month (if mp < 10 then mp + 3 else mp - 9), chrono.day dd⟩ := by
  obtain ⟨hA, hB, hC, hD⟩ := mp_of_doy mp dd ((153 * mp + 2) / 5 + dd - 1) hmp hdd hlen
    (by intro h; rcases hfeb h with h | h <;> omega) rfl
  generalize hdoy : (153 * mp + 2) / 5 + dd - 1 = doy at hz hA hB hC hD
  have hdoy1 : doy ≤ 364 ∨
      (doy = 365 ∧ (yoe + 1) % 4 = 0 ∧ ((yoe + 1) % 100 ≠ 0 ∨ (yoe + 1) % 400 = 0)) := by
    by_cases h11 : mp = 11
    · rcases hfeb h11 with h | ⟨h, h2⟩
      · left; subst h11; omega
      · by_cases h364 : doy ≤ 364
        · exact Or.inl h364
        · right; exact ⟨by omega, h2⟩
    · left
      have h : mp = 0 ∨ mp = 1 ∨ mp = 2 ∨ mp = 3 ∨ mp = 4 ∨ mp = 5 ∨ mp = 6 ∨ mp = 7 ∨
          mp = 8 ∨ mp = 9 ∨ mp = 10 := by omega
      rcases h with h | h | h | h | h | h | h | h | h | h | h <;> subst h <;> omega
  generalize hdoe : 365 * yoe + yoe / 4 - yoe / 100 + doy = doe at hz
  obtain ⟨hE, hF, hG⟩ := yoe_of_doe yoe doy doe h0 h1 hC hdoy1 hdoe.symm
  simp only [chrono.year_month_day.from_days]
  rw [era_day]
  have hera : (z + 719468) / 146097 = era := by omega
  rw [hera]
  have hdoe2 : z + 719468 - era * 146097 = doe := by omega
  rw [hdoe2]
  rw [tdiv_of_nonneg hF (by omega), tdiv_of_nonneg hF (by omega), tdiv_of_nonneg hF (by omega)]
  rw [tdiv_of_nonneg (by omega) (by omega), hE]
  rw [tdiv_of_nonneg h0 (by omega), tdiv_of_nonneg h0 (by omega)]
  have hdoy2 : doe - (365 * yoe + yoe / 4 - yoe / 100) = doy := by omega
  rw [hdoy2]
  rw [tdiv_of_nonneg (by omega) (by omega), hA]
  rw [tdiv_of_nonneg (by omega) (by omega), hB]
  have e1 : (mp + if mp < 10 then (3 : Int) else -9) = if mp < 10 then mp + 3 else mp - 9 := by
    split <;> omega
  have e2 : (if (if mp < 10 then mp + 3 else mp - 9) ≤ 2 then (1 : Int) else 0)
      = if mp < 10 then 0 else 1 := by
    split <;> split <;> omega
  rw [e1, e2]

/-- The leap-year test of the library is the rule of the specification. -/
theorem is_leap_eq (y : Int) : chrono.is_leap y = Spec.isLeapYear y := by
  unfold chrono.is_leap Spec.isLeapYear
  have h4 := tmod_eq_zero_iff y 4
  have h100 := tmod_eq_zero_iff y 100
  have h400 := tmod_eq_zero_iff y 400
  by_cases a : y % 4 = 0 <;> by_cases b : y % 100 = 0 <;> by_cases c : y % 400 = 0 <;>
    simp [a, b, c, h4.mpr, h100.mpr, h400.mpr, mt h4.mp, mt h100.mp, mt h400.mp]

/-- The last day of a month in the library is the month length of the specification. -/
theorem last_day_eq (y m : Int) (hm : 1 ≤ m ∧ m ≤ 12) :
    chrono.last_day y m = Spec.daysInMonth y m := by
  have h : m = 1 ∨ m = 2 ∨ m = 3 ∨ m = 4 ∨ m = 5 ∨ m = 6 ∨ m = 7 ∨ m = 8 ∨ m = 9 ∨
      m = 10 ∨ m = 11 ∨ m = 12 := by omega
  unfold chrono.last_day Spec.daysInMonth
  rw [is_leap_eq]
  rcases h with h | h | h | h | h | h | h | h | h | h | h | h <;> subst h <;>
    cases Spec.isLeapYear y <;> simp [chrono.month_ok, chrono.month_lengths]

/-- A date that exists is recovered from its day count. -/
theorem from_days_to_days (y m d : Int) (hm : 1 ≤ m ∧ m ≤ 12)
    (hd : 1 ≤ d ∧ d ≤ Spec.daysInMonth y m) :
    chrono.year_month_day.from_days (chrono.year_month_day.to_days ⟨y, m, d⟩) =
      ⟨chrono.year y, chrono.month m, chrono.day d⟩ := by
  have hdim : Spec.daysInMonth y m ≤ 31 := by
    unfold Spec.daysInMonth; split_ifs <;> omega
  have key := from_days_of_parts (chrono.year_month_day.to_days ⟨y, m, d⟩)
    ((y - (if m ≤ 2 then 1 else 0)) / 400) ((y - (if m ≤ 2 then 1 else 0)) % 400)
    (if m > 2 then m - 3 else m + 9) d (by omega) (by omega) (by split <;> omega)
    (by omega)
    (by
      intro h
      have : m = 4 ∨ m = 6 ∨ m = 9 ∨ m = 11 := by split at h <;> omega
      have h2 : Spec.daysInMonth y m = 30 := by
        unfold Spec.daysInMonth
        rw [if_neg (by omega), if_pos this]
      omega)
    (by
      intro h
      have hm2 : m = 2 := by split at h <;> omega
      subst hm2
      have h2 := hd.2
      unfold Spec.daysInMonth Spec.isLeapYear at h2
      simp only [if_true] at h2
      by_cases hl : y % 4 = 0 ∧ (y % 100 ≠ 0 ∨ y % 400 = 0)
      · by_cases h28 : d ≤ 28
        · exact Or.inl h28
        · right
          have h3 : d ≤ 29 := by
            revert h2; split_ifs <;> omega
          simp only [show ((2 : Int) ≤ 2) from le_refl 2, if_true]
          omega
      · left
        have : (decide (y % 4 = 0) && (decide (y % 100 ≠ 0) || decide (y % 400 = 0))) = false := by
          simp only [Bool.and_eq_false_iff, Bool.or_eq_false_iff, decide_eq_false_iff_not,
            decide_eq_true_eq]
          tauto
        rw [this] at h2
        simpa using h2)
    (by rw [to_days_eq y m d hm]; ring)
  rw [key]
  have ey : (y - (if m ≤ 2 then 1 else 0)) % 400 + (y - (if m ≤ 2 then 1 else 0)) / 400 * 400
      + (if (if m > 2 then m - 3 else m + 9) < 10 then 0 else 1) = y := by
    split <;> split <;> omega
  have em : (if (if m > 2 then m - 3 else m + 9) < 10 then (if m > 2 then m - 3 else m + 9) + 3
      else (if m > 2 then m - 3 else m + 9) - 9) = m := by
    split <;> split <;> omega
  rw [ey, em]

/-! ## Time of day -/

/-- The day and the time of day of an instant given by its parts. -/
theorem floor_tod_of_parts (D h mi s k : Int) (hh : 0 ≤ h ∧ h ≤ 23) (hmi : 0 ≤ mi ∧ mi ≤ 59)
    (hs : 0 ≤ s ∧ s ≤ 59) (hk : 0 ≤ k ∧ k ≤ 999) :
    chrono.floor 86400000 (D * 86400000 + h * 3600000 + mi * 60000 + s * 1000 + k) = D ∧
    chrono.hh_mm_ss.ofDuration 1000
      (D * 86400000 + h * 3600000 + mi * 60000 + s * 1000 + k - D * 86400000)
      = ⟨false, h, mi, s, k⟩ := by
  constructor
  · rw [floor_eq_ediv _ _ (by omega)]
    omega
  · have e : D * 86400000 + h * 3600000 + mi * 60000 + s * 1000 + k - D * 86400000
        = h * 3600000 + mi * 60000 + s * 1000 + k := by ring
    rw [e]
    simp only [chrono.hh_mm_ss.ofDuration, chrono.duration_cast, Int.reduceMul]
    have hn : ¬ (h * 3600000 + mi * 60000 + s * 1000 + k < 0) := by omega
    rw [if_neg hn]
    have e1 : Int.tdiv (h * 3600000 + mi * 60000 + s * 1000 + k) 3600000 = h := by
      rw [tdiv_of_nonneg (by omega) (by omega)]; omega
    rw [e1]
    have e2 : Int.tdiv (h * 3600000 + mi * 60000 + s * 1000 + k - h * 3600000) 60000 = mi := by
      rw [tdiv_of_nonneg (by omega) (by omega)]; omega
    rw [e2]
    have e3 : Int.tdiv (h * 3600000 + mi * 60000 + s * 1000 + k - h * 3600000 - mi * 60000) 1000
        = s := by
      rw [tdiv_of_nonneg (by omega) (by omega)]; omega
    rw [e3]
    have e4 : h * 3600000 + mi * 60000 + s * 1000 + k - h * 3600000 - mi * 60000 - s * 1000
        = k := by ring
    rw [e4]
    simp [hn]

/-! ## Doubles -/

/-- The integer part of a finite double in `[0, 1000)`: it lies in `[0, 999]`, and the double
lies between it and its successor. -/
theorem truncFinite_bounds (m e : Int)
    (h0 : (Double.finite m e).ge (Double.ofInt 0) = true)
    (h1 : (Double.finite m e).lt (Double.ofInt 1000) = true) :
    0 ≤ Double.truncFinite m e ∧ Double.truncFinite m e ≤ 999 ∧
    (Double.finite m e).ge (Double.ofInt (Double.truncFinite m e)) = true ∧
    (Double.finite m e).lt (Double.ofInt (Double.truncFinite m e + 1)) = true := by
  simp only [Double.ge, Double.lt, Double.ofInt, Double.scaled, decide_eq_true_eq] at *
  unfold Double.truncFinite
  by_cases he : 0 ≤ e
  · rw [if_pos he]
    have hmin : min e 0 = 0 := min_eq_right he
    rw [hmin] at h0 h1 ⊢
    simp only [sub_zero, Int.toNat_zero, pow_zero, Nat.cast_one, mul_one, zero_mul] at h0 h1 ⊢
    omega
  · rw [if_neg he]
    have hmin : min e 0 = e := min_eq_left (by omega)
    rw [hmin] at h0 h1 ⊢
    simp only [sub_self, Int.toNat_zero, pow_zero, Nat.cast_one, mul_one, zero_mul,
      zero_sub] at h0 h1 ⊢
    generalize hP : (((2 : Nat) ^ (-e).toNat : Nat) : Int) = P at h0 h1 ⊢
    have hPpos : 0 < P := by
      rw [← hP]; positivity
    rw [tdiv_of_nonneg h0 hPpos.le]
    refine ⟨Int.ediv_nonneg h0 hPpos.le, ?_, Int.ediv_mul_le m (ne_of_gt hPpos),
      Int.lt_ediv_add_one_mul_self m hPpos⟩
    have : m / P < 1000 := Int.ediv_lt_of_lt_mul hPpos h1
    omega

/-! ## The constructor -/

/-- A finite double that is `>= 0` is not `< 0`. -/
theorem Double.lt_false_of_ge (x y : Double) (h : x.ge y = true) : x.lt y = false := by
  cases x <;> cases y <;> simp_all [Double.ge, Double.lt]

/-- A double that is `< y` is not `>= y`. -/
theorem Double.ge_false_of_lt (x y : Double) (h : x.lt y = true) : x.ge y = false := by
  cases x <;> cases y <;> simp_all [Double.ge, Double.lt]

/-- The stored fields of the calendar date the constructor builds, once the range checks
have passed. -/
theorem ymd_of_checked (year month day : Int) (hy : 1 ≤ year ∧ year ≤ 9999)
    (hm : 1 ≤ month ∧ month ≤ 12) (hd : 1 ≤ day ∧ day ≤ 31) :
    chrono.year year = year ∧ chrono.month (chrono.toUnsigned month) = month ∧
    chrono.day (chrono.toUnsigned day) = day := by
  unfold chrono.year chrono.month chrono.day chrono.toUnsigned
  omega

/-- The validity test of the library on a date whose fields passed the range checks. -/
theorem ok_iff (year month day : Int) (hy : 1 ≤ year ∧ year ≤ 9999)
    (hm : 1 ≤ month ∧ month ≤ 12) (hd : 1 ≤ day ∧ day ≤ 31) :
    chrono.year_month_day.ok ⟨year, month, day⟩ = decide (day ≤ Spec.daysInMonth year month) := by
  unfold chrono.year_month_day.ok
  have h1 : chrono.year_ok year = true := by
    unfold chrono.year_ok; simp; omega
  have h2 : chrono.month_ok month = true := by
    unfold chrono.month_ok; simp; omega
  simp only [h1, h2, Bool.not_true, Bool.or_self, Bool.false_eq_true, if_false]
  rw [last_day_eq year month hm]
  simp [hd.1]

/-- The day count of a date whose fields passed the range checks, coarsely. -/
theorem to_days_coarse (year month day : Int) (hy : 1 ≤ year ∧ year ≤ 9999)
    (hm : 1 ≤ month ∧ month ≤ 12) (hd : 1 ≤ day ∧ day ≤ 31) :
    -720000 ≤ chrono.year_month_day.to_days ⟨year, month, day⟩ ∧
    chrono.year_month_day.to_days ⟨year, month, day⟩ ≤ 2940000 := by
  rw [to_days_eq year month day hm]
  generalize hyr : year - (if month ≤ 2 then 1 else 0) = yr
  have hyr2 : 0 ≤ yr ∧ yr ≤ 9999 := by
    rw [← hyr]; split <;> omega
  have hmp : 0 ≤ (if month > 2 then month - 3 else month + 9) ∧
      (if month > 2 then month - 3 else month + 9) ≤ 11 := by
    split <;> omega
  generalize (if month > 2 then month - 3 else month + 9) = mp at hmp
  omega

/-- A sum inside the signed 64-bit range is stored as it is. -/
theorem int64_of_fits (v : Int) (h : -9223372036854775808 ≤ v ∧ v ≤ 9223372036854775807) :
    chrono.int64 v = v := by
  unfold chrono.int64
  omega

/-- The constructor on fields that pass the seven range checks. -/
theorem ctor_of_checked (year month day hours minutes seconds : Int) (milliseconds : Double)
    (hy : 1 ≤ year ∧ year ≤ 9999) (hm : 1 ≤ month ∧ month ≤ 12) (hd : 1 ≤ day ∧ day ≤ 31)
    (hh : 0 ≤ hours ∧ hours ≤ 23) (hmi : 0 ≤ minutes ∧ minutes ≤ 59)
    (hs : 0 ≤ seconds ∧ seconds ≤ 59)
    (hlt : milliseconds.lt (Double.ofInt 0) = false)
    (hge : milliseconds.ge (Double.ofInt 1000) = false) :
    DateTime.DateTime year month day hours minutes seconds milliseconds =
      if day ≤ Spec.daysInMonth year month then
        .ok { m_timePoint := chrono.int64
                (chrono.year_month_day.to_days ⟨year, month, day⟩ * 86400000
                  + hours * 3600000 + minutes * 60000 + seconds * 1000
                  + milliseconds.static_cast_long_long) }
      else .error (.invalid_argument "invalid calendar date") := by
  obtain ⟨e1, e2, e3⟩ := ymd_of_checked year month day hy hm hd
  unfold DateTime.DateTime
  rw [if_neg (by omega), if_neg (by omega), if_neg (by omega), if_neg (by omega),
    if_neg (by omega), if_neg (by omega), hlt, hge]
  simp only [Bool.or_self, Bool.false_eq_true, if_false]
  rw [e1, e2, e3, ok_iff year month day hy hm hd]
  by_cases hdim : day ≤ Spec.daysInMonth year month
  · simp [hdim]
  · simp [hdim]

/-- The constructor on fields of which one fails its range check. -/
theorem ctor_of_unchecked (year month day hours minutes seconds : Int) (milliseconds : Double)
    (h : (year < 1 ∨ year > 9999) ∨ (month < 1 ∨ month > 12) ∨ (day < 1 ∨ day > 31) ∨
      (hours < 0 ∨ hours > 23) ∨ (minutes < 0 ∨ minutes > 59) ∨ (seconds < 0 ∨ seconds > 59) ∨
      (milliseconds.lt (Double.ofInt 0) = true ∨ milliseconds.ge (Double.ofInt 1000) = true)) :
    ∃ what, DateTime.DateTime year month day hours minutes seconds milliseconds
      = .error (.out_of_range what) := by
  unfold DateTime.DateTime
  by_cases h1 : year < 1 ∨ year > 9999
  · exact ⟨_, if_pos h1⟩
  rw [if_neg h1]
  by_cases h2 : month < 1 ∨ month > 12
  · exact ⟨_, if_pos h2⟩
  rw [if_neg h2]
  by_cases h3 : day < 1 ∨ day > 31
  · exact ⟨_, if_pos h3⟩
  rw [if_neg h3]
  by_cases h4 : hours < 0 ∨ hours > 23
  · exact ⟨_, if_pos h4⟩
  rw [if_neg h4]
  by_cases h5 : minutes < 0 ∨ minutes > 59
  · exact ⟨_, if_pos h5⟩
  rw [if_neg h5]
  by_cases h6 : seconds < 0 ∨ seconds > 59
  · exact ⟨_, if_pos h6⟩
  rw [if_neg h6]
  have h7 : (milliseconds.lt (Double.ofInt 0) || milliseconds.ge (Double.ofInt 1000)) = true := by
    rcases h with h | h | h | h | h | h | h
    · exact absurd h h1
    · exact absurd h h2
    · exact absurd h h3
    · exact absurd h h4
    · exact absurd h h5
    · exact absurd h h6
    · rcases h with h | h <;> simp [h]
  exact ⟨_, if_pos h7⟩

/-- The constructor on valid components: the stored instant. -/
theorem ctor_of_valid (year month day hours minutes seconds : Int) (milliseconds : Double)
    (hy : 1 ≤ year ∧ year ≤ 9999) (hm : 1 ≤ month ∧ month ≤ 12)
    (hd : 1 ≤ day ∧ day ≤ Spec.daysInMonth year month)
    (hh : 0 ≤ hours ∧ hours ≤ 23) (hmi : 0 ≤ minutes ∧ minutes ≤ 59)
    (hs : 0 ≤ seconds ∧ seconds ≤ 59)
    (hms : milliseconds.ge (Double.ofInt 0) = true ∧
      milliseconds.lt (Double.ofInt 1000) = true) :
    ∃ k : Int, 0 ≤ k ∧ k ≤ 999 ∧ milliseconds.toLongLong = some k ∧
      milliseconds.ge (Double.ofInt k) = true ∧ milliseconds.lt (Double.ofInt (k + 1)) = true ∧
      DateTime.DateTime year month day hours minutes seconds milliseconds =
        .ok { m_timePoint := chrono.year_month_day.to_days ⟨year, month, day⟩ * 86400000
                + hours * 3600000 + minutes * 60000 + seconds * 1000 + k } := by
  have hdim : Spec.daysInMonth year month ≤ 31 := by
    unfold Spec.daysInMonth; split_ifs <;> omega
  have hc := ctor_of_checked year month day hours minutes seconds milliseconds hy hm
    ⟨hd.1, by omega⟩ hh hmi hs (Double.lt_false_of_ge _ _ hms.1) (Double.ge_false_of_lt _ _ hms.2)
  rw [if_pos hd.2] at hc
  cases milliseconds with
  | finite m e =>
    obtain ⟨b0, b1, b2, b3⟩ := truncFinite_bounds m e hms.1 hms.2
    have ht : (Double.finite m e).toLongLong = some (Double.truncFinite m e) := by
      simp only [Double.toLongLong]
      rw [if_pos ⟨by omega, by omega⟩]
    have hcast : (Double.finite m e).static_cast_long_long = Double.truncFinite m e := by
      simp only [Double.static_cast_long_long, ht]
    obtain ⟨z0, z1⟩ := to_days_coarse year month day hy hm ⟨hd.1, by omega⟩
    refine ⟨Double.truncFinite m e, b0, b1, ht, b2, b3, ?_⟩
    rw [hc, hcast, int64_of_fits _ ⟨by omega, by omega⟩]
  | posInf => simp [Double.lt, Double.ofInt] at hms
  | negInf => simp [Double.ge, Double.ofInt] at hms
  | nan => simp [Double.ge, Double.ofInt] at hms

/-! ## Claims about construction -/

/-- The accessors of an instant given by a date that exists and a time of day. -/
theorem accessors_of_parts (y m d h mi s k : Int) (hy : 1 ≤ y ∧ y ≤ 9999)
    (hm : 1 ≤ m ∧ m ≤ 12) (hd : 1 ≤ d ∧ d ≤ Spec.daysInMonth y m)
    (hh : 0 ≤ h ∧ h ≤ 23) (hmi : 0 ≤ mi ∧ mi ≤ 59) (hs : 0 ≤ s ∧ s ≤ 59)
    (hk : 0 ≤ k ∧ k ≤ 999) :
    chrono.year_month_day.from_days (chrono.floor 86400000
      (chrono.year_month_day.to_days ⟨y, m, d⟩ * 86400000 + h * 3600000 + mi * 60000
        + s * 1000 + k)) = ⟨y, m, d⟩ ∧
    DateTime.tod ⟨chrono.year_month_day.to_days ⟨y, m, d⟩ * 86400000 + h * 3600000 + mi * 60000
        + s * 1000 + k⟩ = ⟨false, h, mi, s, k⟩ := by
  obtain ⟨f1, f2⟩ := floor_tod_of_parts (chrono.year_month_day.to_days ⟨y, m, d⟩) h mi s k
    hh hmi hs hk
  have hdim : Spec.daysInMonth y m ≤ 31 := by
    unfold Spec.daysInMonth; split_ifs <;> omega
  constructor
  · rw [f1, from_days_to_days y m d hm hd]
    have e1 : chrono.year y = y := by unfold chrono.year; omega
    have e2 : chrono.month m = m := by unfold chrono.month; omega
    have e3 : chrono.day d = d := by unfold chrono.day; omega
    rw [e1, e2, e3]
  · unfold DateTime.tod
    simp only []
    rw [f1, f2]

/-- C1. Constructor/accessor round trip: for valid components (year in [1,9999], month in
[1,12], day in [1, length of that month in that year], hours in [0,23], minutes and seconds in
[0,59], 0 <= milliseconds < 1000) the constructor succeeds, the six integer accessors return
the components, and `getMilliseconds` returns the integer part `k` of `milliseconds`, the
integer with `k <= milliseconds < k + 1`. -/
theorem constructor_accessor_round_trip (year month day hours minutes seconds : Int)
    (milliseconds : Double)
    (hyear : 1 ≤ year ∧ year ≤ 9999) (hmonth : 1 ≤ month ∧ month ≤ 12)
    (hday : 1 ≤ day ∧ day ≤ Spec.daysInMonth year month)
    (hhours : 0 ≤ hours ∧ hours ≤ 23) (hminutes : 0 ≤ minutes ∧ minutes ≤ 59)
    (hseconds : 0 ≤ seconds ∧ seconds ≤ 59)
    (hms : milliseconds.ge (Double.ofInt 0) = true ∧
      milliseconds.lt (Double.ofInt 1000) = true) :
    ∃ (dt : DateTime) (k : Int),
      DateTime.DateTime year month day hours minutes seconds milliseconds = .ok dt ∧
      dt.getYear = year ∧ dt.getMonth = month ∧ dt.getDay = day ∧
      dt.getHours = hours ∧ dt.getMinutes = minutes ∧ dt.getSeconds = seconds ∧
      dt.getMilliseconds = Double.ofInt k ∧
      milliseconds.ge (Double.ofInt k) = true ∧
      milliseconds.lt (Double.ofInt (k + 1)) = true := by
  obtain ⟨k, k0, k1, _, kge, klt, hc⟩ :=
    ctor_of_valid year month day hours minutes seconds milliseconds hyear hmonth hday hhours
      hminutes hseconds hms
  obtain ⟨a1, a2⟩ := accessors_of_parts year month day hours minutes seconds k hyear hmonth hday
    hhours hminutes hseconds ⟨k0, k1⟩
  refine ⟨_, k, hc, ?_, ?_, ?_, ?_, ?_, ?_, ?_, kge, klt⟩
  · simp only [DateTime.getYear]; rw [a1]
  · simp only [DateTime.getMonth]; rw [a1]
  · simp only [DateTime.getDay]; rw [a1]
  · simp only [DateTime.getHours]; rw [a2]
  · simp only [DateTime.getMinutes]; rw [a2]
  · simp only [DateTime.getSeconds]; rw [a2]
  · simp only [DateTime.getMilliseconds]; rw [a2]

/-- Witness of C1 at 2024-02-29 14:05:55 with the double nearest to 500.7 milliseconds,
`8808407552439091 * 2 ^ (-44)`. -/
theorem constructor_accessor_round_trip_witness :
    ∃ (dt : DateTime) (k : Int),
      DateTime.DateTime 2024 2 29 14 5 55 (Double.finite 8808407552439091 (-44)) = .ok dt ∧
      dt.getYear = 2024 ∧ dt.getMonth = 2 ∧ dt.getDay = 29 ∧
      dt.getHours = 14 ∧ dt.getMinutes = 5 ∧ dt.getSeconds = 55 ∧
      dt.getMilliseconds = Double.ofInt k ∧
      (Double.finite 8808407552439091 (-44)).ge (Double.ofInt k) = true ∧
      (Double.finite 8808407552439091 (-44)).lt (Double.ofInt (k + 1)) = true :=
  constructor_accessor_round_trip 2024 2 29 14 5 55 (Double.finite 8808407552439091 (-44))
    (by decide) (by decide) (by decide) (by decide) (by decide) (by decide) (by decide)

/-- C2. Whenever at least one of the seven fields lies outside its coarse bound (year
outside [1,9999], month outside [1,12], day outside [1,31], hours outside [0,23], minutes or
seconds outside [0,59], milliseconds negative or >= 1000), the constructor fails with
`std::out_of_range` and so produces no value, whatever the other fields are. -/
theorem constructor_out_of_range (year month day hours minutes seconds : Int)
    (milliseconds : Double)
    (h : (year < 1 ∨ year > 9999) ∨ (month < 1 ∨ month > 12) ∨ (day < 1 ∨ day > 31) ∨
      (hours < 0 ∨ hours > 23) ∨ (minutes < 0 ∨ minutes > 59) ∨ (seconds < 0 ∨ seconds > 59) ∨
      (milliseconds.lt (Double.ofInt 0) = true ∨ milliseconds.ge (Double.ofInt 1000) = true)) :
    ∃ what, DateTime.DateTime year month day hours minutes seconds milliseconds
      = .error (.out_of_range what) :=
  ctor_of_unchecked year month day hours minutes seconds milliseconds h

/-- Witness of C2 at milliseconds 1000 with all other fields valid. -/
theorem constructor_out_of_range_witness :
    ∃ what, DateTime.DateTime 2020 9 11 14 5 55 (Double.ofInt 1000)
      = .error (.out_of_range what) :=
  constructor_out_of_range 2020 9 11 14 5 55 (Double.ofInt 1000) (by decide)

/-- The constructor never reports an invalid calendar date when a range check fails. -/
theorem ctor_invalid_argument_checked (year month day hours minutes seconds : Int)
    (milliseconds : Double) (what : String)
    (h : DateTime.DateTime year month day hours minutes seconds milliseconds
      = .error (.invalid_argument what)) :
    (1 ≤ year ∧ year ≤ 9999) ∧ (1 ≤ month ∧ month ≤ 12) ∧ (1 ≤ day ∧ day ≤ 31) ∧
    (0 ≤ hours ∧ hours ≤ 23) ∧ (0 ≤ minutes ∧ minutes ≤ 59) ∧ (0 ≤ seconds ∧ seconds ≤ 59) ∧
    milliseconds.lt (Double.ofInt 0) = false ∧ milliseconds.ge (Double.ofInt 1000) = false := by
  by_contra hcon
  have hout : (year < 1 ∨ year > 9999) ∨ (month < 1 ∨ month > 12) ∨ (day < 1 ∨ day > 31) ∨
      (hours < 0 ∨ hours > 23) ∨ (minutes < 0 ∨ minutes > 59) ∨
      (seconds < 0 ∨ seconds > 59) ∨
      (milliseconds.lt (Double.ofInt 0) = true ∨
        milliseconds.ge (Double.ofInt 1000) = true) := by
    by_contra hno
    apply hcon
    simp only [not_or, not_lt, Bool.not_eq_true] at hno
    obtain ⟨a, b, c, d, e, f, g1, g2⟩ := hno
    refine ⟨?_, ?_, ?_, ?_, ?_, ?_, g1, g2⟩ <;> omega
  obtain ⟨w, hw⟩ := ctor_of_unchecked year month day hours minutes seconds milliseconds hout
  rw [hw] at h
  cases h

/-- On every double but a NaN, the two tests the constructor makes on the milliseconds,
`< 0.0` and `>= 1000.0`, are both false exactly when the double lies in [0, 1000). -/
theorem Double.tests_iff_bounds (x : Double) (hn : x ≠ Double.nan) :
    (x.lt (Double.ofInt 0) = false ∧ x.ge (Double.ofInt 1000) = false) ↔
      (x.ge (Double.ofInt 0) = true ∧ x.lt (Double.ofInt 1000) = true) := by
  cases x with
  | finite m e =>
    simp only [Double.lt, Double.ge, Double.ofInt, decide_eq_false_iff_not, not_lt, not_le,
      decide_eq_true_eq]
  | posInf => simp [Double.lt, Double.ge, Double.ofInt]
  | negInf => simp [Double.lt, Double.ge, Double.ofInt]
  | nan => exact absurd rfl hn

/-- C3. With a NaN for the milliseconds, `DateTime(2020, 2, 30, 14, 5, 55, NaN)` fails with
`std::invalid_argument("invalid calendar date")` although the NaN is not inside the bound
[0, 1000): it is neither `>= 0` nor `< 1000`, and the two tests of the constructor, `< 0.0`
and `>= 1000.0`, are both false on it. For every other double the constructor fails with
`std::invalid_argument("invalid calendar date")` if and only if all seven fields are inside
their coarse bounds (year in [1,9999], month in [1,12], day in [1,31], hours in [0,23],
minutes and seconds in [0,59], 0 <= milliseconds < 1000) and the day is greater than the
number of days of the month in the year; (2020, 2, 30, 14, 5, 55) and (2024, 2, 30, 14, 5, 55)
fail in that way; and an input with a day that does not exist and a time field out of range
fails with `std::out_of_range`. -/
theorem invalid_calendar_date_except_nan :
    (DateTime.DateTime 2020 2 30 14 5 55 Double.nan
        = .error (.invalid_argument "invalid calendar date") ∧
      Double.nan.ge (Double.ofInt 0) = false ∧ Double.nan.lt (Double.ofInt 1000) = false ∧
      Double.nan.lt (Double.ofInt 0) = false ∧ Double.nan.ge (Double.ofInt 1000) = false) ∧
    (∀ (year month day hours minutes seconds : Int) (milliseconds : Double),
      milliseconds ≠ Double.nan →
      (DateTime.DateTime year month day hours minutes seconds milliseconds
          = .error (.invalid_argument "invalid calendar date") ↔
        ((1 ≤ year ∧ year ≤ 9999) ∧ (1 ≤ month ∧ month ≤ 12) ∧ (1 ≤ day ∧ day ≤ 31) ∧
          (0 ≤ hours ∧ hours ≤ 23) ∧ (0 ≤ minutes ∧ minutes ≤ 59) ∧
          (0 ≤ seconds ∧ seconds ≤ 59) ∧
          (milliseconds.ge (Double.ofInt 0) = true ∧
            milliseconds.lt (Double.ofInt 1000) = true) ∧
          day > Spec.daysInMonth year month))) ∧
    DateTime.DateTime 2020 2 30 14 5 55 (Double.ofInt 0)
      = .error (.invalid_argument "invalid calendar date") ∧
    DateTime.DateTime 2024 2 30 14 5 55 (Double.ofInt 0)
      = .error (.invalid_argument "invalid calendar date") ∧
    (∀ (year month day hours minutes seconds : Int) (milliseconds : Double),
      day > Spec.daysInMonth year month →
      ((hours < 0 ∨ hours > 23) ∨ (minutes < 0 ∨ minutes > 59) ∨ (seconds < 0 ∨ seconds > 59) ∨
        (milliseconds.lt (Double.ofInt 0) = true ∨
          milliseconds.ge (Double.ofInt 1000) = true)) →
      ∃ what, DateTime.DateTime year month day hours minutes seconds milliseconds
        = .error (.out_of_range what)) := by
  refine ⟨by decide, ?_, by decide, by decide, ?_⟩
  · intro year month day hours minutes seconds milliseconds hn
    constructor
    · intro h
      obtain ⟨hy, hm, hd, hh, hmi, hs, hlt, hge⟩ :=
        ctor_invalid_argument_checked year month day hours minutes seconds milliseconds _ h
      refine ⟨hy, hm, hd, hh, hmi, hs, (Double.tests_iff_bounds _ hn).1 ⟨hlt, hge⟩, ?_⟩
      by_contra hdim
      rw [ctor_of_checked year month day hours minutes seconds milliseconds hy hm hd hh hmi hs
        hlt hge, if_pos (by omega)] at h
      cases h
    · rintro ⟨hy, hm, hd, hh, hmi, hs, hms, hdim⟩
      obtain ⟨hlt, hge⟩ := (Double.tests_iff_bounds _ hn).2 hms
      rw [ctor_of_checked year month day hours minutes seconds milliseconds hy hm hd hh hmi hs
        hlt hge, if_neg (by omega)]
  · intro year month day hours minutes seconds milliseconds _ h
    exact ctor_of_unchecked year month day hours minutes seconds milliseconds
      (Or.inr (Or.inr (Or.inr h)))

/-- Witness of C3: February 30 with hour 24 fails with `std::out_of_range`. -/
theorem invalid_calendar_date_except_nan_witness :
    ∃ what, DateTime.DateTime 2020 2 30 24 5 55 (Double.ofInt 0)
      = .error (.out_of_range what) :=
  invalid_calendar_date_except_nan.2.2.2.2 2020 2 30 24 5 55 (Double.ofInt 0) (by decide)
    (by decide)

/-- C4. Leap-year rule: for every year in [1,9999] and every in-range time of day,
`DateTime(year, 2, 29, ...)` succeeds if and only if the year is divisible by 4 and (not
divisible by 100, or divisible by 400), and otherwise fails with the invalid-calendar-date
failure; `DateTime(year, 4, 31, ...)` fails with it for every such year; 2024 and 2000
succeed, 2023 and 1900 fail. -/
theorem leap_year_rule :
    (∀ (year hours minutes seconds : Int) (milliseconds : Double),
      (1 ≤ year ∧ year ≤ 9999) → (0 ≤ hours ∧ hours ≤ 23) → (0 ≤ minutes ∧ minutes ≤ 59) →
      (0 ≤ seconds ∧ seconds ≤ 59) →
      (milliseconds.ge (Double.ofInt 0) = true ∧ milliseconds.lt (Double.ofInt 1000) = true) →
      ((∃ dt, DateTime.DateTime year 2 29 hours minutes seconds milliseconds = .ok dt) ↔
        (year % 4 = 0 ∧ (year % 100 ≠ 0 ∨ year % 400 = 0))) ∧
      (¬ (year % 4 = 0 ∧ (year % 100 ≠ 0 ∨ year % 400 = 0)) →
        DateTime.DateTime year 2 29 hours minutes seconds milliseconds
          = .error (.invalid_argument "invalid calendar date")) ∧
      DateTime.DateTime year 4 31 hours minutes seconds milliseconds
        = .error (.invalid_argument "invalid calendar date")) ∧
    DateTime.DateTime 2024 2 29 0 0 0 (Double.ofInt 0) = .ok ⟨1709164800000⟩ ∧
    DateTime.DateTime 2000 2 29 0 0 0 (Double.ofInt 0) = .ok ⟨951782400000⟩ ∧
    DateTime.DateTime 2023 2 29 0 0 0 (Double.ofInt 0)
      = .error (.invalid_argument "invalid calendar date") ∧
    DateTime.DateTime 1900 2 29 0 0 0 (Double.ofInt 0)
      = .error (.invalid_argument "invalid calendar date") := by
  refine ⟨?_, by decide, by decide, by decide, by decide⟩
  intro year hours minutes seconds milliseconds hy hh hmi hs hms
  have hlt := Double.lt_false_of_ge _ _ hms.1
  have hge := Double.ge_false_of_lt _ _ hms.2
  have hfeb : Spec.daysInMonth year 2 =
      if (year % 4 = 0 ∧ (year % 100 ≠ 0 ∨ year % 400 = 0)) then 29 else 28 := by
    unfold Spec.daysInMonth Spec.isLeapYear
    by_cases a : year % 4 = 0 <;> by_cases b : year % 100 = 0 <;>
      by_cases c : year % 400 = 0 <;> simp [a, b, c]
  have hapr : Spec.daysInMonth year 4 = 30 := by
    unfold Spec.daysInMonth; simp
  have hnot : ¬ (year % 4 = 0 ∧ (year % 100 ≠ 0 ∨ year % 400 = 0)) →
      DateTime.DateTime year 2 29 hours minutes seconds milliseconds
        = .error (.invalid_argument "invalid calendar date") := by
    intro hl
    rw [ctor_of_checked year 2 29 hours minutes seconds milliseconds hy (by omega) (by omega)
      hh hmi hs hlt hge, hfeb, if_neg hl, if_neg (by omega)]
  refine ⟨⟨?_, ?_⟩, hnot, ?_⟩
  · rintro ⟨dt, hdt⟩
    by_contra hl
    rw [hnot hl] at hdt
    cases hdt
  · intro hl
    obtain ⟨k, _, _, _, _, _, hc⟩ := ctor_of_valid year 2 29 hours minutes seconds milliseconds
      hy (by omega) ⟨by omega, by rw [hfeb, if_pos hl]⟩ hh hmi hs hms
    exact ⟨_, hc⟩
  · rw [ctor_of_checked year 4 31 hours minutes seconds milliseconds hy (by omega) (by omega)
      hh hmi hs hlt hge, hapr, if_neg (by omega)]

/-- Witness of C4 at the year 2100, which is divisible by 100 and not by 400. -/
theorem leap_year_rule_witness :
    ((∃ dt, DateTime.DateTime 2100 2 29 23 59 59 (Double.ofInt 999) = .ok dt) ↔
      ((2100 : Int) % 4 = 0 ∧ ((2100 : Int) % 100 ≠ 0 ∨ (2100 : Int) % 400 = 0))) ∧
    (¬ ((2100 : Int) % 4 = 0 ∧ ((2100 : Int) % 100 ≠ 0 ∨ (2100 : Int) % 400 = 0)) →
      DateTime.DateTime 2100 2 29 23 59 59 (Double.ofInt 999)
        = .error (.invalid_argument "invalid calendar date")) ∧
    DateTime.DateTime 2100 4 31 23 59 59 (Double.ofInt 999)
      = .error (.invalid_argument "invalid calendar date") :=
  leap_year_rule.1 2100 23 59 59 (Double.ofInt 999) (by decide) (by decide) (by decide)
    (by decide) (by decide)

/-! ## Claims about comparison -/

/-- C6. The six comparison operators compare the stored millisecond counts and form a total
order consistent with equality: `==` is reflexive, symmetric and transitive and holds exactly
when the stored instants are the same; `!=` is its negation; exactly one of `<`, `==`, `>`
holds; `<=` is `<` or `==`; `>=` and `>` are `<=` and `<` with the sides exchanged; `<` is
transitive. -/
theorem comparison_total_order (a b c : DateTime) :
    (a.operator_eq b = decide (a.m_timePoint = b.m_timePoint) ∧
      a.operator_ne b = decide (a.m_timePoint ≠ b.m_timePoint) ∧
      a.operator_lt b = decide (a.m_timePoint < b.m_timePoint) ∧
      a.operator_le b = decide (a.m_timePoint ≤ b.m_timePoint) ∧
      a.operator_gt b = decide (a.m_timePoint > b.m_timePoint) ∧
      a.operator_ge b = decide (a.m_timePoint ≥ b.m_timePoint)) ∧
    a.operator_eq a = true ∧
    (a.operator_eq b = true → b.operator_eq a = true) ∧
    (a.operator_eq b = true → b.operator_eq c = true → a.operator_eq c = true) ∧
    (a.operator_ne b = true ↔ ¬ (a.operator_eq b = true)) ∧
    ((a.operator_lt b = true ∧ ¬ a.operator_eq b = true ∧ ¬ a.operator_gt b = true) ∨
      (¬ a.operator_lt b = true ∧ a.operator_eq b = true ∧ ¬ a.operator_gt b = true) ∨
      (¬ a.operator_lt b = true ∧ ¬ a.operator_eq b = true ∧ a.operator_gt b = true)) ∧
    (a.operator_le b = true ↔ (a.operator_lt b = true ∨ a.operator_eq b = true)) ∧
    (a.operator_ge b = true ↔ b.operator_le a = true) ∧
    (a.operator_gt b = true ↔ b.operator_lt a = true) ∧
    (a.operator_lt b = true → b.operator_lt c = true → a.operator_lt c = true) ∧
    (a.operator_eq b = true ↔ a = b) := by
  obtain ⟨x⟩ := a
  obtain ⟨y⟩ := b
  obtain ⟨z⟩ := c
  refine ⟨⟨rfl, rfl, rfl, rfl, rfl, rfl⟩, ?_, ?_, ?_, ?_, ?_, ?_, ?_, ?_, ?_, ?_⟩ <;>
    simp only [DateTime.operator_eq, DateTime.operator_ne, DateTime.operator_lt,
      DateTime.operator_le, DateTime.operator_gt, DateTime.operator_ge, decide_eq_true_eq,
      DateTime.mk.injEq] <;>
    omega

/-- Witness of C6 at three instants of which two are the same. -/
theorem comparison_total_order_witness :
    (DateTime.mk 5).operator_eq (DateTime.mk 5) = true ∧
    (DateTime.mk (-7)).operator_lt (DateTime.mk 9) = true :=
  ⟨(comparison_total_order ⟨5⟩ ⟨5⟩ ⟨9⟩).2.1,
   (comparison_total_order ⟨-7⟩ ⟨5⟩ ⟨9⟩).2.2.2.2.2.2.2.2.2.1 (by decide) (by decide)⟩

/-! ## Claims about the Unix timestamp -/

/-- The number of days in the years 1 to `n`, in closed form. -/
theorem daysInYears_eq (n : Nat) :
    Spec.daysInYears n = 365 * (n : Int) + (n : Int) / 4 - (n : Int) / 100 + (n : Int) / 400 := by
  induction n with
  | zero => simp [Spec.daysInYears]
  | succ k ih =>
    rw [Spec.daysInYears, ih]
    unfold Spec.daysInYear Spec.isLeapYear
    push_cast
    by_cases a : ((k : Int) + 1) % 4 = 0 <;> by_cases b : ((k : Int) + 1) % 100 = 0 <;>
      by_cases c : ((k : Int) + 1) % 400 = 0 <;> simp [a, b, c] <;> omega

/-- The number of days in the months before month `m`, in closed form. -/
theorem daysInMonths_eq (y m : Int) (hm : 1 ≤ m ∧ m ≤ 12) :
    Spec.daysInMonths y (m - 1).toNat =
      (if m ≤ 2 then 31 * (m - 1)
        else (153 * (m - 3) + 2) / 5 + 59 + (if Spec.isLeapYear y then 1 else 0)) := by
  have h : m = 1 ∨ m = 2 ∨ m = 3 ∨ m = 4 ∨ m = 5 ∨ m = 6 ∨ m = 7 ∨ m = 8 ∨ m = 9 ∨
      m = 10 ∨ m = 11 ∨ m = 12 := by omega
  rcases h with h | h | h | h | h | h | h | h | h | h | h | h <;> subst h <;>
    cases hl : Spec.isLeapYear y <;>
    simp [Spec.daysInMonths, Spec.daysInMonth, hl]

/-- The day count of the library is the day count of the specification. -/
theorem to_days_eq_daysFromEpoch (y m d : Int) (hy : 1 ≤ y) (hm : 1 ≤ m ∧ m ≤ 12) :
    chrono.year_month_day.to_days ⟨y, m, d⟩ = Spec.daysFromEpoch y m d := by
  rw [to_days_eq y m d hm]
  unfold Spec.daysFromEpoch Spec.dayNumber
  rw [daysInYears_eq, daysInYears_eq, daysInMonths_eq y m hm,
    daysInMonths_eq 1970 1 (by omega)]
  have c1 : (((y - 1).toNat : Nat) : Int) = y - 1 := Int.toNat_of_nonneg (by omega)
  have c2 : ((((1970 : Int) - 1).toNat : Nat) : Int) = 1969 := by decide
  rw [c1, c2]
  have hl : (if Spec.isLeapYear y then (1 : Int) else 0) =
      if (y % 4 = 0 ∧ (y % 100 ≠ 0 ∨ y % 400 = 0)) then 1 else 0 := by
    unfold Spec.isLeapYear
    by_cases a : y % 4 = 0 <;> by_cases b : y % 100 = 0 <;>
      by_cases c : y % 400 = 0 <;> simp [a, b, c]
  rw [hl]
  have h : m = 1 ∨ m = 2 ∨ m = 3 ∨ m = 4 ∨ m = 5 ∨ m = 6 ∨ m = 7 ∨ m = 8 ∨ m = 9 ∨
      m = 10 ∨ m = 11 ∨ m = 12 := by omega
  rcases h with h | h | h | h | h | h | h | h | h | h | h | h <;> subst h <;>
    split <;> omega

/-- C5. `toUnixTimestamp` returns the number of whole seconds from 1970-01-01T00:00:00Z
to the stored instant: for valid components with milliseconds 0 it equals 86400 times the
number of days from 1970-01-01 to the date in the proleptic Gregorian calendar (negative
before 1970), plus 3600 * hours + 60 * minutes + seconds; for (2020, 9, 11, 14, 5, 55, 0)
it is 1599833155. -/
theorem toUnixTimestamp_whole_seconds :
    (∀ (year month day hours minutes seconds : Int),
      (1 ≤ year ∧ year ≤ 9999) → (1 ≤ month ∧ month ≤ 12) →
      (1 ≤ day ∧ day ≤ Spec.daysInMonth year month) →
      (0 ≤ hours ∧ hours ≤ 23) → (0 ≤ minutes ∧ minutes ≤ 59) →
      (0 ≤ seconds ∧ seconds ≤ 59) →
      ∃ dt, DateTime.DateTime year month day hours minutes seconds (Double.ofInt 0) = .ok dt ∧
        dt.toUnixTimestamp =
          86400 * Spec.daysFromEpoch year month day + 3600 * hours + 60 * minutes + seconds) ∧
    (DateTime.DateTime 2020 9 11 14 5 55 (Double.ofInt 0)).map DateTime.toUnixTimestamp
      = .ok 1599833155 := by
  refine ⟨?_, by decide⟩
  intro year month day hours minutes seconds hy hm hd hh hmi hs
  obtain ⟨k, _, _, hk, _, _, hc⟩ := ctor_of_valid year month day hours minutes seconds
    (Double.ofInt 0) hy hm hd hh hmi hs (by decide)
  have hk0 : k = 0 := by
    have h0 : (Double.ofInt 0).toLongLong = some 0 := by decide
    rw [h0] at hk
    exact (Option.some.inj hk).symm
  subst hk0
  refine ⟨_, hc, ?_⟩
  simp only [DateTime.toUnixTimestamp, chrono.duration_cast]
  rw [to_days_eq_daysFromEpoch year month day hy.1 hm]
  have e : Spec.daysFromEpoch year month day * 86400000 + hours * 3600000 + minutes * 60000
      + seconds * 1000 + 0 - 0 =
      1000 * (86400 * Spec.daysFromEpoch year month day + 3600 * hours + 60 * minutes
        + seconds) := by ring
  rw [e, Int.mul_tdiv_cancel_left _ (by decide)]

/-- Witness of C5 at 1969-12-31T23:59:59, one second before the epoch. -/
theorem toUnixTimestamp_whole_seconds_witness :
    ∃ dt, DateTime.DateTime 1969 12 31 23 59 59 (Double.ofInt 0) = .ok dt ∧
      dt.toUnixTimestamp =
        86400 * Spec.daysFromEpoch 1969 12 31 + 3600 * 23 + 60 * 59 + 59 :=
  toUnixTimestamp_whole_seconds.1 1969 12 31 23 59 59 (by decide) (by decide) (by decide)
    (by decide) (by decide) (by decide)

/-! ## Claims about rendering -/

/-- A number below `10 ^ w` zero-padded to `w` digits has `w` characters. -/
theorem zeroPad_length (w n : Nat) (hw : 0 < w) (hn : n < 10 ^ w) :
    (fmt.zeroPad w n).length = w := by
  have h := Nat.repr_length n w hw hn
  simp only [Nat.repr, String.length, List.asString] at h
  simp only [fmt.zeroPad, fmt.decimal, List.length_append, List.length_replicate]
  omega

/-- The whole seconds and the milliseconds `toString()` splits an instant into. -/
theorem floor_seconds_of_parts (D h mi s k : Int) (hk : 0 ≤ k ∧ k ≤ 999) :
    chrono.floor 1000 (D * 86400000 + h * 3600000 + mi * 60000 + s * 1000 + k)
      = D * 86400 + h * 3600 + mi * 60 + s := by
  rw [floor_eq_ediv _ _ (by omega)]
  omega

/-- The fields the chrono formatter reads off an instant given by a date that exists and a
time of day, at the resolution of seconds. -/
theorem fieldsOf_seconds (y m d h mi s : Int) (hy : 1 ≤ y ∧ y ≤ 9999)
    (hm : 1 ≤ m ∧ m ≤ 12) (hd : 1 ≤ d ∧ d ≤ Spec.daysInMonth y m)
    (hh : 0 ≤ h ∧ h ≤ 23) (hmi : 0 ≤ mi ∧ mi ≤ 59) (hs : 0 ≤ s ∧ s ≤ 59) :
    (fmt.fieldsOf .seconds
      (chrono.year_month_day.to_days ⟨y, m, d⟩ * 86400 + h * 3600 + mi * 60 + s)).ymd
      = ⟨y, m, d⟩ ∧
    (fmt.fieldsOf .seconds
      (chrono.year_month_day.to_days ⟨y, m, d⟩ * 86400 + h * 3600 + mi * 60 + s)).hms
      = ⟨false, h, mi, s, 0⟩ ∧
    (fmt.fieldsOf .seconds
      (chrono.year_month_day.to_days ⟨y, m, d⟩ * 86400 + h * 3600 + mi * 60 + s)).fractional
      = false := by
  generalize hD : chrono.year_month_day.to_days ⟨y, m, d⟩ = D
  have hdim : Spec.daysInMonth y m ≤ 31 := by
    unfold Spec.daysInMonth; split_ifs <;> omega
  have hfl : chrono.floor 86400 (D * 86400 + h * 3600 + mi * 60 + s) = D := by
    rw [floor_eq_ediv _ _ (by omega)]; omega
  have hfd : chrono.year_month_day.from_days D = ⟨y, m, d⟩ := by
    rw [← hD, from_days_to_days y m d hm hd]
    have e1 : chrono.year y = y := by unfold chrono.year; omega
    have e2 : chrono.month m = m := by unfold chrono.month; omega
    have e3 : chrono.day d = d := by unfold chrono.day; omega
    rw [e1, e2, e3]
  have hhms : chrono.hh_mm_ss.ofDuration 1 (D * 86400 + h * 3600 + mi * 60 + s - D * 86400)
      = ⟨false, h, mi, s, 0⟩ := by
    have e : D * 86400 + h * 3600 + mi * 60 + s - D * 86400 = h * 3600 + mi * 60 + s := by ring
    rw [e]
    simp only [chrono.hh_mm_ss.ofDuration, chrono.duration_cast, Int.reduceMul, mul_one]
    have hn : ¬ (h * 3600 + mi * 60 + s < 0) := by omega
    rw [if_neg hn]
    have e1 : Int.tdiv (h * 3600 + mi * 60 + s) 3600 = h := by
      rw [tdiv_of_nonneg (by omega) (by omega)]; omega
    rw [e1]
    have e2 : Int.tdiv (h * 3600 + mi * 60 + s - h * 3600) 60 = mi := by
      rw [tdiv_of_nonneg (by omega) (by omega)]; omega
    rw [e2]
    have e3 : Int.tdiv (h * 3600 + mi * 60 + s - h * 3600 - mi * 60) 1 = s := by
      rw [tdiv_of_nonneg (by omega) (by omega)]; omega
    rw [e3]
    have e4 : h * 3600 + mi * 60 + s - h * 3600 - mi * 60 - s = 0 := by ring
    rw [e4]
    simp [hn]
  simp only [fmt.fieldsOf, fmt.Precision.ticks, mul_one]
  rw [hfl, hfd, hhms]
  simp

/-- The fields the chrono formatter reads off an instant given by a date that exists and a
time of day, at the resolution of milliseconds. -/
theorem fieldsOf_milliseconds (y m d h mi s k : Int) (hy : 1 ≤ y ∧ y ≤ 9999)
    (hm : 1 ≤ m ∧ m ≤ 12) (hd : 1 ≤ d ∧ d ≤ Spec.daysInMonth y m)
    (hh : 0 ≤ h ∧ h ≤ 23) (hmi : 0 ≤ mi ∧ mi ≤ 59) (hs : 0 ≤ s ∧ s ≤ 59)
    (hk : 0 ≤ k ∧ k ≤ 999) :
    (fmt.fieldsOf .milliseconds
      (chrono.year_month_day.to_days ⟨y, m, d⟩ * 86400000 + h * 3600000 + mi * 60000
        + s * 1000 + k)).ymd = ⟨y, m, d⟩ ∧
    (fmt.fieldsOf .milliseconds
      (chrono.year_month_day.to_days ⟨y, m, d⟩ * 86400000 + h * 3600000 + mi * 60000
        + s * 1000 + k)).hms = ⟨false, h, mi, s, k⟩ ∧
    (fmt.fieldsOf .milliseconds
      (chrono.year_month_day.to_days ⟨y, m, d⟩ * 86400000 + h * 3600000 + mi * 60000
        + s * 1000 + k)).fractional = true := by
  obtain ⟨a1, a2⟩ := accessors_of_parts y m d h mi s k hy hm hd hh hmi hs hk
  simp only [fmt.fieldsOf, fmt.Precision.ticks, Int.reduceMul]
  unfold DateTime.tod at a2
  simp only [] at a2
  rw [a1, a2]
  simp

/-- The rendering of the chrono-specs of `toString()` at the resolution of seconds. -/
theorem renderItems_isoItems (f : fmt.Fields) (hf : f.fractional = false) :
    fmt.renderItems f fmt.isoItems =
      fmt.renderYear f.ymd.y ++ ['-'] ++ fmt.zeroPad 2 f.ymd.m.toNat ++ ['-']
        ++ fmt.zeroPad 2 f.ymd.d.toNat ++ ['T'] ++ fmt.zeroPad 2 f.hms.hours.toNat ++ [':']
        ++ fmt.zeroPad 2 f.hms.minutes.toNat ++ [':'] ++ fmt.zeroPad 2 f.hms.seconds.toNat := by
  have hY : ∀ b, fmt.renderConv f b 'Y' = fmt.renderYear f.ymd.y := fun _ => rfl
  have hm : ∀ b, fmt.renderConv f b 'm' = fmt.zeroPad 2 f.ymd.m.toNat := fun _ => rfl
  have hd : ∀ b, fmt.renderConv f b 'd' = fmt.zeroPad 2 f.ymd.d.toNat := fun _ => rfl
  have hH : ∀ b, fmt.renderConv f b 'H' = fmt.zeroPad 2 f.hms.hours.toNat := fun _ => rfl
  have hM : ∀ b, fmt.renderConv f b 'M' = fmt.zeroPad 2 f.hms.minutes.toNat := fun _ => rfl
  have hS : ∀ b, fmt.renderConv f b 'S' = fmt.renderSeconds f := fun _ => rfl
  simp only [fmt.isoItems, fmt.renderItems, fmt.renderItem, hY, hm, hd, hH, hM, hS,
    fmt.renderSeconds, hf]
  simp

/-- C7. Default rendering: for every `DateTime` built by the constructor from valid
components, `toString()` is the 24-character string `YYYY-MM-DDTHH:MM:SS.mmmZ`: `getYear`
zero-padded to 4 digits, `getMonth`, `getDay`, `getHours`, `getMinutes`, `getSeconds`
zero-padded to 2 digits, `getMilliseconds` zero-padded to 3 digits, and the letter `Z`; for
(2020, 9, 11, 14, 5, 55, 123) it is "2020-09-11T14:05:55.123Z". -/
theorem toString_default_rendering :
    (∀ (year month day hours minutes seconds : Int) (milliseconds : Double),
      (1 ≤ year ∧ year ≤ 9999) → (1 ≤ month ∧ month ≤ 12) →
      (1 ≤ day ∧ day ≤ Spec.daysInMonth year month) →
      (0 ≤ hours ∧ hours ≤ 23) → (0 ≤ minutes ∧ minutes ≤ 59) →
      (0 ≤ seconds ∧ seconds ≤ 59) →
      (milliseconds.ge (Double.ofInt 0) = true ∧ milliseconds.lt (Double.ofInt 1000) = true) →
      ∃ (dt : DateTime) (k : Int),
        DateTime.DateTime year month day hours minutes seconds milliseconds = .ok dt ∧
        dt.getMilliseconds = Double.ofInt k ∧
        dt.toString = String.mk
          (fmt.zeroPad 4 dt.getYear.toNat ++ ['-'] ++ fmt.zeroPad 2 dt.getMonth.toNat ++ ['-']
            ++ fmt.zeroPad 2 dt.getDay.toNat ++ ['T'] ++ fmt.zeroPad 2 dt.getHours.toNat
            ++ [':'] ++ fmt.zeroPad 2 dt.getMinutes.toNat ++ [':']
            ++ fmt.zeroPad 2 dt.getSeconds.toNat ++ ['.'] ++ fmt.zeroPad 3 k.toNat ++ ['Z']) ∧
        dt.toString.length = 24) ∧
    (DateTime.DateTime 2020 9 11 14 5 55 (Double.ofInt 123)).map DateTime.toString
      = .ok "2020-09-11T14:05:55.123Z" := by
  refine ⟨?_, by decide⟩
  intro year month day hours minutes seconds milliseconds hy hm hd hh hmi hs hms
  obtain ⟨k, k0, k1, _, _, _, hc⟩ :=
    ctor_of_valid year month day hours minutes seconds milliseconds hy hm hd hh hmi hs hms
  obtain ⟨a1, a2⟩ := accessors_of_parts year month day hours minutes seconds k hy hm hd
    hh hmi hs ⟨k0, k1⟩
  obtain ⟨f1, f2, f3⟩ := fieldsOf_seconds year month day hours minutes seconds hy hm hd
    hh hmi hs
  have hdim : Spec.daysInMonth year month ≤ 31 := by
    unfold Spec.daysInMonth; split_ifs <;> omega
  have hstr : DateTime.toString
      ⟨chrono.year_month_day.to_days ⟨year, month, day⟩ * 86400000 + hours * 3600000
        + minutes * 60000 + seconds * 1000 + k⟩ = String.mk
      (fmt.zeroPad 4 year.toNat ++ ['-'] ++ fmt.zeroPad 2 month.toNat ++ ['-']
        ++ fmt.zeroPad 2 day.toNat ++ ['T'] ++ fmt.zeroPad 2 hours.toNat
        ++ [':'] ++ fmt.zeroPad 2 minutes.toNat ++ [':']
        ++ fmt.zeroPad 2 seconds.toNat ++ ['.'] ++ fmt.zeroPad 3 k.toNat ++ ['Z']) := by
    simp only [DateTime.toString]
    rw [floor_seconds_of_parts _ _ _ _ _ ⟨k0, k1⟩, renderItems_isoItems _ f3, f1, f2]
    have e : chrono.year_month_day.to_days ⟨year, month, day⟩ * 86400000 + hours * 3600000
        + minutes * 60000 + seconds * 1000 + k
        - (chrono.year_month_day.to_days ⟨year, month, day⟩ * 86400 + hours * 3600
          + minutes * 60 + seconds) * 1000 = k := by ring
    rw [e]
    have e2 : fmt.formatInt03 k = fmt.zeroPad 3 k.toNat := by
      unfold fmt.formatInt03
      rw [if_neg (by omega)]
      congr 1
      omega
    have e3 : fmt.renderYear year = fmt.zeroPad 4 year.toNat := by
      unfold fmt.renderYear fmt.zeroPadInt
      rw [if_neg (by omega)]
      congr 1
      omega
    rw [e2, e3]
  refine ⟨_, k, hc, ?_, ?_, ?_⟩
  · simp only [DateTime.getMilliseconds]; rw [a2]
  · simp only [DateTime.getYear, DateTime.getMonth, DateTime.getDay, DateTime.getHours,
      DateTime.getMinutes, DateTime.getSeconds]
    rw [a1, a2]
    exact hstr
  · rw [hstr]
    simp only [String.length, List.length_append, List.length_singleton]
    rw [zeroPad_length 4 year.toNat (by decide) (by omega),
      zeroPad_length 2 month.toNat (by decide) (by omega),
      zeroPad_length 2 day.toNat (by decide) (by omega),
      zeroPad_length 2 hours.toNat (by decide) (by omega),
      zeroPad_length 2 minutes.toNat (by decide) (by omega),
      zeroPad_length 2 seconds.toNat (by decide) (by omega),
      zeroPad_length 3 k.toNat (by decide) (by omega)]

/-- Witness of C7 at 0999-12-31T23:59:59.007, a year below 1000 and before 1970. -/
theorem toString_default_rendering_witness :
    ∃ (dt : DateTime) (k : Int),
      DateTime.DateTime 999 12 31 23 59 59 (Double.ofInt 7) = .ok dt ∧
      dt.getMilliseconds = Double.ofInt k ∧
      dt.toString = String.mk
        (fmt.zeroPad 4 dt.getYear.toNat ++ ['-'] ++ fmt.zeroPad 2 dt.getMonth.toNat ++ ['-']
          ++ fmt.zeroPad 2 dt.getDay.toNat ++ ['T'] ++ fmt.zeroPad 2 dt.getHours.toNat
          ++ [':'] ++ fmt.zeroPad 2 dt.getMinutes.toNat ++ [':']
          ++ fmt.zeroPad 2 dt.getSeconds.toNat ++ ['.'] ++ fmt.zeroPad 3 k.toNat ++ ['Z']) ∧
      dt.toString.length = 24 :=
  toString_default_rendering.1 999 12 31 23 59 59 (Double.ofInt 7) (by decide) (by decide)
    (by decide) (by decide) (by decide) (by decide) (by decide)

/-- The format-spec of the template `%Y/%m/%d %H:%M:%S`, parsed. -/
theorem parse_slash_template :
    fmt.parseChronoFormatSpec ("%Y/%m/%d %H:%M:%S".data ++ [fmt.rbrace]) =
      .ok (⟨' ', .left, 0,
        [.conv none 'Y', .lit '/', .conv none 'm', .lit '/', .conv none 'd', .lit ' ',
         .conv none 'H', .lit ':', .conv none 'M', .lit ':', .conv none 'S']⟩,
        [fmt.rbrace]) := by
  decide

/-- C8. Custom rendering of seconds carries the milliseconds: for every `DateTime` built
from valid components, `toString("%Y/%m/%d %H:%M:%S")` is `YYYY/MM/DD HH:MM:SS.mmm` with the
fields zero-padded to 4, 2, 2, 2, 2, 2 and 3 digits, also when the milliseconds are 0; for
(2020, 9, 11, 14, 5, 55, 123) it is "2020/09/11 14:05:55.123". -/
theorem toString_format_seconds_with_milliseconds :
    (∀ (year month day hours minutes seconds : Int) (milliseconds : Double),
      (1 ≤ year ∧ year ≤ 9999) → (1 ≤ month ∧ month ≤ 12) →
      (1 ≤ day ∧ day ≤ Spec.daysInMonth year month) →
      (0 ≤ hours ∧ hours ≤ 23) → (0 ≤ minutes ∧ minutes ≤ 59) →
      (0 ≤ seconds ∧ seconds ≤ 59) →
      (milliseconds.ge (Double.ofInt 0) = true ∧ milliseconds.lt (Double.ofInt 1000) = true) →
      ∃ (dt : DateTime) (k : Int),
        DateTime.DateTime year month day hours minutes seconds milliseconds = .ok dt ∧
        dt.getMilliseconds = Double.ofInt k ∧
        dt.toString_format "%Y/%m/%d %H:%M:%S" = .ok (String.mk
          (fmt.zeroPad 4 year.toNat ++ ['/'] ++ fmt.zeroPad 2 month.toNat ++ ['/']
            ++ fmt.zeroPad 2 day.toNat ++ [' '] ++ fmt.zeroPad 2 hours.toNat
            ++ [':'] ++ fmt.zeroPad 2 minutes.toNat ++ [':']
            ++ fmt.zeroPad 2 seconds.toNat ++ ['.'] ++ fmt.zeroPad 3 k.toNat)) ∧
        (fmt.zeroPad 4 year.toNat).length = 4 ∧ (fmt.zeroPad 2 month.toNat).length = 2 ∧
        (fmt.zeroPad 2 day.toNat).length = 2 ∧ (fmt.zeroPad 2 hours.toNat).length = 2 ∧
        (fmt.zeroPad 2 minutes.toNat).length = 2 ∧ (fmt.zeroPad 2 seconds.toNat).length = 2 ∧
        (fmt.zeroPad 3 k.toNat).length = 3) ∧
    (DateTime.DateTime 2020 9 11 14 5 55 (Double.ofInt 123)).bind
        (fun dt => dt.toString_format "%Y/%m/%d %H:%M:%S")
      = .ok "2020/09/11 14:05:55.123" ∧
    (DateTime.DateTime 2020 9 11 14 5 55 (Double.ofInt 0)).bind
        (fun dt => dt.toString_format "%Y/%m/%d %H:%M:%S")
      = .ok "2020/09/11 14:05:55.000" := by
  refine ⟨?_, by decide, by decide⟩
  intro year month day hours minutes seconds milliseconds hy hm hd hh hmi hs hms
  obtain ⟨k, k0, k1, _, _, _, hc⟩ :=
    ctor_of_valid year month day hours minutes seconds milliseconds hy hm hd hh hmi hs hms
  obtain ⟨a1, a2⟩ := accessors_of_parts year month day hours minutes seconds k hy hm hd
    hh hmi hs ⟨k0, k1⟩
  obtain ⟨f1, f2, f3⟩ := fieldsOf_milliseconds year month day hours minutes seconds k hy hm hd
    hh hmi hs ⟨k0, k1⟩
  have hdim : Spec.daysInMonth year month ≤ 31 := by
    unfold Spec.daysInMonth; split_ifs <;> omega
  refine ⟨_, k, hc, ?_, ?_, zeroPad_length 4 _ (by decide) (by omega),
    zeroPad_length 2 _ (by decide) (by omega), zeroPad_length 2 _ (by decide) (by omega),
    zeroPad_length 2 _ (by decide) (by omega), zeroPad_length 2 _ (by decide) (by omega),
    zeroPad_length 2 _ (by decide) (by omega), zeroPad_length 3 _ (by decide) (by omega)⟩
  · simp only [DateTime.getMilliseconds]; rw [a2]
  · generalize hf : fmt.fieldsOf .milliseconds
      (chrono.year_month_day.to_days ⟨year, month, day⟩ * 86400000 + hours * 3600000
        + minutes * 60000 + seconds * 1000 + k) = f at f1 f2 f3
    have hY : ∀ b, fmt.renderConv f b 'Y' = fmt.renderYear f.ymd.y := fun _ => rfl
    have hm : ∀ b, fmt.renderConv f b 'm' = fmt.zeroPad 2 f.ymd.m.toNat := fun _ => rfl
    have hd : ∀ b, fmt.renderConv f b 'd' = fmt.zeroPad 2 f.ymd.d.toNat := fun _ => rfl
    have hH : ∀ b, fmt.renderConv f b 'H' = fmt.zeroPad 2 f.hms.hours.toNat := fun _ => rfl
    have hM : ∀ b, fmt.renderConv f b 'M' = fmt.zeroPad 2 f.hms.minutes.toNat := fun _ => rfl
    have hS : ∀ b, fmt.renderConv f b 'S' = fmt.renderSeconds f := fun _ => rfl
    have e3 : fmt.renderYear year = fmt.zeroPad 4 year.toNat := by
      unfold fmt.renderYear fmt.zeroPadInt
      rw [if_neg (by omega)]
      congr 1
      omega
    simp only [DateTime.toString_format, fmt.vformat]
    rw [parse_slash_template]
    simp only [hf, fmt.scanText, fmt.renderSpec, fmt.pad, fmt.renderItems, fmt.renderItem, hY,
      hm, hd, hH, hM, hS, fmt.renderSeconds, f1, f2, f3, e3]
    simp

/-- Witness of C8 at 1969-12-31T23:59:59 with milliseconds 0, before 1970. -/
theorem toString_format_seconds_with_milliseconds_witness :
    ∃ (dt : DateTime) (k : Int),
      DateTime.DateTime 1969 12 31 23 59 59 (Double.ofInt 0) = .ok dt ∧
      dt.getMilliseconds = Double.ofInt k ∧
      dt.toString_format "%Y/%m/%d %H:%M:%S" = .ok (String.mk
        (fmt.zeroPad 4 (1969 : Int).toNat ++ ['/'] ++ fmt.zeroPad 2 (12 : Int).toNat ++ ['/']
          ++ fmt.zeroPad 2 (31 : Int).toNat ++ [' '] ++ fmt.zeroPad 2 (23 : Int).toNat
          ++ [':'] ++ fmt.zeroPad 2 (59 : Int).toNat ++ [':']
          ++ fmt.zeroPad 2 (59 : Int).toNat ++ ['.'] ++ fmt.zeroPad 3 k.toNat)) ∧
      (fmt.zeroPad 4 (1969 : Int).toNat).length = 4 ∧
      (fmt.zeroPad 2 (12 : Int).toNat).length = 2 ∧
      (fmt.zeroPad 2 (31 : Int).toNat).length = 2 ∧
      (fmt.zeroPad 2 (23 : Int).toNat).length = 2 ∧
      (fmt.zeroPad 2 (59 : Int).toNat).length = 2 ∧
      (fmt.zeroPad 2 (59 : Int).toNat).length = 2 ∧
      (fmt.zeroPad 3 k.toNat).length = 3 :=
  toString_format_seconds_with_milliseconds.1 1969 12 31 23 59 59 (Double.ofInt 0) (by decide)
    (by decide) (by decide) (by decide) (by decide) (by decide) (by decide)

/-- No type of a conversion specifier is a modifier, an alignment or a brace. -/
theorem convTypes_facts : ∀ t ∈ fmt.convTypes,
    t ≠ 'E' ∧ t ≠ 'O' ∧ fmt.alignOfChar t = none ∧ t ≠ fmt.rbrace ∧ t ≠ fmt.lbrace := by
  decide

/-- The percent sign is no alignment, no brace, no digit and not the letter `L`. -/
theorem percent_facts : fmt.alignOfChar '%' = none ∧ ('%' : Char) ≠ fmt.rbrace ∧
    ('%' : Char) ≠ fmt.lbrace ∧ ('%' : Char) ≠ '0' ∧ ('%' : Char).isDigit = false ∧
    ('%' : Char) ≠ 'L' := by
  decide

/-- The chrono-specs parser reads the text of recognised placeholders and literal characters
back as what it was written from. -/
theorem parseChronoSpecs_templateText (items : List fmt.Item)
    (hrec : ∀ i ∈ items, Spec.recognised i = true) (tail : List Char) :
    fmt.parseChronoSpecsFrom .text (Spec.templateText items ++ fmt.rbrace :: tail)
      = .ok (items, fmt.rbrace :: tail) := by
  induction items with
  | nil => simp [Spec.templateText, fmt.parseChronoSpecsFrom]
  | cons i rest ih =>
    have ih2 := ih (fun j hj => hrec j (List.mem_cons_of_mem _ hj))
    have hi := hrec i (List.mem_cons_self _ _)
    cases i with
    | lit c =>
      simp only [Spec.recognised, Bool.and_eq_true, decide_eq_true_eq, ne_eq,
        decide_not, Bool.not_eq_true', decide_eq_false_iff_not] at hi
      obtain ⟨⟨h1, h2⟩, h3⟩ := hi
      show fmt.parseChronoSpecsFrom .text (c :: (Spec.templateText rest ++ fmt.rbrace :: tail))
        = _
      rw [fmt.parseChronoSpecsFrom, if_neg h3, if_neg h2, if_neg h1, ih2]
    | conv modifier t =>
      cases modifier with
      | none =>
        simp only [Spec.recognised, decide_eq_true_eq] at hi
        obtain ⟨hE, hO, _, _, _⟩ := convTypes_facts t hi
        show fmt.parseChronoSpecsFrom .text
          ('%' :: t :: (Spec.templateText rest ++ fmt.rbrace :: tail)) = _
        rw [fmt.parseChronoSpecsFrom, if_neg percent_facts.2.1, if_neg percent_facts.2.2.1,
          if_pos rfl, fmt.parseChronoSpecsFrom, if_neg (by tauto), if_pos hi, ih2]
      | some m =>
        simp only [Spec.recognised, Bool.or_eq_true, Bool.and_eq_true, decide_eq_true_eq] at hi
        have hm : m = 'E' ∨ m = 'O' := by tauto
        show fmt.parseChronoSpecsFrom .text
          ('%' :: m :: t :: (Spec.templateText rest ++ fmt.rbrace :: tail)) = _
        rw [fmt.parseChronoSpecsFrom, if_neg percent_facts.2.1, if_neg percent_facts.2.2.1,
          if_pos rfl, fmt.parseChronoSpecsFrom, if_pos hm, fmt.parseChronoSpecsFrom, if_pos hi,
          ih2]

/-- The format-spec parser on a text that begins with `%` and a character that is no
alignment: there is no fill, no width and no `L`, and the text is the chrono-specs. -/
theorem parseChronoFormatSpec_percent (x : Char) (l : List Char)
    (hx : fmt.alignOfChar x = none) :
    fmt.parseChronoFormatSpec ('%' :: x :: l) =
      match fmt.parseChronoSpecsFrom .text ('%' :: x :: l) with
      | .error e => .error e
      | .ok (items, tail) =>
        .ok ({ fill := ' ', align := .left, width := 0, items := items }, tail) := by
  obtain ⟨p1, p2, p3, p4, p5, p6⟩ := percent_facts
  have hfin : fmt.finished ('%' :: x :: l) = false := by
    simp [fmt.finished, p2]
  have hfa : fmt.parseFillAlign ('%' :: x :: l) = ((' ', .left), '%' :: x :: l) := by
    simp [fmt.parseFillAlign, p3, hx, p1]
  have hw : fmt.parseWidth ('%' :: x :: l) = .ok (0, '%' :: x :: l) := by
    simp [fmt.parseWidth, p3, p4, p5]
  have hl : fmt.parseLocale ('%' :: x :: l) = '%' :: x :: l := by
    simp [fmt.parseLocale, p6]
  have hs : fmt.parseSpecsPart ('%' :: x :: l) = fmt.parseChronoSpecsFrom .text ('%' :: x :: l) := by
    simp [fmt.parseSpecsPart, hfin, fmt.parseChronoSpecs]
  unfold fmt.parseChronoFormatSpec
  simp only [hfin, hfa, hw, hl, hs, Bool.false_eq_true, if_false]

/-- The library call on a template of recognised placeholders and literal characters that
begins with a placeholder: the renderings of its elements, one after the other. -/
theorem vformat_templateText (p : fmt.Precision) (count : Int) (modifier : Option Char)
    (t : Char) (rest : List fmt.Item)
    (hrec : ∀ i ∈ fmt.Item.conv modifier t :: rest, Spec.recognised i = true) :
    fmt.vformat p count (Spec.templateText (.conv modifier t :: rest)) =
      .ok (fmt.renderItems (fmt.fieldsOf p count) (.conv modifier t :: rest)) := by
  have hparse := parseChronoSpecs_templateText (.conv modifier t :: rest) hrec []
  have hi := hrec _ (List.mem_cons_self _ _)
  obtain ⟨x, l, hx, htext⟩ : ∃ x l, fmt.alignOfChar x = none ∧
      Spec.templateText (.conv modifier t :: rest) ++ [fmt.rbrace] = '%' :: x :: l := by
    cases modifier with
    | none =>
      simp only [Spec.recognised, decide_eq_true_eq] at hi
      exact ⟨t, _, (convTypes_facts t hi).2.2.1, rfl⟩
    | some m =>
      simp only [Spec.recognised, Bool.or_eq_true, Bool.and_eq_true, decide_eq_true_eq] at hi
      refine ⟨m, _, ?_, rfl⟩
      rcases hi with ⟨h, _⟩ | ⟨h, _⟩ <;> subst h <;> decide
  unfold fmt.vformat
  rw [htext, parseChronoFormatSpec_percent x l hx, ← htext, hparse]
  simp [fmt.scanText, fmt.pad, fmt.renderSpec]

/-- The renderings of the elements of a chrono-specs are the template with each placeholder
replaced by its rendering. -/
theorem renderItems_eq_substituted (f : fmt.Fields) (items : List fmt.Item) :
    fmt.renderItems f items =
      Spec.substituted (fun m t => fmt.renderConv f m.isSome t) items := by
  induction items with
  | nil => rfl
  | cons i rest ih =>
    cases i with
    | lit c => simp [fmt.renderItems, fmt.renderItem, Spec.substituted, ih]
    | conv m t => simp [fmt.renderItems, fmt.renderItem, Spec.substituted, ih]

/-- C10, amended. Literal characters pass through the custom format unchanged: for every
`DateTime` and every template that begins with a recognised placeholder and is made only of
recognised placeholders and literal characters other than `%` and the two braces,
`toString(format)` succeeds and its output is the template with each placeholder replaced by
its rendering and every literal character copied unchanged in place; and `%%` yields a single
percent sign. -/
theorem toString_format_literal_pass_through (dt : DateTime) (modifier : Option Char)
    (t : Char) (rest : List fmt.Item)
    (hrec : ∀ i ∈ fmt.Item.conv modifier t :: rest, Spec.recognised i = true) :
    dt.toString_format (String.mk (Spec.templateText (.conv modifier t :: rest))) =
      .ok (String.mk (Spec.substituted
        (fun m ty => fmt.renderConv (fmt.fieldsOf .milliseconds dt.m_timePoint) m.isSome ty)
        (.conv modifier t :: rest))) ∧
    dt.toString_format "%%" = .ok "%" := by
  constructor
  · unfold DateTime.toString_format
    simp only []
    rw [vformat_templateText .milliseconds dt.m_timePoint modifier t rest hrec,
      renderItems_eq_substituted]
  · have h := vformat_templateText .milliseconds dt.m_timePoint none '%' [] (by decide)
    unfold DateTime.toString_format
    have e : ("%%" : String).data = Spec.templateText [.conv none '%'] := by decide
    rw [e, h]
    rfl

/-- Witness of C10, amended, at the template `%d. %B %Y, 100%%`. -/
theorem toString_format_literal_pass_through_witness :
    (DateTime.mk 1599833155123).toString_format (String.mk (Spec.templateText
        [.conv none 'd', .lit '.', .lit ' ', .conv none 'B', .lit ' ', .conv none 'Y',
         .lit ',', .lit ' ', .lit '1', .lit '0', .lit '0', .conv none '%'])) =
      .ok (String.mk (Spec.substituted
        (fun m ty => fmt.renderConv (fmt.fieldsOf .milliseconds
          (DateTime.mk 1599833155123).m_timePoint) m.isSome ty)
        [.conv none 'd', .lit '.', .lit ' ', .conv none 'B', .lit ' ', .conv none 'Y',
         .lit ',', .lit ' ', .lit '1', .lit '0', .lit '0', .conv none '%'])) ∧
    (DateTime.mk 1599833155123).toString_format "%%" = .ok "%" :=
  toString_format_literal_pass_through ⟨1599833155123⟩ none 'd'
    [.lit '.', .lit ' ', .conv none 'B', .lit ' ', .conv none 'Y',
     .lit ',', .lit ' ', .lit '1', .lit '0', .lit '0', .conv none '%'] (by decide)

/-- C10 as stated fails at 2020-09-11T14:05:55.123Z: the empty template yields the date and
time, not the empty string; a template that begins with a literal character is refused; a
leading digit is a width and is not copied; a template with a brace in it is refused. -/
theorem toString_format_literal_pass_through_counterexample :
    (DateTime.mk 1599833155123).toString_format "" = .ok "2020-09-11 14:05:55.123" ∧
    (DateTime.mk 1599833155123).toString_format "Date: %Y"
      = .error (.invalid_argument "Invalid DateTime format string: Date: %Y") ∧
    (DateTime.mk 1599833155123).toString_format "1%Y" = .ok "2020" ∧
    (DateTime.mk 1599833155123).toString_format "%Y\x7b"
      = .error (.invalid_argument "Invalid DateTime format string: %Y\x7b") ∧
    (DateTime.mk 1599833155123).toString_format "%Y\x7d"
      = .error (.invalid_argument "Invalid DateTime format string: %Y\x7d") := by
  decide

/-- The part in front of the first closing brace, one character at a time. -/
theorem beforeClosingBrace_cons (c : Char) (l : List Char) :
    Spec.beforeClosingBrace (c :: l) =
      if c = fmt.rbrace then [] else c :: Spec.beforeClosingBrace l := by
  unfold Spec.beforeClosingBrace
  by_cases h : c = fmt.rbrace <;> simp [List.takeWhile, h]

/-- The closing brace the library call appends does not change the part in front of the
first closing brace. -/
theorem beforeClosingBrace_append (s : List Char) :
    Spec.beforeClosingBrace (s ++ [fmt.rbrace]) = Spec.beforeClosingBrace s := by
  induction s with
  | nil => simp [Spec.beforeClosingBrace, List.takeWhile]
  | cons c rest ih =>
    rw [List.cons_append, beforeClosingBrace_cons, beforeClosingBrace_cons, ih]

/-- A malformed placeholder in front of the first closing brace makes the chrono-specs
parser fail. -/
theorem parseChronoSpecsFrom_malformed (l : List Char) :
    ∀ st, Spec.malformedFrom st (Spec.beforeClosingBrace l) = true →
      ∃ e, fmt.parseChronoSpecsFrom st l = .error e := by
  induction l with
  | nil =>
    intro st h
    cases st with
    | text => simp [Spec.beforeClosingBrace, Spec.malformedFrom] at h
    | percent => exact ⟨_, rfl⟩
    | modifier m => exact ⟨_, rfl⟩
  | cons c rest ih =>
    intro st h
    rw [beforeClosingBrace_cons] at h
    by_cases hc : c = fmt.rbrace
    · rw [if_pos hc] at h
      subst hc
      cases st with
      | text => simp [Spec.malformedFrom] at h
      | percent =>
        rw [fmt.parseChronoSpecsFrom, if_neg (by decide), if_neg (by decide)]
        exact ⟨_, rfl⟩
      | modifier m =>
        have hno : ¬ ((m = 'E' ∧ fmt.rbrace ∈ fmt.modTypesE) ∨
            (m = 'O' ∧ fmt.rbrace ∈ fmt.modTypesO)) := by
          have h1 : fmt.rbrace ∉ fmt.modTypesE := by decide
          have h2 : fmt.rbrace ∉ fmt.modTypesO := by decide
          tauto
        rw [fmt.parseChronoSpecsFrom, if_neg hno]
        exact ⟨_, rfl⟩
    · rw [if_neg hc] at h
      cases st with
      | text =>
        rw [Spec.malformedFrom] at h
        rw [fmt.parseChronoSpecsFrom, if_neg hc]
        by_cases hl : c = fmt.lbrace
        · rw [if_pos hl]; exact ⟨_, rfl⟩
        · rw [if_neg hl]
          by_cases hp : c = '%'
          · rw [if_pos hp] at h ⊢
            exact ih _ h
          · rw [if_neg hp] at h ⊢
            obtain ⟨e, he⟩ := ih _ h
            rw [he]
            exact ⟨_, rfl⟩
      | percent =>
        rw [Spec.malformedFrom] at h
        rw [fmt.parseChronoSpecsFrom]
        by_cases hm : c = 'E' ∨ c = 'O'
        · rw [if_pos hm] at h ⊢
          exact ih _ h
        · rw [if_neg hm] at h ⊢
          by_cases ht : c ∈ fmt.convTypes
          · rw [if_pos ht] at h ⊢
            obtain ⟨e, he⟩ := ih _ h
            rw [he]
            exact ⟨_, rfl⟩
          · rw [if_neg ht]
            exact ⟨_, rfl⟩
      | modifier m =>
        rw [Spec.malformedFrom] at h
        rw [fmt.parseChronoSpecsFrom]
        by_cases ha : (m = 'E' ∧ c ∈ fmt.modTypesE) ∨ (m = 'O' ∧ c ∈ fmt.modTypesO)
        · rw [if_pos ha] at h ⊢
          obtain ⟨e, he⟩ := ih _ h
          rw [he]
          exact ⟨_, rfl⟩
        · rw [if_neg ha]
          exact ⟨_, rfl⟩

/-- Whether a text has a malformed placeholder in front of its first closing brace. -/
theorem malformed_skip (c : Char) (l : List Char) (h1 : c ≠ '%') (h2 : c ≠ fmt.rbrace) :
    Spec.malformedFrom .text (Spec.beforeClosingBrace (c :: l)) =
      Spec.malformedFrom .text (Spec.beforeClosingBrace l) := by
  rw [beforeClosingBrace_cons, if_neg h2, Spec.malformedFrom, if_neg h1]

/-- A text at which a format-spec is over has no malformed placeholder in front of its first
closing brace. -/
theorem malformed_finished (l : List Char) (h : fmt.finished l = true) :
    Spec.malformedFrom .text (Spec.beforeClosingBrace l) = false := by
  cases l with
  | nil => rfl
  | cons c rest =>
    simp only [fmt.finished, decide_eq_true_eq] at h
    rw [beforeClosingBrace_cons, if_pos h]
    rfl

/-- An alignment character is neither `%` nor a closing brace. -/
theorem align_facts (c : Char) (a : fmt.Align) (h : fmt.alignOfChar c = some a) :
    c ≠ '%' ∧ c ≠ fmt.rbrace ∧ (c = '<' ∨ c = '>' ∨ c = '^') := by
  unfold fmt.alignOfChar at h
  by_cases h1 : c = '<'
  · subst h1; decide
  · by_cases h2 : c = '>'
    · subst h2; decide
    · by_cases h3 : c = '^'
      · subst h3; decide
      · simp [h1, h2, h3] at h

/-- The fill-and-align part takes no `%` and no closing brace away, unless the text begins
with `%` and an alignment. -/
theorem malformed_parseFillAlign (l : List Char) (hfin : fmt.finished l = false)
    (hpa : Spec.beginsWithPercentAlign l = false) :
    Spec.malformedFrom .text (Spec.beforeClosingBrace (fmt.parseFillAlign l).2) =
      Spec.malformedFrom .text (Spec.beforeClosingBrace l) := by
  match l with
  | [] => rfl
  | [c0] =>
    simp only [fmt.parseFillAlign]
    cases ha : fmt.alignOfChar c0 with
    | none => rfl
    | some a =>
      obtain ⟨h1, h2, _⟩ := align_facts c0 a ha
      simp only []
      rw [malformed_skip c0 [] h1 h2]
  | c0 :: c1 :: rest =>
    have h0 : c0 ≠ fmt.rbrace := by
      simpa [fmt.finished] using hfin
    simp only [fmt.parseFillAlign]
    by_cases hl : c0 = fmt.lbrace
    · rw [if_pos hl]
    · rw [if_neg hl]
      cases ha1 : fmt.alignOfChar c1 with
      | some a =>
        obtain ⟨h1, h2, h3⟩ := align_facts c1 a ha1
        have hp : c0 ≠ '%' := by
          intro hc0
          subst hc0
          simp only [Spec.beginsWithPercentAlign, decide_True, Bool.true_and, Bool.or_eq_false_iff,
            decide_eq_false_iff_not] at hpa
          tauto
        simp only []
        rw [malformed_skip c0 _ hp h0, malformed_skip c1 _ h1 h2]
      | none =>
        simp only []
        cases ha0 : fmt.alignOfChar c0 with
        | some a =>
          obtain ⟨h1, h2, _⟩ := align_facts c0 a ha0
          simp only []
          rw [malformed_skip c0 _ h1 h2]
        | none => rfl

/-- The digits of a width are neither `%` nor a closing brace. -/
theorem malformed_parseDigits (l : List Char) :
    ∀ acc, Spec.malformedFrom .text (Spec.beforeClosingBrace (fmt.parseDigits acc l).2) =
      Spec.malformedFrom .text (Spec.beforeClosingBrace l) := by
  induction l with
  | nil => intro acc; rfl
  | cons c rest ih =>
    intro acc
    rw [fmt.parseDigits]
    by_cases hd : c.isDigit = true
    · rw [if_pos hd, ih]
      have h1 : c ≠ '%' := by
        intro h; subst h; revert hd; decide
      have h2 : c ≠ fmt.rbrace := by
        intro h; subst h; revert hd; decide
      rw [malformed_skip c rest h1 h2]
    · rw [if_neg hd]

/-- The width takes no `%` and no closing brace away. -/
theorem malformed_parseWidth (l : List Char) (w : Nat) (l2 : List Char)
    (h : fmt.parseWidth l = .ok (w, l2)) :
    Spec.malformedFrom .text (Spec.beforeClosingBrace l2) =
      Spec.malformedFrom .text (Spec.beforeClosingBrace l) := by
  cases l with
  | nil =>
    simp only [fmt.parseWidth, Except.ok.injEq, Prod.mk.injEq] at h
    rw [← h.2]
  | cons c rest =>
    rw [fmt.parseWidth] at h
    by_cases h1 : c = fmt.lbrace
    · rw [if_pos h1] at h; cases h
    · rw [if_neg h1] at h
      by_cases h2 : c = '0'
      · rw [if_pos h2] at h; cases h
      · rw [if_neg h2] at h
        by_cases h3 : c.isDigit = true
        · rw [if_pos h3] at h
          have e : l2 = (fmt.parseDigits 0 (c :: rest)).2 := by
            have h4 := Except.ok.inj h
            rw [h4]
          rw [e, malformed_parseDigits]
        · rw [if_neg h3] at h
          cases h; rfl

/-- The option `L` takes no `%` and no closing brace away. -/
theorem malformed_parseLocale (l : List Char) :
    Spec.malformedFrom .text (Spec.beforeClosingBrace (fmt.parseLocale l)) =
      Spec.malformedFrom .text (Spec.beforeClosingBrace l) := by
  cases l with
  | nil => rfl
  | cons c rest =>
    rw [fmt.parseLocale]
    by_cases h : c = 'L'
    · rw [if_pos h]
      subst h
      rw [malformed_skip 'L' rest (by decide) (by decide)]
    · rw [if_neg h]

/-- A malformed placeholder in front of the first closing brace makes the format-spec parser
fail, unless the text begins with `%` and an alignment. -/
theorem parseChronoFormatSpec_malformed (l : List Char)
    (hpa : Spec.beginsWithPercentAlign l = false)
    (hmal : Spec.malformedFrom .text (Spec.beforeClosingBrace l) = true) :
    ∃ e, fmt.parseChronoFormatSpec l = .error e := by
  have fin_false : ∀ s, Spec.malformedFrom .text (Spec.beforeClosingBrace s) = true →
      fmt.finished s = false := by
    intro s hs
    by_contra hcon
    rw [malformed_finished s (by simpa using hcon)] at hs
    cases hs
  have h1 := fin_false l hmal
  have h2 : Spec.malformedFrom .text (Spec.beforeClosingBrace (fmt.parseFillAlign l).2) = true := by
    rw [malformed_parseFillAlign l h1 hpa]; exact hmal
  have h3 := fin_false _ h2
  unfold fmt.parseChronoFormatSpec
  simp only [h1, h3, Bool.false_eq_true, if_false]
  cases hw : fmt.parseWidth (fmt.parseFillAlign l).2 with
  | error e => exact ⟨e, rfl⟩
  | ok v =>
    obtain ⟨w, s2⟩ := v
    have h4 : Spec.malformedFrom .text (Spec.beforeClosingBrace (fmt.parseLocale s2)) = true := by
      rw [malformed_parseLocale, malformed_parseWidth _ w s2 hw]; exact h2
    have h5 := fin_false _ h4
    have h6 : ∃ e, fmt.parseSpecsPart (fmt.parseLocale s2) = .error e := by
      unfold fmt.parseSpecsPart
      rw [h5]
      simp only [Bool.false_eq_true, if_false]
      by_cases hh : (fmt.parseLocale s2).head? = some '%'
      · rw [if_pos hh]
        exact parseChronoSpecsFrom_malformed _ _ h4
      · rw [if_neg hh]
        exact ⟨_, rfl⟩
    obtain ⟨e, he⟩ := h6
    simp only [he]
    exact ⟨e, rfl⟩

/-- The closing brace the library call appends does not make a text begin with `%` and an
alignment. -/
theorem beginsWithPercentAlign_append (s : List Char) :
    Spec.beginsWithPercentAlign (s ++ [fmt.rbrace]) = Spec.beginsWithPercentAlign s := by
  match s with
  | [] => rfl
  | [c] =>
    simp only [List.singleton_append, Spec.beginsWithPercentAlign]
    have : (decide (fmt.rbrace = '<') || decide (fmt.rbrace = '>') || decide (fmt.rbrace = '^'))
        = false := by decide
    rw [this, Bool.and_false]
  | c :: d :: rest => rfl

/-- C9, amended. For every `DateTime` and every format template that does not begin with `%`
followed by `<`, `>` or `^` (there the `%` is a fill character) and that has, in front of its
first closing brace, a malformed placeholder (a `%`, with or without a modifier, that is at
the end or is followed by a character that makes no conversion the formatter accepts for a
time point), `toString(format)` produces no string and fails with `std::invalid_argument`
whose message is "Invalid DateTime format string: " followed by the unmodified template. -/
theorem toString_format_malformed (dt : DateTime) (format : String)
    (hfill : Spec.beginsWithPercentAlign format.data = false)
    (hmal : Spec.hasMalformedPlaceholder (Spec.beforeClosingBrace format.data) = true) :
    dt.toString_format format =
      .error (.invalid_argument ("Invalid DateTime format string: " ++ format)) := by
  obtain ⟨e, he⟩ := parseChronoFormatSpec_malformed (format.data ++ [fmt.rbrace])
    (by rw [beginsWithPercentAlign_append]; exact hfill)
    (by rw [beforeClosingBrace_append]; exact hmal)
  unfold DateTime.toString_format fmt.vformat
  rw [he]

/-- Witness of C9, amended, at the template `%H:%M:%`, which ends in a `%`. -/
theorem toString_format_malformed_witness :
    (DateTime.mk 1599833155123).toString_format "%H:%M:%" =
      .error (.invalid_argument ("Invalid DateTime format string: " ++ "%H:%M:%")) :=
  toString_format_malformed ⟨1599833155123⟩ "%H:%M:%" (by decide) (by decide)

/-- C9 as stated fails at 2020-09-11T14:05:55.123Z: the template `%Y}%!}` has a `%` followed
by `!` and yields "2020%!}", and the template `%<%Y` has a `%` followed by `<` and yields
"2020". -/
theorem toString_format_malformed_counterexample :
    (DateTime.mk 1599833155123).toString_format "%Y\x7d%!\x7d" = .ok "2020%!\x7d" ∧
    (DateTime.mk 1599833155123).toString_format "%<%Y" = .ok "2020" := by
  decide

/-! ## Every instant -/

/-- The number of days in front of the year that begins in March of `y + 1` is that in
front of the one of `y`, plus 365, plus one when `y + 1` is a leap year. -/
theorem march_year_step (y : Int) :
    365 * (y + 1) + (y + 1) / 4 - (y + 1) / 100 + (y + 1) / 400 =
      365 * y + y / 4 - y / 100 + y / 400 + 365 +
        (if (y + 1) % 4 = 0 ∧ ((y + 1) % 100 ≠ 0 ∨ (y + 1) % 400 = 0) then 1 else 0) := by
  have f1 : (y + 1) % 4 ≠ 0 → (y + 1) / 4 = y / 4 := by omega
  have f2 : (y + 1) % 4 = 0 → (y + 1) / 4 = y / 4 + 1 := by omega
  have f3 : (y + 1) % 100 ≠ 0 → (y + 1) / 100 = y / 100 := by omega
  have f4 : (y + 1) % 100 = 0 → (y + 1) / 100 = y / 100 + 1 := by omega
  have f5 : (y + 1) % 100 = 0 → (y + 1) % 4 = 0 := by omega
  have f6 : (y + 1) % 400 ≠ 0 → (y + 1) / 400 = y / 400 := by omega
  have f7 : (y + 1) % 400 = 0 → (y + 1) / 400 = y / 400 + 1 := by omega
  have f8 : (y + 1) % 400 = 0 → (y + 1) % 100 = 0 := by omega
  by_cases h400 : (y + 1) % 400 = 0
  · have h100 := f8 h400
    have h4 := f5 h100
    rw [if_pos ⟨h4, Or.inr h400⟩, f2 h4, f4 h100, f7 h400]
    ring
  · by_cases h100 : (y + 1) % 100 = 0
    · have h4 := f5 h100
      rw [if_neg (by tauto), f2 h4, f4 h100, f6 h400]
      ring
    · by_cases h4 : (y + 1) % 4 = 0
      · rw [if_pos ⟨h4, Or.inl h100⟩, f2 h4, f3 h100, f6 h400]
        ring
      · rw [if_neg (by tauto), f1 h4, f3 h100, f6 h400]
        ring

/-- Every day from the first of March of year 0 on is a day of some year that begins in
March. -/
theorem day_decomposition (n : Nat) :
    ∃ y doy : Int, 0 ≤ y ∧ 0 ≤ doy ∧
      (doy ≤ 364 ∨
        (doy = 365 ∧ (y + 1) % 4 = 0 ∧ ((y + 1) % 100 ≠ 0 ∨ (y + 1) % 400 = 0))) ∧
      (n : Int) = 365 * y + y / 4 - y / 100 + y / 400 + doy := by
  induction n with
  | zero => exact ⟨0, 0, le_refl _, le_refl _, Or.inl (by decide), by decide⟩
  | succ k ih =>
    obtain ⟨y, doy, h0, hd0, hd1, hk⟩ := ih
    have hk1 : ((k + 1 : Nat) : Int) = (k : Int) + 1 := by push_cast; rfl
    rw [hk1]
    have hstep := march_year_step y
    generalize hD : 365 * y + y / 4 - y / 100 + y / 400 = D at hk hstep
    generalize hD1 : 365 * (y + 1) + (y + 1) / 4 - (y + 1) / 100 + (y + 1) / 400 = D1 at hstep
    by_cases hleap : (y + 1) % 4 = 0 ∧ ((y + 1) % 100 ≠ 0 ∨ (y + 1) % 400 = 0)
    · rw [if_pos hleap] at hstep
      by_cases hlast : doy ≤ 364
      · refine ⟨y, doy + 1, h0, by linarith, ?_, by rw [hD]; linarith⟩
        by_cases h363 : doy ≤ 363
        · left; linarith
        · right; exact ⟨by linarith [not_le.mp h363, Int.lt_iff_add_one_le.mp (not_le.mp h363)], hleap⟩
      · have hd : doy = 365 := by
          rcases hd1 with h | h
          · exact absurd h hlast
          · exact h.1
        exact ⟨y + 1, 0, by linarith, le_refl _, Or.inl (by decide), by rw [hD1]; linarith⟩
    · rw [if_neg hleap] at hstep
      have hd2 : doy ≤ 364 := by
        rcases hd1 with h | h
        · exact h
        · exact absurd h.2 hleap
      by_cases hlast : doy ≤ 363
      · exact ⟨y, doy + 1, h0, by linarith, Or.inl (by linarith), by rw [hD]; linarith⟩
      · have hd : doy = 364 := by
          have := Int.lt_iff_add_one_le.mp (not_le.mp hlast)
          linarith
        exact ⟨y + 1, 0, by linarith, le_refl _, Or.inl (by decide), by rw [hD1]; linarith⟩

/-- Recovering the shifted month and the day of month from any day of a year that begins in
March. -/
theorem doy_decomposition (doy : Int) (h0 : 0 ≤ doy) (h1 : doy ≤ 365) :
    0 ≤ (5 * doy + 2) / 153 ∧ (5 * doy + 2) / 153 ≤ 11 ∧
    1 ≤ doy - (153 * ((5 * doy + 2) / 153) + 2) / 5 + 1 ∧
    doy - (153 * ((5 * doy + 2) / 153) + 2) / 5 + 1 ≤ 31 ∧
    (((5 * doy + 2) / 153 = 1 ∨ (5 * doy + 2) / 153 = 3 ∨ (5 * doy + 2) / 153 = 6 ∨
        (5 * doy + 2) / 153 = 8) → doy - (153 * ((5 * doy + 2) / 153) + 2) / 5 + 1 ≤ 30) ∧
    ((5 * doy + 2) / 153 = 11 →
      (doy - (153 * ((5 * doy + 2) / 153) + 2) / 5 + 1 ≤ 28 ∨
        (doy - (153 * ((5 * doy + 2) / 153) + 2) / 5 + 1 = 29 ∧ doy = 365))) := by
  generalize hmp : (5 * doy + 2) / 153 = mp
  have hr : 0 ≤ mp ∧ mp ≤ 11 := by omega
  have h : mp = 0 ∨ mp = 1 ∨ mp = 2 ∨ mp = 3 ∨ mp = 4 ∨ mp = 5 ∨ mp = 6 ∨ mp = 7 ∨ mp = 8 ∨
      mp = 9 ∨ mp = 10 ∨ mp = 11 := by omega
  rcases h with h | h | h | h | h | h | h | h | h | h | h | h <;> subst h <;> omega

/-- Every day count is the day count of a date that exists, and that date is what the
library makes of it, short of storing the year in 16 bits. -/
theorem from_days_spec (z : Int) :
    ∃ Y M D : Int, chrono.year_month_day.from_days z = ⟨chrono.year Y, M, D⟩ ∧
      (1 ≤ M ∧ M ≤ 12) ∧ (1 ≤ D ∧ D ≤ Spec.daysInMonth Y M) ∧
      chrono.year_month_day.to_days ⟨Y, M, D⟩ = z := by
  have hdoe0 : 0 ≤ (z + 719468) % 146097 := Int.emod_nonneg _ (by decide)
  have hdoe1 : (z + 719468) % 146097 < 146097 := Int.emod_lt_of_pos _ (by decide)
  obtain ⟨yoe, doy, hy0, hd0, hd1, hn⟩ := day_decomposition ((z + 719468) % 146097).toNat
  rw [Int.toNat_of_nonneg hdoe0] at hn
  have hy1 : yoe < 400 := by omega
  have h400 : yoe / 400 = 0 := by omega
  rw [h400, add_zero] at hn
  have hdoy1 : doy ≤ 365 := by omega
  obtain ⟨m0, m1, d0, d1, hlen, hfeb⟩ := doy_decomposition doy hd0 hdoy1
  generalize hmp : (5 * doy + 2) / 153 = mp at m0 m1 d0 d1 hlen hfeb
  generalize hdd : doy - (153 * mp + 2) / 5 + 1 = dd at d0 d1 hlen hfeb
  have hera : z + 719468 = (z + 719468) / 146097 * 146097
      + (365 * yoe + yoe / 4 - yoe / 100 + ((153 * mp + 2) / 5 + dd - 1)) := by
    have := Int.emod_add_ediv (z + 719468) 146097
    omega
  have key := from_days_of_parts z ((z + 719468) / 146097) yoe mp dd hy0 hy1 ⟨m0, m1⟩ ⟨d0, d1⟩
    hlen
    (by
      intro h
      rcases hfeb h with h28 | ⟨h29, h365⟩
      · exact Or.inl h28
      · right
        refine ⟨h29, ?_⟩
        rcases hd1 with hle | hleap
        · omega
        · exact hleap.2)
    hera
  generalize hE : (z + 719468) / 146097 = era at hera key
  refine ⟨yoe + era * 400 + (if mp < 10 then 0 else 1), if mp < 10 then mp + 3 else mp - 9, dd,
    ?_, ?_, ?_, ?_⟩
  · rw [key]
    have e2 : chrono.month (if mp < 10 then mp + 3 else mp - 9)
        = if mp < 10 then mp + 3 else mp - 9 := by
      unfold chrono.month; split <;> omega
    have e3 : chrono.day dd = dd := by unfold chrono.day; omega
    rw [e2, e3]
  · split <;> omega
  · refine ⟨d0, ?_⟩
    unfold Spec.daysInMonth Spec.isLeapYear
    by_cases hlt : mp < 10
    · simp only [hlt, if_true]
      have hm : mp = 0 ∨ mp = 1 ∨ mp = 2 ∨ mp = 3 ∨ mp = 4 ∨ mp = 5 ∨ mp = 6 ∨ mp = 7 ∨
          mp = 8 ∨ mp = 9 := by omega
      rcases hm with h | h | h | h | h | h | h | h | h | h <;> subst h <;> simp <;> omega
    · simp only [hlt, if_false]
      have hm : mp = 10 ∨ mp = 11 := by omega
      rcases hm with h | h
      · subst h; simp; omega
      · subst h
        simp only [show ((11 : Int) - 9 = 2) from rfl, if_true]
        rcases hfeb rfl with h28 | ⟨h29, h365⟩
        · split <;> omega
        · have hleap : (yoe + 1) % 4 = 0 ∧ ((yoe + 1) % 100 ≠ 0 ∨ (yoe + 1) % 400 = 0) := by
            rcases hd1 with hle | hleap
            · omega
            · exact hleap.2
          have hl2 : (decide ((yoe + era * 400 + 1) % 4 = 0) &&
              (decide ((yoe + era * 400 + 1) % 100 ≠ 0) ||
                decide ((yoe + era * 400 + 1) % 400 = 0))) = true := by
            simp only [Bool.and_eq_true, Bool.or_eq_true, decide_eq_true_eq]
            omega
          rw [hl2]
          simp only [if_true]
          omega
  · rw [to_days_eq _ _ _ (by split <;> omega)]
    have hq : (yoe + era * 400) / 400 = era := by omega
    have hr : (yoe + era * 400) % 400 = yoe := by omega
    by_cases hlt : mp < 10
    · simp only [hlt, if_true]
      have a1 : ¬ (mp + 3 ≤ 2) := by omega
      have a2 : mp + 3 > 2 := by omega
      simp only [a1, a2, if_true, if_false, add_zero, sub_zero]
      rw [hq, hr]
      omega
    · simp only [hlt, if_false]
      have a1 : mp - 9 ≤ 2 := by omega
      have a2 : ¬ (mp - 9 > 2) := by omega
      simp only [a1, a2, if_true, if_false, add_sub_cancel_right]
      rw [hq, hr]
      omega

/-- The day count of a date in closed form, for any year. -/
theorem to_days_closed (y m d : Int) (hm : 1 ≤ m ∧ m ≤ 12) :
    chrono.year_month_day.to_days ⟨y, m, d⟩ =
      365 * (y - 1) + (y - 1) / 4 - (y - 1) / 100 + (y - 1) / 400
        + (if m ≤ 2 then 31 * (m - 1)
            else (153 * (m - 3) + 2) / 5 + 59 +
              (if (y % 4 = 0 ∧ (y % 100 ≠ 0 ∨ y % 400 = 0)) then 1 else 0))
        + (d - 1) - 719162 := by
  rw [to_days_eq y m d hm]
  have h : m = 1 ∨ m = 2 ∨ m = 3 ∨ m = 4 ∨ m = 5 ∨ m = 6 ∨ m = 7 ∨ m = 8 ∨ m = 9 ∨
      m = 10 ∨ m = 11 ∨ m = 12 := by omega
  rcases h with h | h | h | h | h | h | h | h | h | h | h | h <;> subst h <;>
    split <;> omega

/-- The day count of a date that exists lies within its year. -/
theorem to_days_bounds (y m d : Int) (hm : 1 ≤ m ∧ m ≤ 12)
    (hd : 1 ≤ d ∧ d ≤ Spec.daysInMonth y m) :
    365 * (y - 1) + (y - 1) / 4 - (y - 1) / 100 + (y - 1) / 400 - 719162
      ≤ chrono.year_month_day.to_days ⟨y, m, d⟩ ∧
    chrono.year_month_day.to_days ⟨y, m, d⟩
      ≤ 365 * (y - 1) + (y - 1) / 4 - (y - 1) / 100 + (y - 1) / 400 - 719162 + 364
        + (if (y % 4 = 0 ∧ (y % 100 ≠ 0 ∨ y % 400 = 0)) then 1 else 0) := by
  rw [to_days_closed y m d hm]
  have hd2 := hd.2
  unfold Spec.daysInMonth Spec.isLeapYear at hd2
  have hl : (decide (y % 4 = 0) && (decide (y % 100 ≠ 0) || decide (y % 400 = 0))) =
      decide (y % 4 = 0 ∧ (y % 100 ≠ 0 ∨ y % 400 = 0)) := by
    by_cases a : y % 4 = 0 <;> by_cases b : y % 100 = 0 <;>
      by_cases c : y % 400 = 0 <;> simp [a, b, c]
  rw [hl] at hd2
  have h : m = 1 ∨ m = 2 ∨ m = 3 ∨ m = 4 ∨ m = 5 ∨ m = 6 ∨ m = 7 ∨ m = 8 ∨ m = 9 ∨
      m = 10 ∨ m = 11 ∨ m = 12 := by omega
  by_cases hleap : (y % 4 = 0 ∧ (y % 100 ≠ 0 ∨ y % 400 = 0))
  · simp only [hleap, decide_True, if_true] at hd2 ⊢
    rcases h with h | h | h | h | h | h | h | h | h | h | h | h <;> subst h <;>
      simp at hd2 ⊢ <;> omega
  · simp only [hleap, decide_False, if_false] at hd2 ⊢
    rcases h with h | h | h | h | h | h | h | h | h | h | h | h <;> subst h <;>
      simp at hd2 ⊢ <;> omega

/-- The time of day of any instant: the parts the library splits it into, and their
ranges. -/
theorem tod_spec (t : Int) :
    ∃ h mi s k : Int, DateTime.tod ⟨t⟩ = ⟨false, h, mi, s, k⟩ ∧
      (0 ≤ h ∧ h ≤ 23) ∧ (0 ≤ mi ∧ mi ≤ 59) ∧ (0 ≤ s ∧ s ≤ 59) ∧ (0 ≤ k ∧ k ≤ 999) ∧
      t = chrono.floor 86400000 t * 86400000 + h * 3600000 + mi * 60000 + s * 1000 + k := by
  have hfl := floor_eq_ediv 86400000 t (by decide)
  generalize hr : t - t / 86400000 * 86400000 = r
  have hr0 : 0 ≤ r := by omega
  have hr1 : r < 86400000 := by omega
  refine ⟨r / 3600000, (r - r / 3600000 * 3600000) / 60000,
    (r - r / 3600000 * 3600000 - (r - r / 3600000 * 3600000) / 60000 * 60000) / 1000,
    r - r / 3600000 * 3600000 - (r - r / 3600000 * 3600000) / 60000 * 60000
      - (r - r / 3600000 * 3600000 - (r - r / 3600000 * 3600000) / 60000 * 60000) / 1000 * 1000,
    ?_, by omega, by omega, by omega, by omega, by rw [hfl]; omega⟩
  unfold DateTime.tod
  simp only [hfl, hr, chrono.hh_mm_ss.ofDuration, chrono.duration_cast, Int.reduceMul]
  have hn : ¬ (r < 0) := by omega
  rw [if_neg hn]
  rw [tdiv_of_nonneg hr0 (by decide)]
  rw [tdiv_of_nonneg (a := r - r / 3600000 * 3600000) (by omega) (by decide)]
  rw [tdiv_of_nonneg
    (a := r - r / 3600000 * 3600000 - (r - r / 3600000 * 3600000) / 60000 * 60000)
    (by omega) (by decide)]
  simp [hn]

/-- Every instant is a date that exists and a time of day, and these are what the accessors
read off it, short of storing the year in 16 bits. -/
theorem instant_spec (t : Int) :
    ∃ Y M D h mi s k : Int,
      chrono.year_month_day.from_days (chrono.floor 86400000 t) = ⟨chrono.year Y, M, D⟩ ∧
      (1 ≤ M ∧ M ≤ 12) ∧ (1 ≤ D ∧ D ≤ Spec.daysInMonth Y M) ∧
      DateTime.tod ⟨t⟩ = ⟨false, h, mi, s, k⟩ ∧
      (0 ≤ h ∧ h ≤ 23) ∧ (0 ≤ mi ∧ mi ≤ 59) ∧ (0 ≤ s ∧ s ≤ 59) ∧ (0 ≤ k ∧ k ≤ 999) ∧
      t = chrono.year_month_day.to_days ⟨Y, M, D⟩ * 86400000 + h * 3600000 + mi * 60000
        + s * 1000 + k := by
  obtain ⟨Y, M, D, hfd, hM, hD, htd⟩ := from_days_spec (chrono.floor 86400000 t)
  obtain ⟨h, mi, s, k, htod, hh, hmi, hs, hk, ht⟩ := tod_spec t
  exact ⟨Y, M, D, h, mi, s, k, hfd, hM, hD, htod, hh, hmi, hs, hk, by rw [htd]; exact ht⟩

/-- The number of days in front of a year grows with the year. -/
theorem march_days_mono (a b : Int) (h : a ≤ b) :
    365 * a + a / 4 - a / 100 + a / 400 ≤ 365 * b + b / 4 - b / 100 + b / 400 := by
  obtain ⟨n, rfl⟩ : ∃ n : Nat, b = a + n := ⟨(b - a).toNat, by omega⟩
  induction n with
  | zero => simp
  | succ k ih =>
    have hstep := march_year_step (a + k)
    have e : a + ((k + 1 : Nat) : Int) = a + k + 1 := by push_cast; ring
    rw [e, hstep]
    have := ih (by omega)
    split <;> linarith

/-- The year of a date that exists, from bounds on its day count. -/
theorem year_bounds_of_days (Y M D lo hi : Int) (hM : 1 ≤ M ∧ M ≤ 12)
    (hD : 1 ≤ D ∧ D ≤ Spec.daysInMonth Y M)
    (hlo : 365 * (lo - 1) + (lo - 1) / 4 - (lo - 1) / 100 + (lo - 1) / 400 - 719162
      ≤ chrono.year_month_day.to_days ⟨Y, M, D⟩)
    (hhi : chrono.year_month_day.to_days ⟨Y, M, D⟩
      < 365 * hi + hi / 4 - hi / 100 + hi / 400 - 719162) :
    lo ≤ Y ∧ Y ≤ hi := by
  obtain ⟨b1, b2⟩ := to_days_bounds Y M D hM hD
  generalize chrono.year_month_day.to_days ⟨Y, M, D⟩ = z at hlo hhi b1 b2
  have hstep := march_year_step (Y - 1)
  rw [sub_add_cancel] at hstep
  constructor
  · by_contra hcon
    have h1 := march_days_mono Y (lo - 1) (by omega)
    by_cases hl : Y % 4 = 0 ∧ (Y % 100 ≠ 0 ∨ Y % 400 = 0)
    · rw [if_pos hl] at hstep b2
      linarith
    · rw [if_neg hl] at hstep b2
      linarith
  · by_contra hcon
    have h1 := march_days_mono hi (Y - 1) (by omega)
    linarith

/-- The year of an instant between 0001-01-01T00:00:00.000Z and 9999-12-31T23:59:59.999Z
lies in [1, 9999]. -/
theorem year_range_supported (t Y M D r : Int) (hM : 1 ≤ M ∧ M ≤ 12)
    (hD : 1 ≤ D ∧ D ≤ Spec.daysInMonth Y M) (hr : 0 ≤ r ∧ r ≤ 86399999)
    (ht : t = chrono.year_month_day.to_days ⟨Y, M, D⟩ * 86400000 + r)
    (hlo : -62135596800000 ≤ t) (hhi : t ≤ 253402300799999) :
    1 ≤ Y ∧ Y ≤ 9999 := by
  apply year_bounds_of_days Y M D 1 9999 hM hD
  · norm_num
    omega
  · norm_num
    omega

/-- The year of an instant between -32768-01-01T00:00:00.000Z and 32767-12-31T23:59:59.999Z
fits the 16 bits of a `std::chrono::year`. -/
theorem year_range_short (t Y M D r : Int) (hM : 1 ≤ M ∧ M ≤ 12)
    (hD : 1 ≤ D ∧ D ≤ Spec.daysInMonth Y M) (hr : 0 ≤ r ∧ r ≤ 86399999)
    (ht : t = chrono.year_month_day.to_days ⟨Y, M, D⟩ * 86400000 + r)
    (hlo : -1096225401600000 ≤ t) (hhi : t ≤ 971890963199999) :
    -32768 ≤ Y ∧ Y ≤ 32767 := by
  apply year_bounds_of_days Y M D (-32768) 32767 hM hD
  · norm_num
    omega
  · norm_num
    omega

/-! ## Claims about every instant -/

/-- The accessors of an instant whose year a `std::chrono::year` can hold. -/
theorem accessors_of_instant (t Y M D h mi s k : Int)
    (hfd : chrono.year_month_day.from_days (chrono.floor 86400000 t) = ⟨chrono.year Y, M, D⟩)
    (htod : DateTime.tod ⟨t⟩ = ⟨false, h, mi, s, k⟩) (hY : -32768 ≤ Y ∧ Y ≤ 32767) :
    (DateTime.mk t).getYear = Y ∧ (DateTime.mk t).getMonth = M ∧ (DateTime.mk t).getDay = D ∧
    (DateTime.mk t).getHours = h ∧ (DateTime.mk t).getMinutes = mi ∧
    (DateTime.mk t).getSeconds = s ∧ (DateTime.mk t).getMilliseconds = Double.ofInt k := by
  have hy : chrono.year Y = Y := by unfold chrono.year; omega
  simp only [DateTime.getYear, DateTime.getMonth, DateTime.getDay, DateTime.getHours,
    DateTime.getMinutes, DateTime.getSeconds, DateTime.getMilliseconds, hfd, htod, hy,
    and_self]

/-- C15, amended. Accessor ranges hold for every stored instant whose year a
`std::chrono::year` can hold, not only for values built by the constructor: for every
millisecond count `t` from -32768-01-01T00:00:00.000Z to 32767-12-31T23:59:59.999Z, also
before 1970, `getMonth` is in [1,12], `getDay` is in [1,31] and a valid day of `getMonth` in
`getYear`, `getHours` is in [0,23], `getMinutes` and `getSeconds` are in [0,59],
`getMilliseconds` is an integer in [0,999], and `t` is the instant of UTC midnight of that
date plus 3600000 * getHours + 60000 * getMinutes + 1000 * getSeconds + getMilliseconds. -/
theorem accessor_ranges (t : Int) (hlo : -1096225401600000 ≤ t) (hhi : t ≤ 971890963199999) :
    ∃ k : Int,
      (1 ≤ (DateTime.mk t).getMonth ∧ (DateTime.mk t).getMonth ≤ 12) ∧
      (1 ≤ (DateTime.mk t).getDay ∧ (DateTime.mk t).getDay ≤ 31) ∧
      (DateTime.mk t).getDay
        ≤ Spec.daysInMonth (DateTime.mk t).getYear (DateTime.mk t).getMonth ∧
      (0 ≤ (DateTime.mk t).getHours ∧ (DateTime.mk t).getHours ≤ 23) ∧
      (0 ≤ (DateTime.mk t).getMinutes ∧ (DateTime.mk t).getMinutes ≤ 59) ∧
      (0 ≤ (DateTime.mk t).getSeconds ∧ (DateTime.mk t).getSeconds ≤ 59) ∧
      (DateTime.mk t).getMilliseconds = Double.ofInt k ∧ (0 ≤ k ∧ k < 1000) ∧
      t = chrono.year_month_day.to_days
            ⟨(DateTime.mk t).getYear, (DateTime.mk t).getMonth, (DateTime.mk t).getDay⟩
            * 86400000
          + 3600000 * (DateTime.mk t).getHours + 60000 * (DateTime.mk t).getMinutes
          + 1000 * (DateTime.mk t).getSeconds + k := by
  obtain ⟨Y, M, D, h, mi, s, k, hfd, hM, hD, htod, hh, hmi, hs, hk, ht⟩ := instant_spec t
  have hY := year_range_short t Y M D (h * 3600000 + mi * 60000 + s * 1000 + k) hM hD
    (by omega) (by rw [ht]; ring) hlo hhi
  obtain ⟨a1, a2, a3, a4, a5, a6, a7⟩ := accessors_of_instant t Y M D h mi s k hfd htod hY
  have hdim : Spec.daysInMonth Y M ≤ 31 := by
    unfold Spec.daysInMonth; split_ifs <;> omega
  rw [a1, a2, a3, a4, a5, a6, a7]
  exact ⟨k, hM, ⟨hD.1, by omega⟩, hD.2, hh, hmi, hs, rfl, ⟨hk.1, by omega⟩, by rw [ht]; ring⟩

/-- Witness of C15, amended, at one millisecond before the epoch. -/
theorem accessor_ranges_witness :
    ∃ k : Int,
      (1 ≤ (DateTime.mk (-1)).getMonth ∧ (DateTime.mk (-1)).getMonth ≤ 12) ∧
      (1 ≤ (DateTime.mk (-1)).getDay ∧ (DateTime.mk (-1)).getDay ≤ 31) ∧
      (DateTime.mk (-1)).getDay
        ≤ Spec.daysInMonth (DateTime.mk (-1)).getYear (DateTime.mk (-1)).getMonth ∧
      (0 ≤ (DateTime.mk (-1)).getHours ∧ (DateTime.mk (-1)).getHours ≤ 23) ∧
      (0 ≤ (DateTime.mk (-1)).getMinutes ∧ (DateTime.mk (-1)).getMinutes ≤ 59) ∧
      (0 ≤ (DateTime.mk (-1)).getSeconds ∧ (DateTime.mk (-1)).getSeconds ≤ 59) ∧
      (DateTime.mk (-1)).getMilliseconds = Double.ofInt k ∧ (0 ≤ k ∧ k < 1000) ∧
      (-1 : Int) = chrono.year_month_day.to_days
            ⟨(DateTime.mk (-1)).getYear, (DateTime.mk (-1)).getMonth,
              (DateTime.mk (-1)).getDay⟩ * 86400000
          + 3600000 * (DateTime.mk (-1)).getHours + 60000 * (DateTime.mk (-1)).getMinutes
          + 1000 * (DateTime.mk (-1)).getSeconds + k :=
  accessor_ranges (-1) (by decide) (by decide)

/-- C15 as stated fails at the stored instant 971890963200000, midnight of the first of
January of the year 32768: `getYear` is -32768, and the midnight of -32768-01-01 is not that
instant. -/
theorem accessor_ranges_counterexample :
    (DateTime.mk 971890963200000).getYear = -32768 ∧
    (DateTime.mk 971890963200000).getMonth = 1 ∧
    (DateTime.mk 971890963200000).getDay = 1 ∧
    (DateTime.mk 971890963200000).getHours = 0 ∧
    (DateTime.mk 971890963200000).getMinutes = 0 ∧
    (DateTime.mk 971890963200000).getSeconds = 0 ∧
    (DateTime.mk 971890963200000).getMilliseconds = Double.ofInt 0 ∧
    (971890963200000 : Int) ≠ chrono.year_month_day.to_days
        ⟨(DateTime.mk 971890963200000).getYear, (DateTime.mk 971890963200000).getMonth,
          (DateTime.mk 971890963200000).getDay⟩ * 86400000
      + 3600000 * (DateTime.mk 971890963200000).getHours
      + 60000 * (DateTime.mk 971890963200000).getMinutes
      + 1000 * (DateTime.mk 971890963200000).getSeconds + 0 := by
  decide

/-- An integer in [0, 999] as a double passes the millisecond checks of the constructor and
converts back to itself. -/
theorem ofInt_millisecond (k : Int) (hk : 0 ≤ k ∧ k ≤ 999) :
    (Double.ofInt k).ge (Double.ofInt 0) = true ∧
    (Double.ofInt k).lt (Double.ofInt 1000) = true ∧
    (Double.ofInt k).toLongLong = some k := by
  refine ⟨?_, ?_, ?_⟩
  · simp only [Double.ofInt, Double.ge, Double.scaled, min_self, sub_self, Int.toNat_zero,
      pow_zero, Nat.cast_one, mul_one, decide_eq_true_eq]
    exact hk.1
  · simp only [Double.ofInt, Double.lt, Double.scaled, min_self, sub_self, Int.toNat_zero,
      pow_zero, Nat.cast_one, mul_one, decide_eq_true_eq]
    omega
  · have e : Double.truncFinite k 0 = k := by
      simp [Double.truncFinite]
    simp only [Double.ofInt, Double.toLongLong, e]
    rw [if_pos ⟨by omega, by omega⟩]

/-- The constructor on what the accessors read off an instant of the supported range, with
any millisecond component `j` in [0, 999]: the instant with `j` in the place of its own
millisecond component. -/
theorem ctor_of_accessors (t : Int) (hlo : -62135596800000 ≤ t) (hhi : t ≤ 253402300799999)
    (j : Int) (hj : 0 ≤ j ∧ j ≤ 999) :
    ∃ k : Int, (0 ≤ k ∧ k ≤ 999) ∧ (DateTime.mk t).getMilliseconds = Double.ofInt k ∧
      (1 ≤ (DateTime.mk t).getYear ∧ (DateTime.mk t).getYear ≤ 9999) ∧
      DateTime.DateTime (DateTime.mk t).getYear (DateTime.mk t).getMonth (DateTime.mk t).getDay
        (DateTime.mk t).getHours (DateTime.mk t).getMinutes (DateTime.mk t).getSeconds
        (Double.ofInt j) = .ok ⟨t - k + j⟩ := by
  obtain ⟨Y, M, D, h, mi, s, k, hfd, hM, hD, htod, hh, hmi, hs, hk, ht⟩ := instant_spec t
  have hY := year_range_supported t Y M D (h * 3600000 + mi * 60000 + s * 1000 + k) hM hD
    (by omega) (by rw [ht]; ring) hlo hhi
  obtain ⟨a1, a2, a3, a4, a5, a6, a7⟩ := accessors_of_instant t Y M D h mi s k hfd htod
    (by omega)
  obtain ⟨g1, g2, g3⟩ := ofInt_millisecond j hj
  obtain ⟨k2, _, _, hk2, _, _, hc⟩ := ctor_of_valid Y M D h mi s (Double.ofInt j) hY hM hD
    hh hmi hs ⟨g1, g2⟩
  rw [g3] at hk2
  have hkj : k2 = j := (Option.some.inj hk2).symm
  subst hkj
  rw [a1, a2, a3, a4, a5, a6, a7]
  refine ⟨k, hk, rfl, hY, ?_⟩
  rw [hc]
  congr 2
  rw [ht]
  ring

/-- C12, amended. Read-back round trip: for every `DateTime` `d` of the supported range
(year in [1,9999], from 0001-01-01T00:00:00.000Z to 9999-12-31T23:59:59.999Z),
`DateTime(d.getYear(), d.getMonth(), d.getDay(), d.getHours(), d.getMinutes(),
d.getSeconds())` succeeds, and its stored instant is that of `d` less the millisecond
component of `d`: the two differ by at most 999 milliseconds. -/
theorem read_back_round_trip (d : DateTime) (hlo : -62135596800000 ≤ d.m_timePoint)
    (hhi : d.m_timePoint ≤ 253402300799999) :
    ∃ (dt : DateTime) (k : Int),
      DateTime.DateTime d.getYear d.getMonth d.getDay d.getHours d.getMinutes d.getSeconds
        (Double.ofInt 0) = .ok dt ∧
      d.getMilliseconds = Double.ofInt k ∧ (0 ≤ k ∧ k ≤ 999) ∧
      d.m_timePoint - dt.m_timePoint = k ∧
      (1 ≤ d.getYear ∧ d.getYear ≤ 9999) := by
  obtain ⟨t⟩ := d
  obtain ⟨k, hk, hms, hy, hc⟩ := ctor_of_accessors t hlo hhi 0 (by decide)
  exact ⟨_, k, hc, hms, hk, by simp, hy⟩

/-- Witness of C12, amended, at 2020-09-11T14:05:55.123Z. -/
theorem read_back_round_trip_witness :
    ∃ (dt : DateTime) (k : Int),
      DateTime.DateTime (DateTime.mk 1599833155123).getYear (DateTime.mk 1599833155123).getMonth
        (DateTime.mk 1599833155123).getDay (DateTime.mk 1599833155123).getHours
        (DateTime.mk 1599833155123).getMinutes (DateTime.mk 1599833155123).getSeconds
        (Double.ofInt 0) = .ok dt ∧
      (DateTime.mk 1599833155123).getMilliseconds = Double.ofInt k ∧ (0 ≤ k ∧ k ≤ 999) ∧
      (DateTime.mk 1599833155123).m_timePoint - dt.m_timePoint = k ∧
      (1 ≤ (DateTime.mk 1599833155123).getYear ∧ (DateTime.mk 1599833155123).getYear ≤ 9999) :=
  read_back_round_trip ⟨1599833155123⟩ (by decide) (by decide)

/-- C12 as stated fails at the stored instant 1599833155123 (2020-09-11T14:05:55.123Z): the
value built from its six integer accessors holds 1599833155000, which is 123 milliseconds
away. -/
theorem read_back_round_trip_counterexample :
    DateTime.DateTime (DateTime.mk 1599833155123).getYear (DateTime.mk 1599833155123).getMonth
      (DateTime.mk 1599833155123).getDay (DateTime.mk 1599833155123).getHours
      (DateTime.mk 1599833155123).getMinutes (DateTime.mk 1599833155123).getSeconds
      (Double.ofInt 0) = .ok ⟨1599833155000⟩ ∧
    ¬ ((1599833155123 : Int) - 1599833155000 ≤ 1) := by
  decide

/-- C18. Exact read-back: for every `DateTime` `d` of the supported range (year in
[1,9999], from 0001-01-01T00:00:00.000Z to 9999-12-31T23:59:59.999Z), the constructor on the
seven accessors of `d` succeeds and returns a value that is `== d`: the value `d` itself. -/
theorem exact_read_back (d : DateTime) (hlo : -62135596800000 ≤ d.m_timePoint)
    (hhi : d.m_timePoint ≤ 253402300799999) :
    DateTime.DateTime d.getYear d.getMonth d.getDay d.getHours d.getMinutes d.getSeconds
      d.getMilliseconds = .ok d ∧
    d.operator_eq d = true ∧ (1 ≤ d.getYear ∧ d.getYear ≤ 9999) := by
  obtain ⟨t⟩ := d
  obtain ⟨Y, M, D, h, mi, s, k, hfd, hM, hD, htod, hh, hmi, hs, hk, ht⟩ := instant_spec t
  have a7 : (DateTime.mk t).getMilliseconds = Double.ofInt k := by
    simp only [DateTime.getMilliseconds, htod]
  obtain ⟨k2, hk2, hms, hy, hc⟩ := ctor_of_accessors t hlo hhi k hk
  rw [a7] at hms
  have hkk : k = k2 := by
    simp only [Double.ofInt, Double.finite.injEq, and_true] at hms
    exact hms
  subst hkk
  rw [a7, hc]
  refine ⟨by simp, by simp [DateTime.operator_eq], hy⟩

/-- Witness of C18 at 0001-01-01T00:00:00.000Z, the first instant of the supported range. -/
theorem exact_read_back_witness :
    DateTime.DateTime (DateTime.mk (-62135596800000)).getYear
      (DateTime.mk (-62135596800000)).getMonth (DateTime.mk (-62135596800000)).getDay
      (DateTime.mk (-62135596800000)).getHours (DateTime.mk (-62135596800000)).getMinutes
      (DateTime.mk (-62135596800000)).getSeconds (DateTime.mk (-62135596800000)).getMilliseconds
      = .ok (DateTime.mk (-62135596800000)) ∧
    (DateTime.mk (-62135596800000)).operator_eq (DateTime.mk (-62135596800000)) = true ∧
    (1 ≤ (DateTime.mk (-62135596800000)).getYear ∧
      (DateTime.mk (-62135596800000)).getYear ≤ 9999) :=
  exact_read_back ⟨-62135596800000⟩ (by decide) (by decide)

/-- What the constructor has checked and computed when it returns a value for milliseconds
that are not a NaN. -/
theorem ctor_ok_inv (year month day hours minutes seconds : Int) (milliseconds : Double)
    (dt : DateTime) (hn : milliseconds ≠ Double.nan)
    (h : DateTime.DateTime year month day hours minutes seconds milliseconds = .ok dt) :
    (1 ≤ year ∧ year ≤ 9999) ∧ (1 ≤ month ∧ month ≤ 12) ∧
    (1 ≤ day ∧ day ≤ Spec.daysInMonth year month) ∧
    (0 ≤ hours ∧ hours ≤ 23) ∧ (0 ≤ minutes ∧ minutes ≤ 59) ∧ (0 ≤ seconds ∧ seconds ≤ 59) ∧
    (milliseconds.ge (Double.ofInt 0) = true ∧ milliseconds.lt (Double.ofInt 1000) = true) ∧
    ∃ k : Int, (0 ≤ k ∧ k ≤ 999) ∧ milliseconds.toLongLong = some k ∧
      dt.m_timePoint = chrono.year_month_day.to_days ⟨year, month, day⟩ * 86400000
        + hours * 3600000 + minutes * 60000 + seconds * 1000 + k := by
  have hin : ¬ ((year < 1 ∨ year > 9999) ∨ (month < 1 ∨ month > 12) ∨ (day < 1 ∨ day > 31) ∨
      (hours < 0 ∨ hours > 23) ∨ (minutes < 0 ∨ minutes > 59) ∨
      (seconds < 0 ∨ seconds > 59) ∨
      (milliseconds.lt (Double.ofInt 0) = true ∨
        milliseconds.ge (Double.ofInt 1000) = true)) := by
    intro hout
    obtain ⟨w, hw⟩ := ctor_of_unchecked year month day hours minutes seconds milliseconds hout
    rw [hw] at h
    cases h
  simp only [not_or, not_lt, Bool.not_eq_true] at hin
  obtain ⟨⟨a1, a2⟩, ⟨b1, b2⟩, ⟨c1, c2⟩, ⟨d1, d2⟩, ⟨e1, e2⟩, ⟨f1, f2⟩, g1, g2⟩ := hin
  have hy : 1 ≤ year ∧ year ≤ 9999 := ⟨by omega, by omega⟩
  have hm : 1 ≤ month ∧ month ≤ 12 := ⟨by omega, by omega⟩
  have hd : 1 ≤ day ∧ day ≤ 31 := ⟨by omega, by omega⟩
  have hh : 0 ≤ hours ∧ hours ≤ 23 := ⟨by omega, by omega⟩
  have hmi : 0 ≤ minutes ∧ minutes ≤ 59 := ⟨by omega, by omega⟩
  have hs : 0 ≤ seconds ∧ seconds ≤ 59 := ⟨by omega, by omega⟩
  have hms := (Double.tests_iff_bounds milliseconds hn).1 ⟨g1, g2⟩
  rw [ctor_of_checked year month day hours minutes seconds milliseconds hy hm hd hh hmi hs
    g1 g2] at h
  by_cases hdim : day ≤ Spec.daysInMonth year month
  · obtain ⟨k, k0, k1, hk, _, _, hc⟩ := ctor_of_valid year month day hours minutes seconds
      milliseconds hy hm ⟨hd.1, hdim⟩ hh hmi hs hms
    rw [ctor_of_checked year month day hours minutes seconds milliseconds hy hm hd hh hmi hs
      g1 g2, h] at hc
    have hdt : dt = ⟨chrono.year_month_day.to_days ⟨year, month, day⟩ * 86400000
        + hours * 3600000 + minutes * 60000 + seconds * 1000 + k⟩ := by
      cases hc; rfl
    exact ⟨hy, hm, ⟨hd.1, hdim⟩, hh, hmi, hs, hms, k, ⟨k0, k1⟩, hk, by rw [hdt]⟩
  · rw [if_neg hdim] at h
    cases h

/-- C16. With a NaN for the milliseconds the constructor returns a value outside the
supported range: the two tests `< 0.0` and `>= 1000.0` are both false on a NaN, and
`DateTime(2020, 9, 11, 14, 5, 55, NaN)` stores the count -9223370437021620808 (the date and
the time of day added to `-2 ^ 63`, which the conversion of the NaN to `long long` gives),
below -62135596800000, with `toUnixTimestamp` -9223370437021620, below -62135596800. For
every other double the claim holds: for every `DateTime` the constructor returns, the stored
millisecond count lies between -62135596800000 and 253402300799999 inclusive; it and every
intermediate sum of the day, hour, minute, second and millisecond offsets fit a signed 64-bit
integer; `toUnixTimestamp` lies in [-62135596800, 253402300799]; and `getYear` lies in
[1, 9999]. -/
theorem no_overflow_except_nan :
    (DateTime.DateTime 2020 9 11 14 5 55 Double.nan = .ok ⟨-9223370437021620808⟩ ∧
      Double.nan.lt (Double.ofInt 0) = false ∧ Double.nan.ge (Double.ofInt 1000) = false ∧
      Double.nan.static_cast_long_long = -9223372036854775808 ∧
      (DateTime.mk (-9223370437021620808)).m_timePoint < -62135596800000 ∧
      (DateTime.mk (-9223370437021620808)).toUnixTimestamp = -9223370437021620 ∧
      (DateTime.mk (-9223370437021620808)).toUnixTimestamp < -62135596800) ∧
    (∀ (year month day hours minutes seconds : Int) (milliseconds : Double) (dt : DateTime),
      milliseconds ≠ Double.nan →
      DateTime.DateTime year month day hours minutes seconds milliseconds = .ok dt →
      (-62135596800000 ≤ dt.m_timePoint ∧ dt.m_timePoint ≤ 253402300799999) ∧
      (∃ ms : Int, milliseconds.toLongLong = some ms ∧
        (-9223372036854775808 ≤ chrono.year_month_day.to_days ⟨year, month, day⟩ * 86400000 ∧
          chrono.year_month_day.to_days ⟨year, month, day⟩ * 86400000
            ≤ 9223372036854775807) ∧
        (-9223372036854775808 ≤ chrono.year_month_day.to_days ⟨year, month, day⟩ * 86400000
            + hours * 3600000 ∧
          chrono.year_month_day.to_days ⟨year, month, day⟩ * 86400000 + hours * 3600000
            ≤ 9223372036854775807) ∧
        (-9223372036854775808 ≤ chrono.year_month_day.to_days ⟨year, month, day⟩ * 86400000
            + hours * 3600000 + minutes * 60000 ∧
          chrono.year_month_day.to_days ⟨year, month, day⟩ * 86400000 + hours * 3600000
            + minutes * 60000 ≤ 9223372036854775807) ∧
        (-9223372036854775808 ≤ chrono.year_month_day.to_days ⟨year, month, day⟩ * 86400000
            + hours * 3600000 + minutes * 60000 + seconds * 1000 ∧
          chrono.year_month_day.to_days ⟨year, month, day⟩ * 86400000 + hours * 3600000
            + minutes * 60000 + seconds * 1000 ≤ 9223372036854775807) ∧
        dt.m_timePoint = chrono.year_month_day.to_days ⟨year, month, day⟩ * 86400000
          + hours * 3600000 + minutes * 60000 + seconds * 1000 + ms ∧
        (-9223372036854775808 ≤ dt.m_timePoint ∧ dt.m_timePoint ≤ 9223372036854775807)) ∧
      (-62135596800 ≤ dt.toUnixTimestamp ∧ dt.toUnixTimestamp ≤ 253402300799) ∧
      (1 ≤ dt.getYear ∧ dt.getYear ≤ 9999)) := by
  refine ⟨by decide, ?_⟩
  intro year month day hours minutes seconds milliseconds dt hn h
  obtain ⟨hy, hm, hd, hh, hmi, hs, hms, k, hk, hL, ht⟩ :=
    ctor_ok_inv year month day hours minutes seconds milliseconds dt hn h
  obtain ⟨b1, b2⟩ := to_days_bounds year month day hm hd
  obtain ⟨a1, _⟩ := accessors_of_parts year month day hours minutes seconds k hy hm hd hh hmi
    hs hk
  generalize chrono.year_month_day.to_days ⟨year, month, day⟩ = z at ht b1 b2 a1
  have hz : -719162 ≤ z ∧ z ≤ 2932896 := by
    have l1 := march_days_mono 0 (year - 1) (by omega)
    have l2 := march_days_mono (year - 1) 9998 (by omega)
    norm_num at l1 l2
    constructor
    · omega
    · split at b2 <;> omega
  have hrange : -62135596800000 ≤ dt.m_timePoint ∧ dt.m_timePoint ≤ 253402300799999 := by
    rw [ht]; omega
  refine ⟨hrange, ⟨k, hL, by omega, by omega, by omega, by omega, ht, by omega⟩, ?_, ?_⟩
  · unfold DateTime.toUnixTimestamp chrono.duration_cast
    rw [sub_zero]
    rcases le_total 0 dt.m_timePoint with hp | hn
    · rw [tdiv_of_nonneg hp (by decide)]
      omega
    · rw [tdiv_of_nonpos hn (by decide)]
      omega
  · obtain ⟨t⟩ := dt
    simp only at ht
    subst ht
    simp only [DateTime.getYear]
    rw [a1]
    exact hy

/-- Witness of C16 at 9999-12-31T23:59:59.999Z, the last instant of the supported range. -/
theorem no_overflow_except_nan_witness :
    (-62135596800000 ≤ (DateTime.mk 253402300799999).m_timePoint ∧
      (DateTime.mk 253402300799999).m_timePoint ≤ 253402300799999) ∧
    (-62135596800 ≤ (DateTime.mk 253402300799999).toUnixTimestamp ∧
      (DateTime.mk 253402300799999).toUnixTimestamp ≤ 253402300799) ∧
    (1 ≤ (DateTime.mk 253402300799999).getYear ∧
      (DateTime.mk 253402300799999).getYear ≤ 9999) :=
  have h := no_overflow_except_nan.2 9999 12 31 23 59 59 (Double.ofInt 999)
    ⟨253402300799999⟩ (by decide) (by decide)
  ⟨h.1, h.2.2.1, h.2.2.2⟩

/-! ## Claims about the validation order and the timestamp -/

/-- C13. Validation order: the failure names the first invalid field in the order year,
month, day, hour, minute, second, millisecond; year 0 together with month 13 reports "year
out of range", month 13 together with hours 24 reports "month out of range". -/
theorem validation_order (year month day hours minutes seconds : Int)
    (milliseconds : Double) :
    ((year < 1 ∨ year > 9999) →
      DateTime.DateTime year month day hours minutes seconds milliseconds
        = .error (.out_of_range "year out of range")) ∧
    ((1 ≤ year ∧ year ≤ 9999) → (month < 1 ∨ month > 12) →
      DateTime.DateTime year month day hours minutes seconds milliseconds
        = .error (.out_of_range "month out of range")) ∧
    ((1 ≤ year ∧ year ≤ 9999) → (1 ≤ month ∧ month ≤ 12) → (day < 1 ∨ day > 31) →
      DateTime.DateTime year month day hours minutes seconds milliseconds
        = .error (.out_of_range "day out of range")) ∧
    ((1 ≤ year ∧ year ≤ 9999) → (1 ≤ month ∧ month ≤ 12) → (1 ≤ day ∧ day ≤ 31) →
      (hours < 0 ∨ hours > 23) →
      DateTime.DateTime year month day hours minutes seconds milliseconds
        = .error (.out_of_range "hour out of range")) ∧
    ((1 ≤ year ∧ year ≤ 9999) → (1 ≤ month ∧ month ≤ 12) → (1 ≤ day ∧ day ≤ 31) →
      (0 ≤ hours ∧ hours ≤ 23) → (minutes < 0 ∨ minutes > 59) →
      DateTime.DateTime year month day hours minutes seconds milliseconds
        = .error (.out_of_range "minute out of range")) ∧
    ((1 ≤ year ∧ year ≤ 9999) → (1 ≤ month ∧ month ≤ 12) → (1 ≤ day ∧ day ≤ 31) →
      (0 ≤ hours ∧ hours ≤ 23) → (0 ≤ minutes ∧ minutes ≤ 59) →
      (seconds < 0 ∨ seconds > 59) →
      DateTime.DateTime year month day hours minutes seconds milliseconds
        = .error (.out_of_range "second out of range")) ∧
    ((1 ≤ year ∧ year ≤ 9999) → (1 ≤ month ∧ month ≤ 12) → (1 ≤ day ∧ day ≤ 31) →
      (0 ≤ hours ∧ hours ≤ 23) → (0 ≤ minutes ∧ minutes ≤ 59) →
      (0 ≤ seconds ∧ seconds ≤ 59) →
      (milliseconds.lt (Double.ofInt 0) = true ∨
        milliseconds.ge (Double.ofInt 1000) = true) →
      DateTime.DateTime year month day hours minutes seconds milliseconds
        = .error (.out_of_range "millisecond out of range")) ∧
    DateTime.DateTime 0 13 11 14 5 55 (Double.ofInt 0)
      = .error (.out_of_range "year out of range") ∧
    DateTime.DateTime 2020 13 11 24 5 55 (Double.ofInt 0)
      = .error (.out_of_range "month out of range") := by
  refine ⟨?_, ?_, ?_, ?_, ?_, ?_, ?_, by decide, by decide⟩
  · intro h1
    unfold DateTime.DateTime
    rw [if_pos h1]
  · intro h1 h2
    unfold DateTime.DateTime
    rw [if_neg (by omega), if_pos h2]
  · intro h1 h2 h3
    unfold DateTime.DateTime
    rw [if_neg (by omega), if_neg (by omega), if_pos h3]
  · intro h1 h2 h3 h4
    unfold DateTime.DateTime
    rw [if_neg (by omega), if_neg (by omega), if_neg (by omega), if_pos h4]
  · intro h1 h2 h3 h4 h5
    unfold DateTime.DateTime
    rw [if_neg (by omega), if_neg (by omega), if_neg (by omega), if_neg (by omega), if_pos h5]
  · intro h1 h2 h3 h4 h5 h6
    unfold DateTime.DateTime
    rw [if_neg (by omega), if_neg (by omega), if_neg (by omega), if_neg (by omega),
      if_neg (by omega), if_pos h6]
  · intro h1 h2 h3 h4 h5 h6 h7
    have h8 : (milliseconds.lt (Double.ofInt 0) || milliseconds.ge (Double.ofInt 1000))
        = true := by
      rcases h7 with h | h <;> simp [h]
    unfold DateTime.DateTime
    rw [if_neg (by omega), if_neg (by omega), if_neg (by omega), if_neg (by omega),
      if_neg (by omega), if_neg (by omega), if_pos h8]

/-- Witness of C13: day 32 together with seconds 60 and milliseconds -1 reports the day. -/
theorem validation_order_witness :
    DateTime.DateTime 2020 9 32 14 5 60 (Double.ofInt (-1))
      = .error (.out_of_range "day out of range") :=
  (validation_order 2020 9 32 14 5 60 (Double.ofInt (-1))).2.2.1 (by decide) (by decide)
    (by decide)

/-- The truncating quotient by 1000 of an instant, by the sign of the instant. -/
theorem tdiv_thousand (t : Int) :
    Int.tdiv t 1000 = if 0 ≤ t then t / 1000 else -((-t) / 1000) := by
  split
  · exact tdiv_of_nonneg (by assumption) (by decide)
  · exact tdiv_of_nonpos (by omega) (by decide)

/-- C20. `toUnixTimestamp` is monotone in the order on `DateTime`: `a <= b` implies
`a.toUnixTimestamp() <= b.toUnixTimestamp()`; and the stored millisecond count `t` of any
value is less than 1000 away from `1000 * toUnixTimestamp()`. -/
theorem toUnixTimestamp_monotone (a b : DateTime) :
    (a.operator_le b = true → a.toUnixTimestamp ≤ b.toUnixTimestamp) ∧
    (-1000 < a.m_timePoint - 1000 * a.toUnixTimestamp ∧
      a.m_timePoint - 1000 * a.toUnixTimestamp < 1000) := by
  obtain ⟨x⟩ := a
  obtain ⟨y⟩ := b
  simp only [DateTime.operator_le, DateTime.toUnixTimestamp, chrono.duration_cast, sub_zero,
    decide_eq_true_eq]
  rw [tdiv_thousand x, tdiv_thousand y]
  refine ⟨?_, ?_, ?_⟩
  · intro h
    split <;> split <;> omega
  · split <;> omega
  · split <;> omega

/-- Witness of C20 at the two sides of the epoch. -/
theorem toUnixTimestamp_monotone_witness :
    (DateTime.mk (-1500)).toUnixTimestamp ≤ (DateTime.mk 2500).toUnixTimestamp :=
  (toUnixTimestamp_monotone ⟨-1500⟩ ⟨2500⟩).1 (by decide)

/-- The Unix timestamp of a value built from valid components: the whole-second count of
the components from 1970 on or when the milliseconds truncate to 0, and one more before 1970
when they do not. -/
theorem toUnixTimestamp_of_valid (year month day hours minutes seconds : Int)
    (milliseconds : Double)
    (hy : 1 ≤ year ∧ year ≤ 9999) (hm : 1 ≤ month ∧ month ≤ 12)
    (hd : 1 ≤ day ∧ day ≤ Spec.daysInMonth year month)
    (hh : 0 ≤ hours ∧ hours ≤ 23) (hmi : 0 ≤ minutes ∧ minutes ≤ 59)
    (hs : 0 ≤ seconds ∧ seconds ≤ 59)
    (hms : milliseconds.ge (Double.ofInt 0) = true ∧
      milliseconds.lt (Double.ofInt 1000) = true) :
    ∃ (dt : DateTime) (k : Int),
      DateTime.DateTime year month day hours minutes seconds milliseconds = .ok dt ∧
      milliseconds.toLongLong = some k ∧ (0 ≤ k ∧ k ≤ 999) ∧
      dt.toUnixTimestamp =
        (if 0 ≤ 86400 * Spec.daysFromEpoch year month day + 3600 * hours + 60 * minutes
              + seconds ∨ k = 0 then
          86400 * Spec.daysFromEpoch year month day + 3600 * hours + 60 * minutes + seconds
        else
          86400 * Spec.daysFromEpoch year month day + 3600 * hours + 60 * minutes + seconds
            + 1) := by
  obtain ⟨k, k0, k1, hk, _, _, hc⟩ := ctor_of_valid year month day hours minutes seconds
    milliseconds hy hm hd hh hmi hs hms
  refine ⟨_, k, hc, hk, ⟨k0, k1⟩, ?_⟩
  simp only [DateTime.toUnixTimestamp, chrono.duration_cast, sub_zero]
  rw [to_days_eq_daysFromEpoch year month day hy.1 hm, tdiv_thousand]
  generalize Spec.daysFromEpoch year month day = z
  split <;> split <;> omega

/-- C14, amended. `toUnixTimestamp` truncates toward the epoch: for two `DateTime`s built
from valid components that agree on year, month, day, hours, minutes and seconds and differ
only in the millisecond component, `toUnixTimestamp` returns the same value when the second
they lie in is at or after 1970-01-01T00:00:00Z; before 1970 it returns the same (negative or
zero) value exactly when their millisecond components are both zero or both non-zero, the
value for a non-zero component being one more than the value for zero. -/
theorem toUnixTimestamp_sub_second (year month day hours minutes seconds : Int)
    (ms1 ms2 : Double)
    (hy : 1 ≤ year ∧ year ≤ 9999) (hm : 1 ≤ month ∧ month ≤ 12)
    (hd : 1 ≤ day ∧ day ≤ Spec.daysInMonth year month)
    (hh : 0 ≤ hours ∧ hours ≤ 23) (hmi : 0 ≤ minutes ∧ minutes ≤ 59)
    (hs : 0 ≤ seconds ∧ seconds ≤ 59)
    (hms1 : ms1.ge (Double.ofInt 0) = true ∧ ms1.lt (Double.ofInt 1000) = true)
    (hms2 : ms2.ge (Double.ofInt 0) = true ∧ ms2.lt (Double.ofInt 1000) = true) :
    ∃ (dt1 dt2 : DateTime) (k1 k2 : Int),
      DateTime.DateTime year month day hours minutes seconds ms1 = .ok dt1 ∧
      DateTime.DateTime year month day hours minutes seconds ms2 = .ok dt2 ∧
      ms1.toLongLong = some k1 ∧ ms2.toLongLong = some k2 ∧
      (0 ≤ 86400 * Spec.daysFromEpoch year month day + 3600 * hours + 60 * minutes + seconds →
        dt1.toUnixTimestamp = dt2.toUnixTimestamp) ∧
      (86400 * Spec.daysFromEpoch year month day + 3600 * hours + 60 * minutes + seconds < 0 →
        (dt1.toUnixTimestamp = dt2.toUnixTimestamp ↔ (k1 = 0 ↔ k2 = 0)) ∧
        (k1 = 0 → k2 ≠ 0 → dt2.toUnixTimestamp = dt1.toUnixTimestamp + 1)) := by
  obtain ⟨dt1, k1, c1, l1, b1, t1⟩ := toUnixTimestamp_of_valid year month day hours minutes
    seconds ms1 hy hm hd hh hmi hs hms1
  obtain ⟨dt2, k2, c2, l2, b2, t2⟩ := toUnixTimestamp_of_valid year month day hours minutes
    seconds ms2 hy hm hd hh hmi hs hms2
  refine ⟨dt1, dt2, k1, k2, c1, c2, l1, l2, ?_, ?_⟩
  · intro hS
    rw [t1, t2, if_pos (Or.inl hS), if_pos (Or.inl hS)]
  · intro hS
    rw [t1, t2]
    generalize 86400 * Spec.daysFromEpoch year month day + 3600 * hours + 60 * minutes
      + seconds = S at hS
    by_cases z1 : k1 = 0 <;> by_cases z2 : k2 = 0
    · rw [if_pos (Or.inr z1), if_pos (Or.inr z2)]; simp [z1, z2]
    · rw [if_pos (Or.inr z1), if_neg (by omega)]
      refine ⟨⟨fun h => by omega, fun h => by tauto⟩, fun _ _ => rfl⟩
    · rw [if_neg (by omega), if_pos (Or.inr z2)]
      refine ⟨⟨fun h => by omega, fun h => by tauto⟩, fun h => absurd h z1⟩
    · rw [if_neg (by omega), if_neg (by omega)]
      refine ⟨⟨fun _ => by tauto, fun _ => rfl⟩, fun h => absurd h z1⟩

/-- Witness of C14, amended, at 1969-12-31T23:59:59 with milliseconds 250 and 750. -/
theorem toUnixTimestamp_sub_second_witness :
    ∃ (dt1 dt2 : DateTime) (k1 k2 : Int),
      DateTime.DateTime 1969 12 31 23 59 59 (Double.ofInt 250) = .ok dt1 ∧
      DateTime.DateTime 1969 12 31 23 59 59 (Double.ofInt 750) = .ok dt2 ∧
      (Double.ofInt 250).toLongLong = some k1 ∧ (Double.ofInt 750).toLongLong = some k2 ∧
      (0 ≤ 86400 * Spec.daysFromEpoch 1969 12 31 + 3600 * 23 + 60 * 59 + 59 →
        dt1.toUnixTimestamp = dt2.toUnixTimestamp) ∧
      (86400 * Spec.daysFromEpoch 1969 12 31 + 3600 * 23 + 60 * 59 + 59 < 0 →
        (dt1.toUnixTimestamp = dt2.toUnixTimestamp ↔ (k1 = 0 ↔ k2 = 0)) ∧
        (k1 = 0 → k2 ≠ 0 → dt2.toUnixTimestamp = dt1.toUnixTimestamp + 1)) :=
  toUnixTimestamp_sub_second 1969 12 31 23 59 59 (Double.ofInt 250) (Double.ofInt 750)
    (by decide) (by decide) (by decide) (by decide) (by decide) (by decide) (by decide)
    (by decide)

/-- C14 as stated fails at 1969-12-31T23:59:59: with milliseconds 0 the timestamp is -1,
with milliseconds 500 it is 0. -/
theorem toUnixTimestamp_sub_second_counterexample :
    (DateTime.DateTime 1969 12 31 23 59 59 (Double.ofInt 0)).map DateTime.toUnixTimestamp
      = .ok (-1) ∧
    (DateTime.DateTime 1969 12 31 23 59 59 (Double.ofInt 500)).map DateTime.toUnixTimestamp
      = .ok 0 := by
  decide

/-! ## Claims about the order of values -/

/-- An earlier date that exists has a smaller day count. -/
theorem to_days_lt_of_lex (y1 m1 d1 y2 m2 d2 : Int)
    (hm1 : 1 ≤ m1 ∧ m1 ≤ 12) (hd1 : 1 ≤ d1 ∧ d1 ≤ Spec.daysInMonth y1 m1)
    (hm2 : 1 ≤ m2 ∧ m2 ≤ 12) (hd2 : 1 ≤ d2 ∧ d2 ≤ Spec.daysInMonth y2 m2)
    (h : y1 < y2 ∨ (y1 = y2 ∧ (m1 < m2 ∨ (m1 = m2 ∧ d1 < d2)))) :
    chrono.year_month_day.to_days ⟨y1, m1, d1⟩ < chrono.year_month_day.to_days ⟨y2, m2, d2⟩ := by
  rcases h with h | ⟨rfl, h⟩
  · obtain ⟨_, b2⟩ := to_days_bounds y1 m1 d1 hm1 hd1
    obtain ⟨c1, _⟩ := to_days_bounds y2 m2 d2 hm2 hd2
    have hstep := march_year_step (y1 - 1)
    rw [sub_add_cancel] at hstep
    have hmono := march_days_mono y1 (y2 - 1) (by omega)
    by_cases hl : y1 % 4 = 0 ∧ (y1 % 100 ≠ 0 ∨ y1 % 400 = 0)
    · rw [if_pos hl] at hstep b2
      linarith
    · rw [if_neg hl] at hstep b2
      linarith
  · rcases h with h | ⟨rfl, h⟩
    · rw [to_days_closed y1 m1 d1 hm1, to_days_closed y1 m2 d2 hm2]
      have hd12 := hd1.2
      unfold Spec.daysInMonth Spec.isLeapYear at hd12
      have hl : (decide (y1 % 4 = 0) && (decide (y1 % 100 ≠ 0) || decide (y1 % 400 = 0))) =
          decide (y1 % 4 = 0 ∧ (y1 % 100 ≠ 0 ∨ y1 % 400 = 0)) := by
        by_cases a : y1 % 4 = 0 <;> by_cases b : y1 % 100 = 0 <;>
          by_cases c : y1 % 400 = 0 <;> simp [a, b, c]
      rw [hl] at hd12
      have hc : m1 = 1 ∨ m1 = 2 ∨ m1 = 3 ∨ m1 = 4 ∨ m1 = 5 ∨ m1 = 6 ∨ m1 = 7 ∨ m1 = 8 ∨
          m1 = 9 ∨ m1 = 10 ∨ m1 = 11 := by omega
      by_cases hleap : (y1 % 4 = 0 ∧ (y1 % 100 ≠ 0 ∨ y1 % 400 = 0))
      · simp only [hleap, decide_True, if_true] at hd12 ⊢
        rcases hc with h1 | h1 | h1 | h1 | h1 | h1 | h1 | h1 | h1 | h1 | h1 <;> subst h1 <;>
          simp at hd12 ⊢ <;> split <;> omega
      · simp only [hleap, decide_False, if_false] at hd12 ⊢
        rcases hc with h1 | h1 | h1 | h1 | h1 | h1 | h1 | h1 | h1 | h1 | h1 <;> subst h1 <;>
          simp at hd12 ⊢ <;> split <;> omega
    · rw [to_days_closed y1 m1 d1 hm1, to_days_closed y1 m1 d2 hm1]
      omega

/-- The instant of a lexicographically smaller tuple of valid components is smaller. -/
theorem instant_lt_of_lex (y1 m1 d1 h1 mi1 s1 k1 y2 m2 d2 h2 mi2 s2 k2 : Int)
    (hm1 : 1 ≤ m1 ∧ m1 ≤ 12) (hd1 : 1 ≤ d1 ∧ d1 ≤ Spec.daysInMonth y1 m1)
    (hh1 : 0 ≤ h1 ∧ h1 ≤ 23) (hmi1 : 0 ≤ mi1 ∧ mi1 ≤ 59) (hs1 : 0 ≤ s1 ∧ s1 ≤ 59)
    (hk1 : 0 ≤ k1 ∧ k1 ≤ 999)
    (hm2 : 1 ≤ m2 ∧ m2 ≤ 12) (hd2 : 1 ≤ d2 ∧ d2 ≤ Spec.daysInMonth y2 m2)
    (hh2 : 0 ≤ h2 ∧ h2 ≤ 23) (hmi2 : 0 ≤ mi2 ∧ mi2 ≤ 59) (hs2 : 0 ≤ s2 ∧ s2 ≤ 59)
    (hk2 : 0 ≤ k2 ∧ k2 ≤ 999)
    (h : Spec.lexLt [y1, m1, d1, h1, mi1, s1, k1] [y2, m2, d2, h2, mi2, s2, k2] = true) :
    chrono.year_month_day.to_days ⟨y1, m1, d1⟩ * 86400000 + h1 * 3600000 + mi1 * 60000
        + s1 * 1000 + k1 <
      chrono.year_month_day.to_days ⟨y2, m2, d2⟩ * 86400000 + h2 * 3600000 + mi2 * 60000
        + s2 * 1000 + k2 := by
  simp only [Spec.lexLt, Bool.or_eq_true, Bool.and_eq_true, decide_eq_true_eq, Bool.or_false,
    Bool.false_eq_true, or_false, and_false] at h
  by_cases hdate : y1 < y2 ∨ (y1 = y2 ∧ (m1 < m2 ∨ (m1 = m2 ∧ d1 < d2)))
  · have := to_days_lt_of_lex y1 m1 d1 y2 m2 d2 hm1 hd1 hm2 hd2 hdate
    omega
  · have hy : y1 = y2 := by omega
    subst hy
    have hm : m1 = m2 := by omega
    subst hm
    have hd : d1 = d2 := by omega
    subst hd
    omega

/-- Two tuples of integers of the same length are equal or one is lexicographically smaller
than the other. -/
theorem lex_trichotomy (y1 m1 d1 h1 mi1 s1 k1 y2 m2 d2 h2 mi2 s2 k2 : Int) :
    Spec.lexLt [y1, m1, d1, h1, mi1, s1, k1] [y2, m2, d2, h2, mi2, s2, k2] = true ∨
    [y1, m1, d1, h1, mi1, s1, k1] = [y2, m2, d2, h2, mi2, s2, k2] ∨
    Spec.lexLt [y2, m2, d2, h2, mi2, s2, k2] [y1, m1, d1, h1, mi1, s1, k1] = true := by
  simp only [Spec.lexLt, Bool.or_eq_true, Bool.and_eq_true, decide_eq_true_eq, Bool.or_false,
    Bool.false_eq_true, or_false, and_false, List.cons.injEq, and_true]
  omega

/-- C17. The order on `DateTime` values is the chronological, lexicographic order of their
components: for two `DateTime`s built by the constructor from valid components, `a < b`
holds if and only if the tuple (year, month, day, hours, minutes, seconds, truncated
milliseconds) of `a` is lexicographically smaller than that of `b`, and `a == b` holds if and
only if the two tuples are equal. -/
theorem order_is_lexicographic
    (y1 m1 d1 h1 mi1 s1 : Int) (ms1 : Double) (y2 m2 d2 h2 mi2 s2 : Int) (ms2 : Double)
    (hy1 : 1 ≤ y1 ∧ y1 ≤ 9999) (hm1 : 1 ≤ m1 ∧ m1 ≤ 12)
    (hd1 : 1 ≤ d1 ∧ d1 ≤ Spec.daysInMonth y1 m1)
    (hh1 : 0 ≤ h1 ∧ h1 ≤ 23) (hmi1 : 0 ≤ mi1 ∧ mi1 ≤ 59) (hs1 : 0 ≤ s1 ∧ s1 ≤ 59)
    (hms1 : ms1.ge (Double.ofInt 0) = true ∧ ms1.lt (Double.ofInt 1000) = true)
    (hy2 : 1 ≤ y2 ∧ y2 ≤ 9999) (hm2 : 1 ≤ m2 ∧ m2 ≤ 12)
    (hd2 : 1 ≤ d2 ∧ d2 ≤ Spec.daysInMonth y2 m2)
    (hh2 : 0 ≤ h2 ∧ h2 ≤ 23) (hmi2 : 0 ≤ mi2 ∧ mi2 ≤ 59) (hs2 : 0 ≤ s2 ∧ s2 ≤ 59)
    (hms2 : ms2.ge (Double.ofInt 0) = true ∧ ms2.lt (Double.ofInt 1000) = true) :
    ∃ (a b : DateTime) (k1 k2 : Int),
      DateTime.DateTime y1 m1 d1 h1 mi1 s1 ms1 = .ok a ∧
      DateTime.DateTime y2 m2 d2 h2 mi2 s2 ms2 = .ok b ∧
      ms1.toLongLong = some k1 ∧ ms2.toLongLong = some k2 ∧
      (a.operator_lt b = true ↔
        Spec.lexLt [y1, m1, d1, h1, mi1, s1, k1] [y2, m2, d2, h2, mi2, s2, k2] = true) ∧
      (a.operator_eq b = true ↔
        [y1, m1, d1, h1, mi1, s1, k1] = [y2, m2, d2, h2, mi2, s2, k2]) := by
  obtain ⟨k1, a0, a1, l1, _, _, c1⟩ := ctor_of_valid y1 m1 d1 h1 mi1 s1 ms1 hy1 hm1 hd1 hh1
    hmi1 hs1 hms1
  obtain ⟨k2, b0, b1, l2, _, _, c2⟩ := ctor_of_valid y2 m2 d2 h2 mi2 s2 ms2 hy2 hm2 hd2 hh2
    hmi2 hs2 hms2
  refine ⟨_, _, k1, k2, c1, c2, l1, l2, ?_, ?_⟩
  · simp only [DateTime.operator_lt, decide_eq_true_eq]
    constructor
    · intro hlt
      rcases lex_trichotomy y1 m1 d1 h1 mi1 s1 k1 y2 m2 d2 h2 mi2 s2 k2 with h | h | h
      · exact h
      · simp only [List.cons.injEq, and_true] at h
        obtain ⟨rfl, rfl, rfl, rfl, rfl, rfl, rfl⟩ := h
        exact absurd hlt (lt_irrefl _)
      · have := instant_lt_of_lex y2 m2 d2 h2 mi2 s2 k2 y1 m1 d1 h1 mi1 s1 k1 hm2 hd2 hh2
          hmi2 hs2 ⟨b0, b1⟩ hm1 hd1 hh1 hmi1 hs1 ⟨a0, a1⟩ h
        exact absurd hlt (not_lt.mpr this.le)
    · intro h
      exact instant_lt_of_lex y1 m1 d1 h1 mi1 s1 k1 y2 m2 d2 h2 mi2 s2 k2 hm1 hd1 hh1
        hmi1 hs1 ⟨a0, a1⟩ hm2 hd2 hh2 hmi2 hs2 ⟨b0, b1⟩ h
  · simp only [DateTime.operator_eq, decide_eq_true_eq]
    constructor
    · intro heq
      rcases lex_trichotomy y1 m1 d1 h1 mi1 s1 k1 y2 m2 d2 h2 mi2 s2 k2 with h | h | h
      · have := instant_lt_of_lex y1 m1 d1 h1 mi1 s1 k1 y2 m2 d2 h2 mi2 s2 k2 hm1 hd1 hh1
          hmi1 hs1 ⟨a0, a1⟩ hm2 hd2 hh2 hmi2 hs2 ⟨b0, b1⟩ h
        omega
      · exact h
      · have := instant_lt_of_lex y2 m2 d2 h2 mi2 s2 k2 y1 m1 d1 h1 mi1 s1 k1 hm2 hd2 hh2
          hmi2 hs2 ⟨b0, b1⟩ hm1 hd1 hh1 hmi1 hs1 ⟨a0, a1⟩ h
        omega
    · intro h
      simp only [List.cons.injEq, and_true] at h
      obtain ⟨rfl, rfl, rfl, rfl, rfl, rfl, rfl⟩ := h
      rfl

/-- Witness of C17 at 2020-02-29T23:59:59.999 and 2020-03-01T00:00:00.000. -/
theorem order_is_lexicographic_witness :
    ∃ (a b : DateTime) (k1 k2 : Int),
      DateTime.DateTime 2020 2 29 23 59 59 (Double.ofInt 999) = .ok a ∧
      DateTime.DateTime 2020 3 1 0 0 0 (Double.ofInt 0) = .ok b ∧
      (Double.ofInt 999).toLongLong = some k1 ∧ (Double.ofInt 0).toLongLong = some k2 ∧
      (a.operator_lt b = true ↔
        Spec.lexLt [2020, 2, 29, 23, 59, 59, k1] [2020, 3, 1, 0, 0, 0, k2] = true) ∧
      (a.operator_eq b = true ↔
        [2020, 2, 29, 23, 59, 59, k1] = [2020, 3, 1, 0, 0, 0, k2]) :=
  order_is_lexicographic 2020 2 29 23 59 59 (Double.ofInt 999) 2020 3 1 0 0 0 (Double.ofInt 0)
    (by decide) (by decide) (by decide) (by decide) (by decide) (by decide) (by decide)
    (by decide) (by decide) (by decide) (by decide) (by decide) (by decide) (by decide)

/-! ## Claims about the two renderings and the formatter -/

/-- The string `toString()` returns for an instant given by a date that exists and a time of
day. -/
theorem toString_of_parts (y m d h mi s k : Int) (hy : 1 ≤ y ∧ y ≤ 9999)
    (hm : 1 ≤ m ∧ m ≤ 12) (hd : 1 ≤ d ∧ d ≤ Spec.daysInMonth y m)
    (hh : 0 ≤ h ∧ h ≤ 23) (hmi : 0 ≤ mi ∧ mi ≤ 59) (hs : 0 ≤ s ∧ s ≤ 59)
    (hk : 0 ≤ k ∧ k ≤ 999) :
    DateTime.toString
      ⟨chrono.year_month_day.to_days ⟨y, m, d⟩ * 86400000 + h * 3600000 + mi * 60000
        + s * 1000 + k⟩ = String.mk
      (fmt.zeroPad 4 y.toNat ++ ['-'] ++ fmt.zeroPad 2 m.toNat ++ ['-']
        ++ fmt.zeroPad 2 d.toNat ++ ['T'] ++ fmt.zeroPad 2 h.toNat
        ++ [':'] ++ fmt.zeroPad 2 mi.toNat ++ [':']
        ++ fmt.zeroPad 2 s.toNat ++ ['.'] ++ fmt.zeroPad 3 k.toNat ++ ['Z']) := by
  obtain ⟨f1, f2, f3⟩ := fieldsOf_seconds y m d h mi s hy hm hd hh hmi hs
  simp only [DateTime.toString]
  rw [floor_seconds_of_parts _ _ _ _ _ hk, renderItems_isoItems _ f3, f1, f2]
  have e : chrono.year_month_day.to_days ⟨y, m, d⟩ * 86400000 + h * 3600000
      + mi * 60000 + s * 1000 + k
      - (chrono.year_month_day.to_days ⟨y, m, d⟩ * 86400 + h * 3600 + mi * 60 + s) * 1000
      = k := by ring
  rw [e]
  have e2 : fmt.formatInt03 k = fmt.zeroPad 3 k.toNat := by
    unfold fmt.formatInt03
    rw [if_neg (by omega)]
    congr 1
    omega
  have e3 : fmt.renderYear y = fmt.zeroPad 4 y.toNat := by
    unfold fmt.renderYear fmt.zeroPadInt
    rw [if_neg (by omega)]
    congr 1
    omega
  rw [e2, e3]

/-- The elements of the template `%Y-%m-%dT%H:%M:%SZ`. -/
theorem isoTemplate_text :
    ("%Y-%m-%dT%H:%M:%SZ" : String).data = Spec.templateText
      [.conv none 'Y', .lit '-', .conv none 'm', .lit '-', .conv none 'd', .lit 'T',
       .conv none 'H', .lit ':', .conv none 'M', .lit ':', .conv none 'S', .lit 'Z'] := by
  decide

/-- C19. The two rendering paths agree: for every `DateTime` built from valid components,
`toString()` returns the same string as `toString("%Y-%m-%dT%H:%M:%SZ")`, also for instants
before 1970 and for a millisecond component of 0. -/
theorem rendering_paths_agree (year month day hours minutes seconds : Int)
    (milliseconds : Double)
    (hy : 1 ≤ year ∧ year ≤ 9999) (hm : 1 ≤ month ∧ month ≤ 12)
    (hd : 1 ≤ day ∧ day ≤ Spec.daysInMonth year month)
    (hh : 0 ≤ hours ∧ hours ≤ 23) (hmi : 0 ≤ minutes ∧ minutes ≤ 59)
    (hs : 0 ≤ seconds ∧ seconds ≤ 59)
    (hms : milliseconds.ge (Double.ofInt 0) = true ∧
      milliseconds.lt (Double.ofInt 1000) = true) :
    ∃ dt : DateTime,
      DateTime.DateTime year month day hours minutes seconds milliseconds = .ok dt ∧
      dt.toString_format "%Y-%m-%dT%H:%M:%SZ" = .ok dt.toString := by
  obtain ⟨k, k0, k1, _, _, _, hc⟩ :=
    ctor_of_valid year month day hours minutes seconds milliseconds hy hm hd hh hmi hs hms
  refine ⟨_, hc, ?_⟩
  rw [toString_of_parts year month day hours minutes seconds k hy hm hd hh hmi hs ⟨k0, k1⟩]
  obtain ⟨f1, f2, f3⟩ := fieldsOf_milliseconds year month day hours minutes seconds k hy hm hd
    hh hmi hs ⟨k0, k1⟩
  unfold DateTime.toString_format
  rw [isoTemplate_text, vformat_templateText .milliseconds _ none 'Y' _ (by decide)]
  generalize fmt.fieldsOf .milliseconds
    (chrono.year_month_day.to_days ⟨year, month, day⟩ * 86400000 + hours * 3600000
      + minutes * 60000 + seconds * 1000 + k) = f at f1 f2 f3
  have hY : ∀ b, fmt.renderConv f b 'Y' = fmt.renderYear f.ymd.y := fun _ => rfl
  have hm : ∀ b, fmt.renderConv f b 'm' = fmt.zeroPad 2 f.ymd.m.toNat := fun _ => rfl
  have hd : ∀ b, fmt.renderConv f b 'd' = fmt.zeroPad 2 f.ymd.d.toNat := fun _ => rfl
  have hH : ∀ b, fmt.renderConv f b 'H' = fmt.zeroPad 2 f.hms.hours.toNat := fun _ => rfl
  have hM : ∀ b, fmt.renderConv f b 'M' = fmt.zeroPad 2 f.hms.minutes.toNat := fun _ => rfl
  have hS : ∀ b, fmt.renderConv f b 'S' = fmt.renderSeconds f := fun _ => rfl
  have e3 : fmt.renderYear year = fmt.zeroPad 4 year.toNat := by
    unfold fmt.renderYear fmt.zeroPadInt
    rw [if_neg (by omega)]
    congr 1
    omega
  simp only [fmt.renderItems, fmt.renderItem, hY, hm, hd, hH, hM, hS, fmt.renderSeconds, f1, f2,
    f3, e3]
  simp

/-- Witness of C19 at 1969-12-31T23:59:59 with milliseconds 0, before 1970. -/
theorem rendering_paths_agree_witness :
    ∃ dt : DateTime,
      DateTime.DateTime 1969 12 31 23 59 59 (Double.ofInt 0) = .ok dt ∧
      dt.toString_format "%Y-%m-%dT%H:%M:%SZ" = .ok dt.toString :=
  rendering_paths_agree 1969 12 31 23 59 59 (Double.ofInt 0) (by decide) (by decide)
    (by decide) (by decide) (by decide) (by decide) (by decide)

/-- A text without closing brace, followed by one: what lies in front of the closing brace
and what lies from it on. -/
theorem span_closing_brace (l : List Char) (h : fmt.rbrace ∉ l) :
    (l ++ [fmt.rbrace]).takeWhile (fun x => x ≠ fmt.rbrace) = l ∧
    (l ++ [fmt.rbrace]).dropWhile (fun x => x ≠ fmt.rbrace) = [fmt.rbrace] := by
  induction l with
  | nil => simp [List.takeWhile, List.dropWhile]
  | cons c rest ih =>
    have hc : c ≠ fmt.rbrace := fun hcon => h (by simp [hcon])
    have hr : fmt.rbrace ∉ rest := fun hcon => h (List.mem_cons_of_mem _ hcon)
    obtain ⟨i1, i2⟩ := ih hr
    have hp : (decide (c ≠ fmt.rbrace)) = true := by simpa using hc
    rw [List.cons_append, List.takeWhile_cons, List.dropWhile_cons, hp]
    simp only [if_true]
    exact ⟨by rw [i1], i2⟩

/-- The host call once the formatter has parsed the spec up to the closing brace of the
replacement field: the output of the library call on the chrono format. -/
theorem format_DateTime_of_parse (spec cf out : List Char) (dt : DateTime)
    (hparse : formatter.initial.parse (spec ++ [fmt.rbrace])
      = ({ chronoFormat := cf }, [fmt.rbrace]))
    (hv : fmt.vformat .milliseconds dt.m_timePoint cf = .ok out) :
    format_DateTime spec dt = .ok out := by
  unfold format_DateTime
  rw [hparse]
  simp only [formatter.format, hv, fmt.scanText, if_true, List.append_nil]

/-- C11. The generic formatter `std::formatter<onion::DateTime>` delegates to the
custom-format rendering: formatting a `DateTime` with an empty format spec yields the same
string as `toString("%d-%m-%Y %H:%M:%S")`, which is not the ISO rendering of `toString()`;
and for every non-empty template without closing brace that `toString` accepts, formatting
with that spec yields the same string as `toString` of that template. -/
theorem formatter_delegates :
    (∀ dt : DateTime, ∃ s : String,
      dt.toString_format "%d-%m-%Y %H:%M:%S" = .ok s ∧ format_DateTime [] dt = .ok s.data) ∧
    (∀ (dt : DateTime) (T s : String), T.data ≠ [] → fmt.rbrace ∉ T.data →
      dt.toString_format T = .ok s → format_DateTime T.data dt = .ok s.data) ∧
    format_DateTime [] (DateTime.mk 1599833155123) = .ok "11-09-2020 14:05:55.123".data ∧
    (DateTime.mk 1599833155123).toString = "2020-09-11T14:05:55.123Z" := by
  refine ⟨?_, ?_, by decide, by decide⟩
  · intro dt
    have e : ("%d-%m-%Y %H:%M:%S" : String).data = Spec.templateText
        [.conv none 'd', .lit '-', .conv none 'm', .lit '-', .conv none 'Y', .lit ' ',
         .conv none 'H', .lit ':', .conv none 'M', .lit ':', .conv none 'S'] := by decide
    have hv := vformat_templateText .milliseconds dt.m_timePoint none 'd'
      [.lit '-', .conv none 'm', .lit '-', .conv none 'Y', .lit ' ',
       .conv none 'H', .lit ':', .conv none 'M', .lit ':', .conv none 'S'] (by decide)
    rw [← e] at hv
    refine ⟨String.mk (fmt.renderItems (fmt.fieldsOf .milliseconds dt.m_timePoint)
      [.conv none 'd', .lit '-', .conv none 'm', .lit '-', .conv none 'Y', .lit ' ',
       .conv none 'H', .lit ':', .conv none 'M', .lit ':', .conv none 'S']), ?_, ?_⟩
    · unfold DateTime.toString_format
      rw [hv]
    · exact format_DateTime_of_parse [] ("%d-%m-%Y %H:%M:%S" : String).data _ dt
        (by decide) hv
  · intro dt T s hne hnb hts
    obtain ⟨c, rest, hT⟩ : ∃ c rest, T.data = c :: rest := by
      cases hd : T.data with
      | nil => exact absurd hd hne
      | cons c rest => exact ⟨c, rest, rfl⟩
    have hc : c ≠ fmt.rbrace := by
      intro hcon
      apply hnb
      rw [hT, hcon]
      exact List.mem_cons_self _ _
    obtain ⟨sp1, sp2⟩ := span_closing_brace T.data hnb
    have hp : formatter.initial.parse (T.data ++ [fmt.rbrace])
        = ({ chronoFormat := T.data }, [fmt.rbrace]) := by
      have hp0 : formatter.initial.parse (c :: (rest ++ [fmt.rbrace])) =
          ({ chronoFormat := (c :: (rest ++ [fmt.rbrace])).takeWhile
              (fun x => x ≠ fmt.rbrace) },
            (c :: (rest ++ [fmt.rbrace])).dropWhile (fun x => x ≠ fmt.rbrace)) := by
        simp only [formatter.parse]
        rw [if_pos hc]
      rw [hT] at sp1 sp2 ⊢
      rw [List.cons_append] at sp1 sp2 ⊢
      rw [hp0, sp1, sp2]
    have hv : fmt.vformat .milliseconds dt.m_timePoint T.data = .ok s.data := by
      unfold DateTime.toString_format at hts
      cases hvf : fmt.vformat .milliseconds dt.m_timePoint T.data with
      | error e => rw [hvf] at hts; cases hts
      | ok out =>
        rw [hvf] at hts
        simp only [Except.ok.injEq] at hts
        rw [← hts]
    exact format_DateTime_of_parse T.data T.data s.data dt hp hv

/-- Witness of C11 at the template `%F %T`. -/
theorem formatter_delegates_witness :
    format_DateTime ("%F %T" : String).data (DateTime.mk 1599833155123)
      = .ok ("2020-09-11 14:05:55.123" : String).data :=
  formatter_delegates.2.1 ⟨1599833155123⟩ "%F %T" "2020-09-11 14:05:55.123" (by decide)
    (by decide) (by decide)

end onion
